import Mathlib

/-!
# ID generators: a shallow embedding

The generators of the repository are embedded as pure functions.  Every
`uint64_t` is a natural number and the wrap-around of the machine operations
is written out (`% 2 ^ 64`).  Each generator reads the wall clock through
`current_time_millis()`; here the clock is the list of readings that the
successive reads will see, and every read pops the head of that list.  A call
that needs a reading when none is left has not returned yet (`Outcome.blocked`).
-/

namespace IdGen

/-! ## uint64 arithmetic -/

/-- Wrap-around addition of two `uint64_t`. -/
def add64 (a b : Nat) : Nat := (a + b) % 2 ^ 64

/-- Wrap-around subtraction of two `uint64_t`. -/
def sub64 (a b : Nat) : Nat := (a + (2 ^ 64 - b % 2 ^ 64)) % 2 ^ 64

/-- Left shift of a `uint64_t`, bits shifted past bit 63 are lost. -/
def shl64 (a k : Nat) : Nat := (a <<< k) % 2 ^ 64

/-! ## Shared parameters (`id_generator.h`) -/

def EPOCH : Nat := 1767225600000
def NODE_ID_BITS : Nat := 10
def SEQUENCE_BITS : Nat := 12
def MAX_NODE_ID : Nat := shl64 1 NODE_ID_BITS - 1
def MAX_SEQUENCE : Nat := shl64 1 SEQUENCE_BITS - 1
def NODE_ID_SHIFT : Nat := SEQUENCE_BITS
def TIMESTAMP_SHIFT : Nat := SEQUENCE_BITS + NODE_ID_BITS

/-- What a call of `next_id` does with the clock readings it is given:
it returns an ID, leaving a generator state and the unread readings; or it
throws `runtime_error`; or it is still waiting for a reading. -/
inductive Outcome (σ : Type) where
  | returned (id : Nat) (g : σ) (clock : List Nat)
  | thrown
  | blocked
  deriving DecidableEq

/-- The helper `get_node_id_from_ip` of `network_util.h`: `addr` is the first
IPv4 address of an interface other than `lo`, in host order, when there is
one; the fallback is `1`. -/
def get_node_id_from_ip (addr : Option Nat) (mask : Nat) : Nat :=
  match addr with
  | some ip => ip &&& mask
  | none => 1

/-! ## Snowflake (`lib/snowflake/snowflake.cpp`) -/

structure Snowflake where
  node_id : Nat
  sequence : Nat
  last_timestamp : Nat
  deriving DecidableEq

namespace Snowflake

/-- The constructor `Snowflake()`. -/
def new (addr : Option Nat) : Snowflake :=
  { node_id := get_node_id_from_ip addr MAX_NODE_ID &&& MAX_NODE_ID,
    sequence := 0, last_timestamp := 0 }

/-- The spin loop `wait_for_next_millis`: reads the clock until a reading is
past `last_ts`. -/
def wait_for_next_millis (last_ts : Nat) : List Nat → Option (Nat × List Nat)
  | [] => none
  | timestamp :: clock =>
    if timestamp ≤ last_ts then wait_for_next_millis last_ts clock
    else some (timestamp, clock)

/-- The tail of `next_id`: store the timestamp, pack the ID from the timestamp,
the node id and `sequence.load()`. -/
def emit (g : Snowflake) (timestamp : Nat) (clock : List Nat) : Outcome Snowflake :=
  let id := shl64 (sub64 timestamp EPOCH) TIMESTAMP_SHIFT |||
            shl64 g.node_id NODE_ID_SHIFT |||
            g.sequence
  .returned id { g with last_timestamp := timestamp } clock

/-- The method `Snowflake::next_id`. -/
def next_id (g : Snowflake) : List Nat → Outcome Snowflake
  | [] => .blocked
  | timestamp :: clock =>
    let last_ts := g.last_timestamp
    if timestamp < last_ts then
      .returned 0 g clock
    else if timestamp = last_ts then
      -- `sequence.fetch_add(1)` stores the incremented counter
      let g1 := { g with sequence := add64 g.sequence 1 }
      let seq := add64 g.sequence 1 &&& MAX_SEQUENCE
      if seq = 0 then
        match wait_for_next_millis last_ts clock with
        | none => .blocked
        | some (timestamp, clock) => emit g1 timestamp clock
      else emit g1 timestamp clock
    else
      emit { g with sequence := 0 } timestamp clock

/-- `n` calls of `next_id` one after another: the IDs in order, the final
state and the unread clock readings. -/
def run (g : Snowflake) : Nat → List Nat → Option (List Nat × Snowflake × List Nat)
  | 0, clock => some ([], g, clock)
  | n + 1, clock =>
    match next_id g clock with
    | .returned id g1 clock1 =>
      match run g1 n clock1 with
      | some (ids, g2, clock2) => some (id :: ids, g2, clock2)
      | none => none
    | _ => none

end Snowflake

/-! ## HlcSnowflake (`lib/hlc-snowflake/hlc_snowflake.cpp`) -/

structure HlcSnowflake where
  node_id : Nat
  state : Nat
  deriving DecidableEq

namespace HlcSnowflake

/-- The constructor `HlcSnowflake()`; `pt` is the clock reading it takes. -/
def new (addr : Option Nat) (pt : Nat) : HlcSnowflake :=
  { node_id := get_node_id_from_ip addr MAX_NODE_ID &&& MAX_NODE_ID,
    state := shl64 pt SEQUENCE_BITS }

/-- One pass through the body of the CAS loop of `next_id`, from the loaded
`current_state` and the clock reading `pt`: the values of `next_state`,
`next_pt` and `next_seq` at the end of the pass. -/
def pass (current_state pt : Nat) : Nat × Nat × Nat :=
  let last_pt := current_state >>> SEQUENCE_BITS
  let seq := current_state &&& MAX_SEQUENCE
  let (next_pt, next_seq) :=
    if pt > last_pt then
      (pt, 0)
    else
      let next_pt := last_pt
      let next_seq := add64 seq 1
      if next_seq > MAX_SEQUENCE then (add64 next_pt 1, 0) else (next_pt, next_seq)
  (shl64 next_pt SEQUENCE_BITS ||| next_seq, next_pt, next_seq)

/-- The method `HlcSnowflake::next_id`, called while no other thread touches
the generator: the compare-and-swap finds the state that was loaded, so the
loop body runs once and `next_state` is stored. -/
def next_id (g : HlcSnowflake) (pt : Nat) : Nat × HlcSnowflake :=
  let (next_state, next_pt, next_seq) := pass g.state pt
  let id := shl64 (sub64 next_pt EPOCH) TIMESTAMP_SHIFT |||
            shl64 g.node_id NODE_ID_SHIFT |||
            next_seq
  (id, { g with state := next_state })

/-- The logical timestamp `next_pt` that a call of `next_id` settles on. -/
def logical_ts (g : HlcSnowflake) (pt : Nat) : Nat := (pass g.state pt).2.1

/-- Successive calls of `next_id`, one per clock reading: the IDs in order. -/
def run (g : HlcSnowflake) : List Nat → List Nat
  | [] => []
  | pt :: clock => (next_id g pt).1 :: run (next_id g pt).2 clock

/-- The logical timestamps of the same calls, in order. -/
def timestamps (g : HlcSnowflake) : List Nat → List Nat
  | [] => []
  | pt :: clock => logical_ts g pt :: timestamps (next_id g pt).2 clock

end HlcSnowflake

/-! ## InstaSnowflake (`lib/insta-snowflake/`) -/

def INSTA_SHARD_ID_BITS : Nat := 13
def INSTA_SEQUENCE_BITS : Nat := 10
def MAX_INSTA_SHARD_ID : Nat := shl64 1 INSTA_SHARD_ID_BITS - 1
def MAX_INSTA_SEQUENCE : Nat := shl64 1 INSTA_SEQUENCE_BITS - 1
def INSTA_SHARD_ID_SHIFT : Nat := INSTA_SEQUENCE_BITS
def INSTA_TIMESTAMP_SHIFT : Nat := INSTA_SEQUENCE_BITS + INSTA_SHARD_ID_BITS

/-- What the spin loops of InstaSnowflake and Sonyflake end with. -/
inductive Waited where
  | advanced (timestamp : Nat) (clock : List Nat)
  | regressed
  | starved
  deriving DecidableEq

/-- The spin loop shared by `InstaSnowflake::wait_for_next_millis` and
`Sonyflake::wait_for_next_10ms`: it reads the clock until a reading is past
`last_ts` and throws when a reading is below `last_ts`. -/
def wait_for_next_tick (last_ts : Nat) : List Nat → Waited
  | [] => .starved
  | timestamp :: clock =>
    if timestamp ≤ last_ts then
      if timestamp < last_ts then .regressed
      else wait_for_next_tick last_ts clock
    else .advanced timestamp clock

structure InstaSnowflake where
  shard_id : Nat
  sequence : Nat
  last_timestamp : Nat
  deriving DecidableEq

namespace InstaSnowflake

/-- The constructor `InstaSnowflake()`. -/
def new (addr : Option Nat) : InstaSnowflake :=
  { shard_id := get_node_id_from_ip addr MAX_INSTA_SHARD_ID,
    sequence := 0, last_timestamp := 0 }

/-- The tail of `next_id`: store the timestamp and pack the ID. -/
def emit (g : InstaSnowflake) (timestamp : Nat) (clock : List Nat) :
    Outcome InstaSnowflake :=
  let id := shl64 (sub64 timestamp EPOCH) INSTA_TIMESTAMP_SHIFT |||
            shl64 g.shard_id INSTA_SHARD_ID_SHIFT |||
            g.sequence
  .returned id { g with last_timestamp := timestamp } clock

/-- The method `InstaSnowflake::next_id`. -/
def next_id (g : InstaSnowflake) : List Nat → Outcome InstaSnowflake
  | [] => .blocked
  | timestamp :: clock =>
    let last_ts := g.last_timestamp
    if timestamp < last_ts then
      .returned 0 g clock
    else if timestamp = last_ts then
      let g1 := { g with sequence := add64 g.sequence 1 }
      let seq := add64 g.sequence 1 &&& MAX_INSTA_SEQUENCE
      if seq = 0 then
        match wait_for_next_tick last_ts clock with
        | .starved => .blocked
        | .regressed => .thrown
        | .advanced timestamp clock => emit g1 timestamp clock
      else emit g1 timestamp clock
    else
      emit { g with sequence := 0 } timestamp clock

end InstaSnowflake

/-! ## Sonyflake (`lib/sonyflake/`) -/

def SONY_TIME_BITS : Nat := 39
def SONY_SEQUENCE_BITS : Nat := 8
def SONY_MACHINE_ID_BITS : Nat := 16
def MAX_SONY_SEQUENCE : Nat := shl64 1 SONY_SEQUENCE_BITS - 1
def MAX_SONY_MACHINE_ID : Nat := shl64 1 SONY_MACHINE_ID_BITS - 1
def SONY_MACHINE_ID_SHIFT : Nat := 0
def SONY_SEQUENCE_SHIFT : Nat := SONY_MACHINE_ID_BITS
def SONY_TIMESTAMP_SHIFT : Nat := SONY_SEQUENCE_BITS + SONY_MACHINE_ID_BITS
def SONY_EPOCH_10MS : Nat := EPOCH / 10

structure Sonyflake where
  machine_id : Nat
  sequence : Nat
  last_timestamp : Nat
  deriving DecidableEq

namespace Sonyflake

/-- The constructor `Sonyflake()`. -/
def new (addr : Option Nat) : Sonyflake :=
  { machine_id := get_node_id_from_ip addr MAX_SONY_MACHINE_ID,
    sequence := 0, last_timestamp := 0 }

/-- The tail of `next_id`: store the tick and pack the ID, in the order
time, sequence, machine. -/
def emit (g : Sonyflake) (timestamp : Nat) (clock : List Nat) : Outcome Sonyflake :=
  let id := shl64 (sub64 timestamp SONY_EPOCH_10MS) SONY_TIMESTAMP_SHIFT |||
            shl64 g.sequence SONY_SEQUENCE_SHIFT |||
            shl64 g.machine_id SONY_MACHINE_ID_SHIFT
  .returned id { g with last_timestamp := timestamp } clock

/-- The method `Sonyflake::next_id`; the clock readings are the 10 ms ticks
that `current_time_10ms()` returns. -/
def next_id (g : Sonyflake) : List Nat → Outcome Sonyflake
  | [] => .blocked
  | timestamp :: clock =>
    let last_ts := g.last_timestamp
    if timestamp < last_ts then
      .returned 0 g clock
    else if timestamp = last_ts then
      let g1 := { g with sequence := add64 g.sequence 1 }
      let seq := add64 g.sequence 1 &&& MAX_SONY_SEQUENCE
      if seq = 0 then
        match wait_for_next_tick last_ts clock with
        | .starved => .blocked
        | .regressed => .thrown
        | .advanced timestamp clock => emit g1 timestamp clock
      else emit g1 timestamp clock
    else
      emit { g with sequence := 0 } timestamp clock

/-- `n` calls of `next_id` one after another: the IDs in order, the final
state and the unread clock readings; `none` when a call throws or is left
waiting for the clock. -/
def run (g : Sonyflake) : Nat → List Nat → Option (List Nat × Sonyflake × List Nat)
  | 0, clock => some ([], g, clock)
  | n + 1, clock =>
    match next_id g clock with
    | .returned id g1 clock1 =>
      match run g1 n clock1 with
      | some (ids, g2, clock2) => some (id :: ids, g2, clock2)
      | none => none
    | _ => none

end Sonyflake

/-! ## The HLC step in the words of the specification -/

/-- The candidate `(n_ts, n_seq)` of section 4.4 of the specification, from the
stored pair `(l_ts, l_seq)` and the clock reading `pt`. -/
def hlc_spec_step (l_ts l_seq pt : Nat) : Nat × Nat :=
  if pt > l_ts then (pt, 0)
  else if l_seq + 1 ≤ 4095 then (l_ts, l_seq + 1)
  else (l_ts + 1, 0)

/-! ## Clock inputs used in the evaluations below -/

/-- Clock readings that keep a Snowflake busy through `n` milliseconds in a row,
from millisecond `EPOCH + k` on: 4096 readings of each millisecond, then the
first reading of the next one, and `tail` at the end. -/
def busy_clock (k : Nat) : Nat → List Nat → List Nat
  | 0, tail => tail
  | n + 1, tail =>
    List.replicate 4096 (EPOCH + k) ++ (EPOCH + k + 1) :: busy_clock (k + 1) n tail

/-- The clock of a Snowflake that is called 4096 times in each of the
milliseconds `EPOCH`, ..., `EPOCH + 1023`, once more when the clock reaches
`EPOCH + 1024` and once at `EPOCH + 1025`. -/
def overflow_clock : List Nat :=
  EPOCH :: busy_clock 0 1023
    (List.replicate 4096 (EPOCH + 1023) ++ [EPOCH + 1024, EPOCH + 1025])

/-- The ticks of a Sonyflake that is called 257 times in tick
`SONY_EPOCH_10MS + 1`, sees the next tick when the 257th call waits, and is
called once more a tick later. -/
def sony_overflow_clock : List Nat :=
  List.replicate 257 (SONY_EPOCH_10MS + 1) ++ [SONY_EPOCH_10MS + 2, SONY_EPOCH_10MS + 3]

/-! ## EtcdSnowflake: emission (`lib/etcd-snowflake/etcd_snowflake.cpp`) -/

/-- The state that `EtcdSnowflake::next_id` reads and writes; the endpoint and
the lease id are not touched by it. -/
structure EtcdSnowflake where
  node_id : Nat
  sequence : Nat
  last_timestamp : Nat
  deriving DecidableEq

namespace EtcdSnowflake

/-- The spin loop `EtcdSnowflake::wait_for_next_millis`. -/
def wait_for_next_millis (last_ts : Nat) : List Nat → Option (Nat × List Nat)
  | [] => none
  | timestamp :: clock =>
    if timestamp ≤ last_ts then wait_for_next_millis last_ts clock
    else some (timestamp, clock)

/-- The method `EtcdSnowflake::next_id`. -/
def next_id (g : EtcdSnowflake) : List Nat → Outcome EtcdSnowflake
  | [] => .blocked
  | timestamp :: clock =>
    let last_ts := g.last_timestamp
    if timestamp < last_ts then
      .returned 0 g clock
    else
      let step : Option (EtcdSnowflake × Nat × List Nat) :=
        if timestamp = last_ts then
          let g1 := { g with sequence := add64 g.sequence 1 }
          let seq := add64 g.sequence 1 &&& MAX_SEQUENCE
          if seq = 0 then
            match wait_for_next_millis last_ts clock with
            | none => none
            | some (timestamp, clock) => some (g1, timestamp, clock)
          else some (g1, timestamp, clock)
        else
          some ({ g with sequence := 0 }, timestamp, clock)
      match step with
      | none => .blocked
      | some (g2, timestamp, clock) =>
        let g3 := { g2 with last_timestamp := timestamp }
        let id := shl64 (sub64 timestamp EPOCH) TIMESTAMP_SHIFT |||
                  shl64 g3.node_id NODE_ID_SHIFT |||
                  g3.sequence
        .returned id g3 clock

/-- The same generator state seen as a baseline Snowflake. -/
def toSnowflake (g : EtcdSnowflake) : Snowflake :=
  { node_id := g.node_id, sequence := g.sequence, last_timestamp := g.last_timestamp }

/-- `n` calls of `next_id` one after another. -/
def run (g : EtcdSnowflake) : Nat → List Nat → Option (List Nat × EtcdSnowflake × List Nat)
  | 0, clock => some ([], g, clock)
  | n + 1, clock =>
    match next_id g clock with
    | .returned id g1 clock1 =>
      match run g1 n clock1 with
      | some (ids, g2, clock2) => some (id :: ids, g2, clock2)
      | none => none
    | _ => none

end EtcdSnowflake

/-- An outcome with its generator state seen through `f`. -/
def Outcome.map {σ τ : Type} (f : σ → τ) : Outcome σ → Outcome τ
  | .returned id g clock => .returned id (f g) clock
  | .thrown => .thrown
  | .blocked => .blocked

/-! ## Generator selection (`id_generator.cpp`, `main`) -/

/-- The classes that `main` can instantiate. -/
inductive GeneratorKind where
  | Snowflake
  | HlcSnowflake
  | InstaSnowflake
  | Sonyflake
  | UuidV4Generator
  | UuidV7Generator
  | DbAutoIncGenerator
  | DualBufferGenerator
  | EtcdSnowflake
  | SpannerGenerator
  | SpannerTrueTimeGenerator
  deriving DecidableEq

/-- Step 1 of `main`: `gen_type_env` is what `getenv("GENERATOR_TYPE")`
returned, `none` for a null pointer. -/
def select_generator (gen_type_env : Option String) : GeneratorKind :=
  let gen_type : String :=
    match gen_type_env with
    | some s => s
    | none => "SNOWFLAKE"
  if gen_type = "HLC_SNOWFLAKE" then .HlcSnowflake
  else if gen_type = "INSTA_SNOWFLAKE" then .InstaSnowflake
  else if gen_type = "SONYFLAKE" then .Sonyflake
  else if gen_type = "UUIDV4" then .UuidV4Generator
  else if gen_type = "UUIDV7" then .UuidV7Generator
  else if gen_type = "DB_AUTO_INC" then .DbAutoIncGenerator
  else if gen_type = "DUAL_BUFFER" then .DualBufferGenerator
  else if gen_type = "ETCD_SNOWFLAKE" then .EtcdSnowflake
  else if gen_type = "SPANNER" then .SpannerGenerator
  else if gen_type = "SPANNER_TRUETIME" then .SpannerTrueTimeGenerator
  else .Snowflake

/-! ## DbAutoIncGenerator (`lib/db-auto-inc/db_auto_inc.cpp`) -/

/-- What one call of `DbAutoIncGenerator::next_id` did: the value returned, the
number of `REPLACE INTO` statements issued and whether the connection was
closed and opened again. -/
structure TicketCall where
  id : Nat
  statements : Nat
  reconnected : Bool
  deriving DecidableEq

namespace DbAutoIncGenerator

/-- The method `DbAutoIncGenerator::next_id`.  The database is given by the
outcome of each `mysql_query` the call may issue: `none` when the statement
fails, `some id` when it succeeds and `mysql_insert_id` then reads `id`;
`first` is the outcome on the connection held, `second` the outcome on the
connection opened by the retry. -/
def next_id (first second : Option Nat) : TicketCall :=
  match first with
  | some id => { id := id, statements := 1, reconnected := false }
  | none =>
    match second with
    | some id => { id := id, statements := 2, reconnected := true }
    | none => { id := 0, statements := 2, reconnected := true }

end DbAutoIncGenerator


/-! ## Decimal output (`std::to_string`) -/

/-- The decimal digits of `n`, most significant first: `fuel` bounds the number
of digits and `acc` holds the digits already produced. -/
def dec_core : Nat → Nat → List Char → List Char
  | 0, _, acc => acc
  | fuel + 1, n, acc =>
    if n / 10 = 0 then Nat.digitChar (n % 10) :: acc
    else dec_core fuel (n / 10) (Nat.digitChar (n % 10) :: acc)

/-- The call `std::to_string(n)` for a `uint64_t`, which has at most 20
decimal digits, and for an `int` that is not negative. -/
def to_string (n : Nat) : String := String.mk (dec_core 20 n [])

/-! ## EtcdSnowflake: the node-id claim (`EtcdSnowflake::claim_node_id`) -/

/-- Whether the text starts with the pattern. -/
def starts_with : List Char → List Char → Bool
  | [], _ => true
  | _ :: _, [] => false
  | p :: ps, c :: cs => p == c && starts_with ps cs

/-- Whether the pattern occurs somewhere in the text. -/
def occurs_in (pat : List Char) : List Char → Bool
  | [] => starts_with pat []
  | c :: cs => starts_with pat (c :: cs) || occurs_in pat cs

/-- The test `s.find(pat) != string::npos`. -/
def str_contains (s pat : String) : Bool := occurs_in pat.data s.data

/-- How `claim_node_id` ends: with a node id, or with `runtime_error`. -/
inductive ClaimResult where
  | claimed (node_id : Nat)
  | failed
  deriving DecidableEq

namespace EtcdSnowflake

/-- The key of node `i`: `"uuid-generator/node/" + to_string(i)`. -/
def node_key (i : Nat) : String := "uuid-generator/node/" ++ to_string i

/-- The loop `for (int i = 0; i <= MAX_NODE_ID; ++i)` of `claim_node_id`, with
`fuel` iterations left from index `i` on: `txn_resp i` is the body of the
coordinator's answer to the transaction on the key of node `i`.  The result
comes with the keys on which a transaction was submitted, in order. -/
def claim_from (txn_resp : Nat → String) : Nat → Nat → ClaimResult × List String
  | 0, _ => (.failed, [])
  | fuel + 1, i =>
    if str_contains (txn_resp i) "\"succeeded\":true" then
      (.claimed i, [node_key i])
    else
      ((claim_from txn_resp fuel (i + 1)).1, node_key i :: (claim_from txn_resp fuel (i + 1)).2)

/-- The method `EtcdSnowflake::claim_node_id`: `lease_resp` is the body of the
coordinator's answer to the lease grant. -/
def claim_node_id (lease_resp : String) (txn_resp : Nat → String) :
    ClaimResult × List String :=
  if str_contains lease_resp "\"ID\":\"" then
    claim_from txn_resp (MAX_NODE_ID + 1) 0
  else
    (.failed, [])

end EtcdSnowflake


/-! ## UUID generators (`lib/uuidv4/`, `lib/uuidv7/`) -/

/-- The hexadecimal digits of `n`, most significant first, as `std::hex` prints
them: `fuel` bounds the number of digits and `acc` holds the digits already
produced. -/
def hex_core : Nat → Nat → List Char → List Char
  | 0, _, acc => acc
  | fuel + 1, n, acc =>
    if n / 16 = 0 then Nat.digitChar (n % 16) :: acc
    else hex_core fuel (n / 16) (Nat.digitChar (n % 16) :: acc)

/-- Output of `ss << std::hex << n` for a `uint64_t`, which has at most 16
hexadecimal digits. -/
def to_hex (n : Nat) : List Char := hex_core 16 n []

/-- Output of `ss << std::hex << std::setfill('0') << std::setw(w) << n`: the
digits of `n`, padded on the left with `'0'` up to the width `w`. -/
def hex_setw (w n : Nat) : List Char :=
  List.replicate (w - (to_hex n).length) '0' ++ to_hex n

/-- The five groups of a UUID joined by `"-"`, as both generators format
them from the two 64-bit halves. -/
def format_uuid (part1 part2 : Nat) : String :=
  String.mk (hex_setw 8 (part1 >>> 32) ++ '-' :: hex_setw 4 ((part1 >>> 16) &&& 0xFFFF) ++
    '-' :: hex_setw 4 (part1 &&& 0xFFFF) ++ '-' :: hex_setw 4 (part2 >>> 48) ++
    '-' :: hex_setw 12 (part2 &&& 0xFFFFFFFFFFFF))

namespace UuidV4Generator

/-- The method `UuidV4Generator::next_id_string`; `part1` and `part2` are the
two values drawn from the random engine. -/
def next_id_string (part1 part2 : Nat) : String :=
  let part1 := (part1 &&& 0xFFFFFFFFFFFF0FFF) ||| 0x0000000000004000
  let part2 := (part2 &&& 0x3FFFFFFFFFFFFFFF) ||| 0x8000000000000000
  format_uuid part1 part2

end UuidV4Generator

namespace UuidV7Generator

/-- The method `UuidV7Generator::next_id_string`; `timestamp` is the clock
reading, `rand_a` and `rand_b` the two values drawn from the random engine. -/
def next_id_string (timestamp rand_a rand_b : Nat) : String :=
  let part1 := shl64 timestamp 16 ||| 0x7000 ||| (rand_a &&& 0x0FFF)
  let part2 := 0x8000000000000000 ||| (rand_b &&& 0x3FFFFFFFFFFFFFFF)
  format_uuid part1 part2

end UuidV7Generator

/-! ## The shape of a UUID string, in the words of the specification -/

/-- The class `[0-9a-f]`. -/
def is_lower_hex (c : Char) : Bool :=
  ('0' ≤ c && c ≤ '9') || ('a' ≤ c && c ≤ 'f')

/-- The class `[89ab]`. -/
def is_variant_char (c : Char) : Bool :=
  c == '8' || c == '9' || c == 'a' || c == 'b'

/-- A text matches a sequence of character classes when it has one character
per class, each in its class. -/
def matches_classes : List (Char → Bool) → List Char → Bool
  | [], [] => true
  | p :: ps, c :: cs => p c && matches_classes ps cs
  | _, _ => false

/-- The classes of `^[0-9a-f]{8}-[0-9a-f]{4}-V[0-9a-f]{3}-[89ab][0-9a-f]{3}-[0-9a-f]{12}$`
for the version character `V`. -/
def uuid_shape (version : Char) : List (Char → Bool) :=
  List.replicate 8 is_lower_hex ++ (fun c => c == '-') ::
    List.replicate 4 is_lower_hex ++ (fun c => c == '-') ::
    (fun c => c == version) :: List.replicate 3 is_lower_hex ++ (fun c => c == '-') ::
    is_variant_char :: List.replicate 3 is_lower_hex ++ (fun c => c == '-') ::
    List.replicate 12 is_lower_hex

/-- The value of a hexadecimal digit. -/
def hex_digit_value (c : Char) : Nat :=
  if c.toNat < 58 then c.toNat - 48 else c.toNat - 87

/-- The number that a string of hexadecimal digits denotes. -/
def hex_value (cs : List Char) : Nat :=
  cs.foldl (fun acc c => 16 * acc + hex_digit_value c) 0

/-- The `w` lowest hexadecimal digits of `n`, most significant first. -/
def fixed_hex : Nat → Nat → List Char
  | 0, _ => []
  | w + 1, n => fixed_hex w (n / 16) ++ [Nat.digitChar (n % 16)]


/-! ## DualBufferGenerator (`lib/dual-buffer/`) -/

structure Segment where
  current_id : Nat
  max_id : Nat
  step : Nat
  is_ready : Bool
  deriving DecidableEq

/-- The constructor `Segment()`. -/
def Segment.init : Segment :=
  { current_id := 1, max_id := 0, step := 1000, is_ready := false }

/-- The buffer state of the generator: `segments[0]`, `segments[1]`,
`current_pos` and `fetch_needed`. -/
structure DualBufferGenerator where
  segments0 : Segment
  segments1 : Segment
  current_pos : Nat
  fetch_needed : Bool
  deriving DecidableEq

/-- What a call of `DualBufferGenerator::next_id` ends with: an ID, the state
it leaves and the database answers not yet used; or the caller is left waiting
on `cv_consume`. -/
inductive Allocation where
  | returned (id : Nat) (g : DualBufferGenerator) (db : List (Option (Nat × Nat)))
  | waiting
  deriving DecidableEq

namespace DualBufferGenerator

/-- The element `segments[index]`. -/
def segments (g : DualBufferGenerator) (index : Nat) : Segment :=
  if index = 0 then g.segments0 else g.segments1

/-- The assignment `segments[index] = s`. -/
def set_segment (g : DualBufferGenerator) (index : Nat) (s : Segment) : DualBufferGenerator :=
  if index = 0 then { g with segments0 := s } else { g with segments1 := s }

/-- The assignment `fetch_needed = b`. -/
def set_fetch_needed (g : DualBufferGenerator) (b : Bool) : DualBufferGenerator :=
  { g with fetch_needed := b }

/-- The assignment `current_pos = p`. -/
def set_current_pos (g : DualBufferGenerator) (p : Nat) : DualBufferGenerator :=
  { g with current_pos := p }

/-- The method `fetch_segment(index)`: `row` is the row `(max_id, step)` that
the transaction read, `none` when a statement failed or no row came back. -/
def fetch_segment (g : DualBufferGenerator) (index : Nat) (row : Option (Nat × Nat)) :
    Bool × DualBufferGenerator :=
  match row with
  | none => (false, g)
  | some (max_id, step) =>
    (true, g.set_segment index
      { max_id := max_id, current_id := add64 (sub64 max_id step) 1, step := step,
        is_ready := true })

/-- The constructor: the answers of the database to the successive fetches are
`db`; it throws (`none`) when the initial fetch fails. -/
def new : List (Option (Nat × Nat)) → Option (DualBufferGenerator × List (Option (Nat × Nat)))
  | [] => none
  | row :: db =>
    let g : DualBufferGenerator :=
      { segments0 := Segment.init, segments1 := Segment.init, current_pos := 0,
        fetch_needed := false }
    if (g.fetch_segment 0 row).1 then some ((g.fetch_segment 0 row).2, db) else none

/-- The loop of `background_fetcher` once it is woken: while `fetch_needed` is
set it fetches into the segment `1 - current_pos`, clears the flag after a
fetch that succeeded and tries again after one that failed. -/
def background_fetcher (g : DualBufferGenerator) :
    List (Option (Nat × Nat)) → DualBufferGenerator × List (Option (Nat × Nat))
  | [] => (g, [])
  | row :: db =>
    if g.fetch_needed then
      let next_pos := 1 - g.current_pos
      if (g.fetch_segment next_pos row).1 then
        ((g.fetch_segment next_pos row).2.set_fetch_needed false, db)
      else background_fetcher (g.fetch_segment next_pos row).2 db
    else (g, row :: db)

/-- The loop `while (true)` of `next_id`, at most `fuel` times round.
`threshold step` stands for the conversion to `uint64_t` of the double
precision product `step * 0.2`.  A caller that waits on `cv_consume` lets the
background fetcher run. -/
def next_id_loop (threshold : Nat → Nat) :
    Nat → DualBufferGenerator → List (Option (Nat × Nat)) → Allocation
  | 0, _, _ => .waiting
  | fuel + 1, g, db =>
    let current_seg := g.segments g.current_pos
    if current_seg.current_id ≤ current_seg.max_id then
      let id := current_seg.current_id
      let current_seg := { current_seg with current_id := add64 current_seg.current_id 1 }
      let g := g.set_segment g.current_pos current_seg
      let remaining := add64 (sub64 current_seg.max_id current_seg.current_id) 1
      if remaining ≤ threshold current_seg.step &&
          !(g.segments (1 - g.current_pos)).is_ready && !g.fetch_needed then
        .returned id (g.set_fetch_needed true) db
      else
        .returned id g db
    else
      let next_pos := 1 - g.current_pos
      if (g.segments next_pos).is_ready then
        let g := g.set_segment g.current_pos { current_seg with is_ready := false }
        next_id_loop threshold fuel (g.set_current_pos next_pos) db
      else
        let g := g.set_fetch_needed true
        if ((background_fetcher g db).1.segments next_pos).is_ready then
          next_id_loop threshold fuel (background_fetcher g db).1 (background_fetcher g db).2
        else .waiting

/-- The method `next_id`: between two waits the loop goes round at most twice
and every wait uses up an answer of the database. -/
def next_id (threshold : Nat → Nat) (g : DualBufferGenerator)
    (db : List (Option (Nat × Nat))) : Allocation :=
  next_id_loop threshold (2 * db.length + 2) g db

/-- One call of `next_id`, after which a fetch that the call asked for
completes before anything else happens. -/
def serve (threshold : Nat → Nat) (g : DualBufferGenerator)
    (db : List (Option (Nat × Nat))) : Allocation :=
  match next_id threshold g db with
  | .returned id g1 db1 => .returned id (background_fetcher g1 db1).1 (background_fetcher g1 db1).2
  | .waiting => .waiting

/-- `n` calls served one after another: the IDs in order, the final state and
the database answers left. -/
def run (threshold : Nat → Nat) :
    Nat → DualBufferGenerator → List (Option (Nat × Nat)) →
      Option (List Nat × DualBufferGenerator × List (Option (Nat × Nat)))
  | 0, g, db => some ([], g, db)
  | n + 1, g, db =>
    match serve threshold g db with
    | .returned id g1 db1 =>
      match run threshold n g1 db1 with
      | some (ids, g2, db2) => some (id :: ids, g2, db2)
      | none => none
    | .waiting => none

end DualBufferGenerator

/-- The answers to `k` successive fetches of a database whose `id_segments` row
holds `(max_id, step)` and is updated by this generator only: each fetch adds
`step` to `max_id` and reads the row back. -/
def db_rows (max_id step : Nat) : Nat → List (Option (Nat × Nat))
  | 0 => []
  | k + 1 => some (max_id + step, step) :: db_rows (max_id + step) step k

/-- The number of fetches performed, from the answers supplied and those left. -/
def fetches_performed (supplied left : List (Option (Nat × Nat))) : Nat :=
  supplied.length - left.length

/-- The state of a generator that serves from the segment of IDs
`base + 1, ..., base + step`, has handed out `a` of them and has `k` database
answers left beyond the one for the next segment; the next segment is in the
sibling buffer once the threshold is reached (`step ≤ a + threshold step`
after an allocation). -/
def DualBufferGenerator.serving (threshold : Nat → Nat) (step base a k : Nat)
    (g : DualBufferGenerator) (db : List (Option (Nat × Nat))) : Prop :=
  g.current_pos ≤ 1 ∧ g.fetch_needed = false ∧ a ≤ step ∧
  g.segments g.current_pos =
    { current_id := base + a + 1, max_id := base + step, step := step, is_ready := true } ∧
  (if 1 ≤ a ∧ step ≤ a + threshold step then
    g.segments (1 - g.current_pos) =
      { current_id := base + step + 1, max_id := base + 2 * step, step := step,
        is_ready := true } ∧
    db = db_rows (base + 2 * step) step k
  else
    (g.segments (1 - g.current_pos)).is_ready = false ∧
    db = db_rows (base + step) step (k + 1))

/-- A new generator and `n` calls served one after another against the
database answers `db`. -/
def DualBufferGenerator.start_and_run (threshold : Nat → Nat)
    (db : List (Option (Nat × Nat))) (n : Nat) :
    Option (List Nat × DualBufferGenerator × List (Option (Nat × Nat))) :=
  match DualBufferGenerator.new db with
  | some (g, db1) => DualBufferGenerator.run threshold n g db1
  | none => none

/-- The segment invariant `current_id ≤ max_id + 1`. -/
def Segment.within (s : Segment) : Prop := s.current_id ≤ s.max_id + 1

/-- Both segments satisfy the invariant. -/
def DualBufferGenerator.segments_within (g : DualBufferGenerator) : Prop :=
  g.segments0.within ∧ g.segments1.within

/-- A database answer whose row has `step ≤ max_id + 1`, both 64-bit; a failed
fetch counts as such an answer. -/
def row_fits (row : Option (Nat × Nat)) : Prop :=
  match row with
  | some (max_id, step) => step ≤ max_id + 1 ∧ max_id < 2 ^ 64
  | none => True

instance row_fits_decidable (row : Option (Nat × Nat)) : Decidable (row_fits row) :=
  match row with
  | some (max_id, step) => inferInstanceAs (Decidable (step ≤ max_id + 1 ∧ max_id < 2 ^ 64))
  | none => inferInstanceAs (Decidable True)

/-- The states that a generator reaches from its construction by calls of
`next_id` and by fetches of the background fetcher, against database answers
that all satisfy `admissible`. -/
inductive DualBufferGenerator.Reachable (threshold : Nat → Nat)
    (admissible : Option (Nat × Nat) → Prop) : DualBufferGenerator → Prop where
  | constructed (db left : List (Option (Nat × Nat))) (g : DualBufferGenerator) :
      (∀ row ∈ db, admissible row) → DualBufferGenerator.new db = some (g, left) →
      Reachable threshold admissible g
  | called (db left : List (Option (Nat × Nat))) (g g1 : DualBufferGenerator) (id : Nat) :
      Reachable threshold admissible g → (∀ row ∈ db, admissible row) →
      DualBufferGenerator.next_id threshold g db = .returned id g1 left →
      Reachable threshold admissible g1
  | fetched (db left : List (Option (Nat × Nat))) (g g1 : DualBufferGenerator) :
      Reachable threshold admissible g → (∀ row ∈ db, admissible row) →
      DualBufferGenerator.background_fetcher g db = (g1, left) →
      Reachable threshold admissible g1


/-! ## Text handling of the Spanner generators (`std::string`) -/

/-- The value `std::string::npos`. -/
def npos : Nat := 2 ^ 64 - 1

/-- The search of `find` in the text that starts at index `i` of the string. -/
def find_at (pat : List Char) : List Char → Nat → Nat
  | [], i => if starts_with pat [] then i else npos
  | c :: cs, i => if starts_with pat (c :: cs) then i else find_at pat cs (i + 1)

/-- The call `s.find(pat, pos)`: the index of the first occurrence of `pat`
that starts at `pos` or later, `npos` when there is none. -/
def string_find (s pat : List Char) (pos : Nat) : Nat :=
  if pos > s.length then npos else find_at pat (s.drop pos) pos

/-- The call `s.substr(pos, n)`: at most `n` characters from index `pos` on;
it throws `out_of_range` (`none`) when `pos` is past the end. -/
def string_substr (s : List Char) (pos n : Nat) : Option (List Char) :=
  if pos > s.length then none else some ((s.drop pos).take n)

/-- The class of `isspace` in the C locale. -/
def is_space (c : Char) : Bool :=
  c == ' ' || (9 ≤ c.toNat && c.toNat ≤ 13)

/-- The number that a string of decimal digits denotes. -/
def dec_value (cs : List Char) : Nat :=
  cs.foldl (fun acc c => 10 * acc + (c.toNat - 48)) 0

/-- The call `std::stoull(s)` in base 10: white space is skipped, a sign is
accepted, the digits that follow are read and the rest is ignored.  It throws
(`none`) when no digit is found (`invalid_argument`) or when the digits denote
a number that does not fit 64 bits (`out_of_range`); after a minus sign the
number is negated in 64 bits. -/
def stoull (s : List Char) : Option Nat :=
  let t := s.dropWhile is_space
  let neg := t.head? == some '-'
  let t := if t.head? == some '-' || t.head? == some '+' then t.tail else t
  let ds := t.takeWhile Char.isDigit
  if ds = [] then none
  else if 2 ^ 64 ≤ dec_value ds then none
  else some (if neg then (2 ^ 64 - dec_value ds) % 2 ^ 64 else dec_value ds)

/-! ## SpannerGenerator (`lib/spanner/spanner_generator.cpp`) -/

/-- What a call of `SpannerGenerator::next_id` does: the value it returns and
the transaction id of the commit request it sent, when it sent one. -/
structure SequenceCall where
  id : Nat
  committed : Option String
  deriving DecidableEq

namespace SpannerGenerator

/-- The block of `next_id` that extracts the transaction id: the text between
`"id":"` and the next quote, empty when either is missing.  The result is
`none` when `substr` throws. -/
def txn_id_of (resp : List Char) : Option (List Char) :=
  let txn_pos := string_find resp "\"id\":\"".data 0
  if txn_pos ≠ npos then
    let txn_pos := add64 txn_pos 6
    let txn_end := string_find resp "\"".data txn_pos
    if txn_end ≠ npos then string_substr resp txn_pos (sub64 txn_end txn_pos)
    else some []
  else some []

/-- The method `SpannerGenerator::next_id`: `query_resp` is the body of the
answer to the `executeSql` request.  The result is `none` when `substr`
throws. -/
def next_id (query_resp : String) : Option SequenceCall :=
  let resp := query_resp.data
  match txn_id_of resp with
  | none => none
  | some txn_id =>
    let rows_pos := string_find resp "\"rows\"".data 0
    if rows_pos = npos then some { id := 0, committed := none }
    else
      let val_pos := string_find resp "[\"".data rows_pos
      if val_pos = npos then some { id := 0, committed := none }
      else
        let val_pos := add64 val_pos 2
        let val_end := string_find resp "\"]".data val_pos
        if val_end = npos then some { id := 0, committed := none }
        else
          match string_substr resp val_pos (sub64 val_end val_pos) with
          | none => none
          | some val_str =>
            let committed := if txn_id ≠ [] then some (String.mk txn_id) else none
            match stoull val_str with
            | some value => some { id := value, committed := committed }
            | none => some { id := 0, committed := committed }

end SpannerGenerator

/-! ## SpannerTrueTimeGenerator (`lib/spanner-truetime/`) -/

namespace SpannerTrueTimeGenerator

/-- The shard id that the constructor makes of the number it draws from
`uniform_int_distribution<>(0, 65535)`. -/
def new_shard_id (draw : Nat) : String := String.mk (hex_setw 4 draw)

/-- The quoted value after the key found at `key_pos`: the text between the
first quote after the first colon and the next quote.  The three searches are
not checked, so a position may be `npos`. -/
def quoted_value (resp : List Char) (key_pos : Nat) : Option (List Char) :=
  let colon_pos := string_find resp ":".data key_pos
  let start_quote := string_find resp "\"".data colon_pos
  let end_quote := string_find resp "\"".data (add64 start_quote 1)
  string_substr resp (add64 start_quote 1) (sub64 (sub64 end_quote start_quote) 1)

/-- The method `SpannerTrueTimeGenerator::next_id_string`: `begin_resp` is the
body of the answer to `beginTransaction` and `commit_resp txn_id` the body of
the answer to the commit of the transaction `txn_id`.  The result is `none`
when `substr` throws. -/
def next_id_string (shard_id begin_resp : String) (commit_resp : String → String) :
    Option String :=
  let id_pos := string_find begin_resp.data "\"id\"".data 0
  if id_pos = npos then some ""
  else
    match quoted_value begin_resp.data id_pos with
    | none => none
    | some txn_id =>
      let resp := (commit_resp (String.mk txn_id)).data
      let ts_pos := string_find resp "\"commitTimestamp\"".data 0
      if ts_pos = npos then some ""
      else
        match quoted_value resp ts_pos with
        | none => none
        | some commit_ts =>
          let short_txn_id := if txn_id.length > 8 then txn_id.take 8 else txn_id
          some (String.mk (shard_id.data ++ '-' :: commit_ts ++ '-' :: short_txn_id))

end SpannerTrueTimeGenerator


/-! ## Node identity from the network interfaces (`lib/network_util.h`) -/

/-- The address family `AF_INET`. -/
def AF_INET : Nat := 2

/-- What the helper reads of the address that `ifa_addr` points to: the family
and, for an IPv4 address, the value of `ntohl(sin_addr.s_addr)`. -/
structure sockaddr where
  sa_family : Nat
  host_order_addr : Nat
  deriving DecidableEq

/-- An entry of the list that `getifaddrs` fills in.  The field `ifa_addr` is a
pointer, null (`none`) for an interface that has no address. -/
structure ifaddrs where
  ifa_name : String
  ifa_addr : Option sockaddr
  deriving DecidableEq

namespace NetworkUtil

/-- The loop `while (temp_addr != nullptr)` of the helper: the address that the
loop stops at, when it stops at one.  The loop reads
`temp_addr->ifa_addr->sa_family` of every entry it visits; the result is `none`
when it does so through a null `ifa_addr`, in which case the call does not
return. -/
def walk : List ifaddrs → Option (Option Nat)
  | [] => some none
  | temp_addr :: ifa_next =>
    match temp_addr.ifa_addr with
    | none => none
    | some addr =>
      if addr.sa_family = AF_INET then
        if temp_addr.ifa_name ≠ "lo" then some (some (addr.host_order_addr % 2 ^ 32))
        else walk ifa_next
      else walk ifa_next

/-- The helper `get_node_id_from_ip(mask)` on the list that `getifaddrs`
returns, `none` standing for a query that fails.  The result is `none` when
the call dereferences a null pointer. -/
def get_node_id_from_ip (interfaces : Option (List ifaddrs)) (mask : Nat) : Option Nat :=
  match interfaces with
  | none => some 1
  | some entries => (walk entries).map (fun addr => IdGen.get_node_id_from_ip addr mask)

end NetworkUtil

/-- The method `Sonyflake::current_time_10ms`, from the millisecond count of
the wall clock. -/
def Sonyflake.current_time_10ms (millis : Nat) : Nat := millis / 10

/-- The calls of `InstaSnowflake::next_id` one after another, `n` of them: the
IDs in order, the final state and the unread clock readings; `none` when a
call throws or is left waiting for the clock. -/
def InstaSnowflake.run (g : InstaSnowflake) :
    Nat → List Nat → Option (List Nat × InstaSnowflake × List Nat)
  | 0, clock => some ([], g, clock)
  | n + 1, clock =>
    match InstaSnowflake.next_id g clock with
    | .returned id g1 clock1 =>
      match InstaSnowflake.run g1 n clock1 with
      | some (ids, g2, clock2) => some (id :: ids, g2, clock2)
      | none => none
    | _ => none


/-! ## The base class `IdGenerator` (`lib/id_generator.h`) -/

/-- Whether the header of the class declares `next_id_string() override`. -/
def overrides_next_id_string : GeneratorKind → Bool
  | .Snowflake => false
  | .HlcSnowflake => false
  | .InstaSnowflake => false
  | .Sonyflake => false
  | .UuidV4Generator => true
  | .UuidV7Generator => true
  | .DbAutoIncGenerator => false
  | .DualBufferGenerator => false
  | .EtcdSnowflake => false
  | .SpannerGenerator => false
  | .SpannerTrueTimeGenerator => true

namespace IdGenerator

/-- The base method `IdGenerator::next_id_string`, which returns
`std::to_string(next_id())`.  The virtual `next_id` of the object takes the
state of the object (and of what it reads) to the ID and the state it leaves,
`none` when it does not return. -/
def next_id_string {σ : Type} (next_id : σ → Option (Nat × σ)) (s : σ) : Option (String × σ) :=
  match next_id s with
  | some (id, s1) => some (to_string id, s1)
  | none => none

/-- The call `generator->next_id_string()` on an object of the class `kind`:
the method `own` of the class when the class declares one, the base method
otherwise. -/
def virtual_next_id_string {σ : Type} (kind : GeneratorKind) (own : σ → Option (String × σ))
    (next_id : σ → Option (Nat × σ)) (s : σ) : Option (String × σ) :=
  if overrides_next_id_string kind then own s else next_id_string next_id s

/-- A `next_id` together with the count of the calls made of it. -/
def counted {σ : Type} (next_id : σ → Option (Nat × σ)) :
    σ × Nat → Option (Nat × (σ × Nat)) :=
  fun s =>
    match next_id s.1 with
    | some (id, s1) => some (id, (s1, s.2 + 1))
    | none => none

end IdGenerator

/-- The method `Snowflake::next_id` as the virtual `next_id` of an object: the
state is the generator and the clock readings to come. -/
def Snowflake.next_id_method (s : Snowflake × List Nat) : Option (Nat × (Snowflake × List Nat)) :=
  match Snowflake.next_id s.1 s.2 with
  | .returned id g clock => some (id, (g, clock))
  | _ => none


/-! ## DualBufferGenerator: the statements of a fetch -/

/-- The statements that `fetch_segment` sends to the database. -/
inductive Statement where
  | START_TRANSACTION
  | UPDATE
  | SELECT
  | COMMIT
  | ROLLBACK
  deriving DecidableEq

/-- What the database answers in the course of one `fetch_segment`: whether
the `UPDATE` succeeds, whether the `SELECT` succeeds, and the row `(max_id,
step)` that `mysql_store_result` and `mysql_fetch_row` hand over, `none` when
there is no result or no row. -/
structure FetchAnswers where
  update_ok : Bool
  select_ok : Bool
  row : Option (Nat × Nat)
  deriving DecidableEq

/-- The method `fetch_segment(index)` with the statements it sends, in order:
the value it returns, the statements and the state it leaves.  The method does
not look at the results of `START TRANSACTION` and of `COMMIT`. -/
def DualBufferGenerator.fetch_segment_statements (g : DualBufferGenerator) (index : Nat)
    (db : FetchAnswers) : Bool × List Statement × DualBufferGenerator :=
  if !db.update_ok then
    (false, [.START_TRANSACTION, .UPDATE, .ROLLBACK], g)
  else if !db.select_ok then
    (false, [.START_TRANSACTION, .UPDATE, .SELECT, .ROLLBACK], g)
  else
    match db.row with
    | none => (false, [.START_TRANSACTION, .UPDATE, .SELECT, .COMMIT], g)
    | some (max_id, step) =>
      (true, [.START_TRANSACTION, .UPDATE, .SELECT, .COMMIT],
        g.set_segment index
          { max_id := max_id, current_id := add64 (sub64 max_id step) 1, step := step,
            is_ready := true })


/-! ## The threshold of the dual buffer in double precision -/

/-- The number of binary digits of `n`, for `n` below `2 ^ fuel`. -/
def bit_length : Nat → Nat → Nat
  | 0, _ => 0
  | fuel + 1, n => if n = 0 then 0 else bit_length fuel (n / 2) + 1

/-- Rounding of a natural number to 53 significant binary digits, to nearest
and on a tie to the even neighbour: the `double` that a conversion or an
arithmetic operation delivers for the exact value `n`. -/
def round_to_double (n : Nat) : Nat :=
  let shift := bit_length 192 n - 53
  let q := n / 2 ^ shift
  let r := n % 2 ^ shift
  if 2 * r > 2 ^ shift ∨ (2 * r = 2 ^ shift ∧ q % 2 = 1) then (q + 1) * 2 ^ shift
  else q * 2 ^ shift

/-- The value of `uint64_t threshold = current_seg.step * 0.2`: `step` is
converted to `double`, multiplied by the `double` nearest to 0.2, which is
`3602879701896397 / 2 ^ 54`, the product is rounded to `double` and the
conversion to `uint64_t` drops the fraction. -/
def double_threshold (step : Nat) : Nat :=
  round_to_double (round_to_double step * 3602879701896397) / 2 ^ 54


/-! # Theorems -/

/-! ## Arithmetic of the packed words -/

theorem sub64_of_le {a b : Nat} (hb : b ≤ a) (ha : a < 2 ^ 64) : sub64 a b = a - b := by
  unfold sub64
  omega

theorem shl64_of_lt {a k n : Nat} (ha : a < 2 ^ n) (hk : n + k ≤ 64) :
    shl64 a k = a * 2 ^ k := by
  unfold shl64
  rw [Nat.shiftLeft_eq]
  apply Nat.mod_eq_of_lt
  calc a * 2 ^ k < 2 ^ n * 2 ^ k := Nat.mul_lt_mul_of_pos_right ha (Nat.two_pow_pos k)
    _ = 2 ^ (n + k) := (Nat.pow_add 2 n k).symm
    _ ≤ 2 ^ 64 := Nat.pow_le_pow_right (by decide) hk

/-- Three fields that fit their widths are packed without overlap. -/
theorem or3_eq_add {a n s : Nat} (hn : n < 2 ^ 10) (hs : s < 2 ^ 12) :
    a * 2 ^ 22 ||| n * 2 ^ 12 ||| s = a * 2 ^ 22 + n * 2 ^ 12 + s := by
  have h1 : n * 2 ^ 12 ||| s = n * 2 ^ 12 + s := by
    rw [Nat.mul_comm n, ← Nat.mul_add_lt_is_or hs]
  have h2 : n * 2 ^ 12 + s < 2 ^ 22 := by omega
  rw [Nat.lor_assoc, h1, Nat.mul_comm a, ← Nat.mul_add_lt_is_or h2]
  omega

/-- A timestamp below `2 ^ 52` and a sequence below `2 ^ 12` are read back from
the packed state word. -/
theorem hlc_unpack {t s : Nat} (ht : t < 2 ^ 52) (hs : s < 2 ^ 12) :
    (shl64 t SEQUENCE_BITS ||| s) >>> SEQUENCE_BITS = t ∧
    (shl64 t SEQUENCE_BITS ||| s) &&& MAX_SEQUENCE = s := by
  have hM : MAX_SEQUENCE = 2 ^ 12 - 1 := by decide
  have hB : SEQUENCE_BITS = 12 := rfl
  rw [hM, hB, shl64_of_lt ht (by decide), Nat.mul_comm t, ← Nat.mul_add_lt_is_or hs,
    Nat.shiftRight_eq_div_pow, Nat.and_pow_two_sub_one_eq_mod]
  constructor <;> omega

namespace HlcSnowflake

theorem pass_seq_le (st pt : Nat) : (pass st pt).2.2 ≤ 4095 := by
  have hM : MAX_SEQUENCE = 4095 := by decide
  have hs : st &&& 4095 ≤ 4095 := Nat.and_le_right
  unfold pass
  simp only [add64, hM]
  split_ifs <;> simp only <;> omega

/-- The pass from a state that holds `(t, s)`. -/
theorem pass_of_fields {t s : Nat} (ht : t < 2 ^ 52) (hs : s < 2 ^ 12) (pt : Nat) :
    pass (shl64 t SEQUENCE_BITS ||| s) pt =
      if pt > t then (shl64 pt SEQUENCE_BITS ||| 0, pt, 0)
      else if s + 1 > 4095 then (shl64 (t + 1) SEQUENCE_BITS ||| 0, t + 1, 0)
      else (shl64 t SEQUENCE_BITS ||| (s + 1), t, s + 1) := by
  obtain ⟨h1, h2⟩ := hlc_unpack ht hs
  have hM : MAX_SEQUENCE = 4095 := by decide
  have e1 : add64 s 1 = s + 1 := by unfold add64; omega
  have e2 : add64 t 1 = t + 1 := by unfold add64; omega
  rw [hM] at h2
  unfold pass
  simp only [hM, h1, h2, e1, e2]
  split_ifs <;> rfl

theorem pass_fst (st pt : Nat) :
    (pass st pt).1 = shl64 (pass st pt).2.1 SEQUENCE_BITS ||| (pass st pt).2.2 := by
  unfold pass
  simp only

theorem next_id_eq (g : HlcSnowflake) (pt : Nat) :
    next_id g pt =
      (shl64 (sub64 (pass g.state pt).2.1 EPOCH) TIMESTAMP_SHIFT |||
          shl64 g.node_id NODE_ID_SHIFT ||| (pass g.state pt).2.2,
        { g with state := shl64 (pass g.state pt).2.1 SEQUENCE_BITS ||| (pass g.state pt).2.2 }) := by
  rw [← pass_fst]
  rfl

/-- The ID word of a logical timestamp in the 41-bit range, as a sum. -/
theorem id_word_eq {node t s : Nat} (hn : node ≤ 1023) (h1 : EPOCH ≤ t)
    (h2 : t < EPOCH + 2 ^ 41) (hs : s ≤ 4095) :
    shl64 (sub64 t EPOCH) TIMESTAMP_SHIFT ||| shl64 node NODE_ID_SHIFT ||| s =
      (t - EPOCH) * 2 ^ 22 + node * 2 ^ 12 + s := by
  have hE : EPOCH = 1767225600000 := rfl
  have hT : TIMESTAMP_SHIFT = 22 := rfl
  have hN : NODE_ID_SHIFT = 12 := rfl
  have ht : t - EPOCH < 2 ^ 41 := by omega
  have hn2 : node < 2 ^ 10 := by omega
  rw [sub64_of_le h1 (by omega), hT, hN, shl64_of_lt ht (by decide),
    shl64_of_lt hn2 (by decide), or3_eq_add hn2 (by omega)]

/-- From a state holding `(t, s)` the call settles on a pair that is larger
in the lexicographic order. -/
theorem pass_advances {t s : Nat} (ht : t < 2 ^ 52) (hs : s < 2 ^ 12) (pt : Nat) :
    t < (pass (shl64 t SEQUENCE_BITS ||| s) pt).2.1 ∨
      ((pass (shl64 t SEQUENCE_BITS ||| s) pt).2.1 = t ∧
        (pass (shl64 t SEQUENCE_BITS ||| s) pt).2.2 = s + 1) := by
  rw [pass_of_fields ht hs]
  split_ifs with h1 h2
  · exact Or.inl h1
  · exact Or.inl (Nat.lt_succ_self t)
  · exact Or.inr ⟨rfl, rfl⟩

theorem run_chain (node : Nat) (hn : node ≤ 1023) :
    ∀ (clock : List Nat) (t s : Nat), EPOCH ≤ t → t < EPOCH + 2 ^ 41 → s ≤ 4095 →
      (∀ x ∈ timestamps ⟨node, shl64 t SEQUENCE_BITS ||| s⟩ clock,
        EPOCH ≤ x ∧ x < EPOCH + 2 ^ 41) →
      List.Chain (· < ·) ((t - EPOCH) * 2 ^ 22 + node * 2 ^ 12 + s)
        (run ⟨node, shl64 t SEQUENCE_BITS ||| s⟩ clock) := by
  intro clock
  induction clock with
  | nil => intro t s _ _ _ _; exact List.Chain.nil
  | cons pt clock ih =>
    intro t s h1 h2 hs hts
    have hE : EPOCH = 1767225600000 := rfl
    have ht52 : t < 2 ^ 52 := by omega
    have hnew := hts (logical_ts ⟨node, shl64 t SEQUENCE_BITS ||| s⟩ pt)
      (by simp [timestamps])
    have hseq := pass_seq_le (shl64 t SEQUENCE_BITS ||| s) pt
    have hadv := pass_advances ht52 (show s < 2 ^ 12 by omega) pt
    simp only [logical_ts] at hnew
    simp only [run, next_id_eq]
    refine List.Chain.cons ?_ ?_
    · rw [id_word_eq hn hnew.1 hnew.2 hseq]
      rcases hadv with h | ⟨h, h3⟩
      · have : (t - EPOCH) + 1 ≤ (pass (shl64 t SEQUENCE_BITS ||| s) pt).2.1 - EPOCH := by omega
        have := Nat.mul_le_mul_right (2 ^ 22) this
        omega
      · rw [h, h3]; omega
    · rw [id_word_eq hn hnew.1 hnew.2 hseq]
      apply ih _ _ hnew.1 hnew.2 hseq
      intro x hx
      apply hts
      simp only [timestamps, next_id_eq, List.mem_cons]
      exact Or.inr hx

end HlcSnowflake


/-! ## Snowflake: runs of calls -/

namespace Snowflake

theorem next_id_same (g : Snowflake) (clock : List Nat)
    (h : add64 g.sequence 1 &&& MAX_SEQUENCE ≠ 0) :
    next_id g (g.last_timestamp :: clock) =
      emit { g with sequence := add64 g.sequence 1 } g.last_timestamp clock := by
  simp [next_id, h]

theorem next_id_rollover (g : Snowflake) (t1 : Nat) (clock : List Nat)
    (h : add64 g.sequence 1 &&& MAX_SEQUENCE = 0) (ht : g.last_timestamp < t1) :
    next_id g (g.last_timestamp :: t1 :: clock) =
      emit { g with sequence := add64 g.sequence 1 } t1 clock := by
  simp [next_id, h, wait_for_next_millis, Nat.not_le.mpr ht]

theorem next_id_later (g : Snowflake) (t : Nat) (clock : List Nat)
    (h : g.last_timestamp < t) :
    next_id g (t :: clock) = emit { g with sequence := 0 } t clock := by
  simp [next_id, Nat.lt_asymm h, Nat.ne_of_gt h]

theorem run_succ (g : Snowflake) (n : Nat) (clock : List Nat) :
    run g (n + 1) clock =
      match next_id g clock with
      | .returned id g1 clock1 =>
        match run g1 n clock1 with
        | some (ids, g2, clock2) => some (id :: ids, g2, clock2)
        | none => none
      | _ => none := rfl

theorem run_add (a b : Nat) : ∀ (g : Snowflake) (clock : List Nat),
    run g (a + b) clock =
      match run g a clock with
      | some (ids1, g1, clock1) =>
        match run g1 b clock1 with
        | some (ids2, g2, clock2) => some (ids1 ++ ids2, g2, clock2)
        | none => none
      | none => none := by
  induction a with
  | zero =>
    intro g clock
    simp only [Nat.zero_add, run]
    cases run g b clock with
    | none => rfl
    | some r => rfl
  | succ a ih =>
    intro g clock
    rw [Nat.add_right_comm]
    simp only [run]
    cases next_id g clock with
    | thrown => rfl
    | blocked => rfl
    | returned id g1 clock1 =>
      simp only [ih]
      cases run g1 a clock1 with
      | none => rfl
      | some r =>
        obtain ⟨ids1, g2, clock2⟩ := r
        simp only
        cases run g2 b clock2 with
        | none => rfl
        | some r2 => rfl

theorem run_succ_of_returned {g g1 g2 : Snowflake} {n id : Nat}
    {clock clock1 clock2 ids : List Nat}
    (h1 : next_id g clock = .returned id g1 clock1)
    (h2 : run g1 n clock1 = some (ids, g2, clock2)) :
    run g (n + 1) clock = some (id :: ids, g2, clock2) := by
  rw [run_succ, h1]
  simp only [h2]

theorem run_add_of_some {g g1 g2 : Snowflake} {a b : Nat}
    {clock clock1 clock2 ids1 ids2 : List Nat}
    (h1 : run g a clock = some (ids1, g1, clock1))
    (h2 : run g1 b clock1 = some (ids2, g2, clock2)) :
    run g (a + b) clock = some (ids1 ++ ids2, g2, clock2) := by
  rw [run_add, h1]
  simp only [h2]

/-- While the clock stays at `last_timestamp` and the counter does not reach a
multiple of 4096, each call increments the counter. -/
theorem run_frozen : ∀ (j : Nat) (g : Snowflake) (rest : List Nat),
    g.sequence % 4096 + j ≤ 4095 → g.sequence + j < 2 ^ 64 →
    ∃ ids, run g j (List.replicate j g.last_timestamp ++ rest) =
      some (ids, ⟨g.node_id, g.sequence + j, g.last_timestamp⟩, rest) := by
  intro j
  induction j with
  | zero => intro g rest _ _; exact ⟨[], rfl⟩
  | succ j ih =>
    intro g rest h1 h2
    have hM : MAX_SEQUENCE = 2 ^ 12 - 1 := by decide
    have e1 : add64 g.sequence 1 = g.sequence + 1 := by unfold add64; omega
    have hne : add64 g.sequence 1 &&& MAX_SEQUENCE ≠ 0 := by
      rw [e1, hM, Nat.and_pow_two_sub_one_eq_mod]; omega
    obtain ⟨ids, hids⟩ := ih ⟨g.node_id, g.sequence + 1, g.last_timestamp⟩ rest
      (by simp only; omega) (by simp only; omega)
    simp only at hids
    refine ⟨(shl64 (sub64 g.last_timestamp EPOCH) TIMESTAMP_SHIFT |||
      shl64 g.node_id NODE_ID_SHIFT ||| (g.sequence + 1)) :: ids, ?_⟩
    rw [List.replicate_succ, List.cons_append]
    simp only [run, next_id_same g _ hne, emit, e1, hids]
    simp only [Nat.add_assoc, Nat.add_comm 1 j]

/-- A full millisecond: 4095 calls increment the counter and the next call,
whose counter reaches a multiple of 4096, waits for the clock to move on. -/
theorem run_millisecond (g : Snowflake) (t1 : Nat) (rest : List Nat)
    (h0 : g.sequence % 4096 = 0) (h1 : g.sequence + 4096 < 2 ^ 64)
    (ht : g.last_timestamp < t1) :
    ∃ pre, run g 4096 (List.replicate 4096 g.last_timestamp ++ t1 :: rest) =
      some (pre ++ [shl64 (sub64 t1 EPOCH) TIMESTAMP_SHIFT |||
              shl64 g.node_id NODE_ID_SHIFT ||| (g.sequence + 4096)],
            ⟨g.node_id, g.sequence + 4096, t1⟩, rest) := by
  obtain ⟨ids, hids⟩ := run_frozen 4095 g (g.last_timestamp :: t1 :: rest)
    (by omega) (by omega)
  have hM : MAX_SEQUENCE = 2 ^ 12 - 1 := by decide
  have e1 : add64 (g.sequence + 4095) 1 = g.sequence + 4096 := by unfold add64; omega
  have hz : add64 (g.sequence + 4095) 1 &&& MAX_SEQUENCE = 0 := by
    rw [e1, hM, Nat.and_pow_two_sub_one_eq_mod]; omega
  have hroll := next_id_rollover ⟨g.node_id, g.sequence + 4095, g.last_timestamp⟩ t1 rest
    hz ht
  refine ⟨ids, ?_⟩
  rw [show (4096 : Nat) = 4095 + 1 from rfl, List.replicate_succ', List.append_assoc,
    List.singleton_append, run_add, hids]
  simp only [run, hroll, emit, e1]

theorem run_busy : ∀ (n k : Nat) (g : Snowflake) (tail : List Nat),
    g.last_timestamp = EPOCH + k → g.sequence = 4096 * k → k + n ≤ 1024 →
    ∃ ids, run g (4096 * n) (busy_clock k n tail) =
      some (ids, ⟨g.node_id, 4096 * (k + n), EPOCH + (k + n)⟩, tail) := by
  intro n
  induction n with
  | zero =>
    intro k g tail h1 h2 _
    refine ⟨[], ?_⟩
    obtain ⟨a, b, c⟩ := g
    simp only at h1 h2
    subst h1 h2
    rfl
  | succ n ih =>
    intro k g tail h1 h2 hk
    obtain ⟨pre, hpre0⟩ := run_millisecond g (EPOCH + k + 1) (busy_clock (k + 1) n tail)
      (by omega) (by omega) (by omega)
    generalize pre ++ [shl64 (sub64 (EPOCH + k + 1) EPOCH) TIMESTAMP_SHIFT |||
      shl64 g.node_id NODE_ID_SHIFT ||| (g.sequence + 4096)] = ids0 at hpre0
    have hpre := hpre0
    rw [h1] at hpre
    obtain ⟨ids, hids⟩ := ih (k + 1) ⟨g.node_id, g.sequence + 4096, EPOCH + k + 1⟩ tail
      rfl (by simp only; omega) (by omega)
    refine ⟨ids0 ++ ids, ?_⟩
    rw [show 4096 * (n + 1) = 4096 + 4096 * n by ring, run_add, busy_clock, hpre]
    simp only [hids]
    have e : k + 1 + n = k + (n + 1) := by omega
    rw [e]

/-- From a fresh state with the clock frozen at `t0`, the 4097th call waits for
a reading `t1` past `t0` and leaves the counter at 4096. -/
theorem run_first_overflow (node t0 t1 : Nat) (h0 : 0 < t0) (h1 : t0 < t1) :
    ∃ pre, run ⟨node, 0, 0⟩ 4097 (List.replicate 4097 t0 ++ [t1]) =
      some (pre ++ [shl64 (sub64 t1 EPOCH) TIMESTAMP_SHIFT |||
              shl64 node NODE_ID_SHIFT ||| 4096],
            ⟨node, 4096, t1⟩, []) := by
  obtain ⟨pre, hpre⟩ := run_millisecond ⟨node, 0, t0⟩ t1 [] rfl (by norm_num) h1
  have hfirst := next_id_later ⟨node, 0, 0⟩ t0 (List.replicate 4096 t0 ++ [t1]) h0
  refine ⟨(shl64 (sub64 t0 EPOCH) TIMESTAMP_SHIFT ||| shl64 node NODE_ID_SHIFT ||| 0) :: pre, ?_⟩
  rw [show (4097 : Nat) = 4096 + 1 from rfl, List.replicate_succ, List.cons_append,
    run_succ, hfirst]
  simp only [emit, hpre, Nat.zero_add, List.cons_append]

end Snowflake

theorem busy_clock_mem : ∀ (n k : Nat) (tail : List Nat) (x : Nat),
    x ∈ busy_clock k n tail → (EPOCH + k ≤ x ∧ x ≤ EPOCH + k + n) ∨ x ∈ tail := by
  intro n
  induction n with
  | zero => intro k tail x hx; exact Or.inr hx
  | succ n ih =>
    intro k tail x hx
    simp only [busy_clock, List.mem_append, List.mem_cons, List.mem_replicate] at hx
    rcases hx with ⟨_, h⟩ | h | h
    · left; omega
    · left; omega
    · rcases ih (k + 1) tail x h with h2 | h2
      · left; omega
      · exact Or.inr h2

theorem busy_clock_sorted : ∀ (n k : Nat) (tail : List Nat),
    List.Pairwise (· ≤ ·) tail → (∀ x ∈ tail, EPOCH + k + n ≤ x) →
    List.Pairwise (· ≤ ·) (busy_clock k n tail) := by
  intro n
  induction n with
  | zero => intro k tail h _; exact h
  | succ n ih =>
    intro k tail h1 h2
    have hrest : ∀ x ∈ busy_clock (k + 1) n tail, EPOCH + k + 1 ≤ x := by
      intro x hx
      rcases busy_clock_mem n (k + 1) tail x hx with h | h
      · omega
      · have := h2 x h; omega
    simp only [busy_clock]
    rw [List.pairwise_append]
    refine ⟨?_, ?_, ?_⟩
    · rw [List.pairwise_replicate]; right; exact Nat.le_refl _
    · rw [List.pairwise_cons]
      exact ⟨hrest, ih (k + 1) tail h1 (fun x hx => by have := h2 x hx; omega)⟩
    · intro a ha b hb
      rw [List.mem_replicate] at ha
      rw [List.mem_cons] at hb
      rcases hb with hb | hb
      · omega
      · have := hrest b hb; omega


/-! ## The claims -/

/-- C1: the IDs that successive `HlcSnowflake::next_id` calls return are
strictly increasing, whatever the clock readings (equal, or going backwards by
any amount), as long as every logical timestamp stays in
`[EPOCH, EPOCH + 2 ^ 41)`.  The generator is any one whose node id fits its
10 bits, which the constructor ensures by masking. -/
theorem hlc_ids_strictly_increasing (g : HlcSnowflake) (clock : List Nat)
    (hnode : g.node_id ≤ MAX_NODE_ID)
    (hts : ∀ x ∈ HlcSnowflake.timestamps g clock, EPOCH ≤ x ∧ x < EPOCH + 2 ^ 41) :
    List.Chain' (· < ·) (HlcSnowflake.run g clock) := by
  cases clock with
  | nil => exact List.chain'_nil
  | cons pt clock =>
    obtain ⟨node, st⟩ := g
    have hn : node ≤ 1023 := hnode
    have hnew := hts (HlcSnowflake.logical_ts ⟨node, st⟩ pt) (by simp [HlcSnowflake.timestamps])
    have hseq := HlcSnowflake.pass_seq_le st pt
    simp only [HlcSnowflake.logical_ts] at hnew
    simp only [HlcSnowflake.run, HlcSnowflake.next_id_eq]
    rw [HlcSnowflake.id_word_eq hn hnew.1 hnew.2 hseq]
    refine (show List.Chain (· < ·) _ _ from ?_)
    apply HlcSnowflake.run_chain node hn _ _ _ hnew.1 hnew.2 hseq
    intro x hx
    apply hts
    simp only [HlcSnowflake.timestamps, HlcSnowflake.next_id_eq, List.mem_cons]
    exact Or.inr hx

/-- C1, at a generator built at `EPOCH + 1000` whose clock then reads
`EPOCH + 995` twice and `EPOCH + 1001` once. -/
theorem hlc_ids_strictly_increasing_witness :
    (HlcSnowflake.new (some 3232235777) (EPOCH + 1000)).node_id ≤ MAX_NODE_ID ∧
    (∀ x ∈ HlcSnowflake.timestamps (HlcSnowflake.new (some 3232235777) (EPOCH + 1000))
        [EPOCH + 995, EPOCH + 995, EPOCH + 1001], EPOCH ≤ x ∧ x < EPOCH + 2 ^ 41) ∧
    List.Chain' (· < ·) (HlcSnowflake.run (HlcSnowflake.new (some 3232235777) (EPOCH + 1000))
        [EPOCH + 995, EPOCH + 995, EPOCH + 1001]) :=
  ⟨by decide, by decide,
    hlc_ids_strictly_increasing (HlcSnowflake.new (some 3232235777) (EPOCH + 1000))
      [EPOCH + 995, EPOCH + 995, EPOCH + 1001] (by decide) (by decide)⟩

set_option maxRecDepth 100000 in
/-- C2: a Sonyflake returns the same non-zero ID twice under a clock that never
goes back: after 256 calls in tick `SONY_EPOCH_10MS + 1` the 257th call leaves
the counter at 256 and waits for tick `SONY_EPOCH_10MS + 2`; the counter is
packed unmasked, so the ID carries `3` in its time field, as does the ID of
the next call, made in tick `SONY_EPOCH_10MS + 3` with the counter reset. -/
theorem sonyflake_repeats_id_after_overflow :
    List.Pairwise (· ≤ ·) sony_overflow_clock ∧
    (∀ t ∈ sony_overflow_clock, SONY_EPOCH_10MS ≤ t ∧ t - SONY_EPOCH_10MS < 2 ^ 39) ∧
    (Sonyflake.run (Sonyflake.new (some 1)) 258 sony_overflow_clock).map
        (fun r => (r.1.drop 256, r.2)) =
      some ([50331649, 50331649], ⟨1, 0, SONY_EPOCH_10MS + 3⟩, []) := by
  refine ⟨?_, ?_, ?_⟩
  · simp only [sony_overflow_clock]
    rw [List.pairwise_append]
    refine ⟨?_, by decide, ?_⟩
    · rw [List.pairwise_replicate]; right; exact Nat.le_refl _
    · intro a ha b hb
      rw [List.mem_replicate] at ha
      simp only [List.mem_cons, List.mem_singleton, List.not_mem_nil, or_false] at hb
      omega
  · intro t ht
    simp only [sony_overflow_clock, List.mem_append, List.mem_replicate, List.mem_cons,
      List.mem_singleton, List.not_mem_nil, or_false] at ht
    have hE : SONY_EPOCH_10MS = 176722560000 := by decide
    omega
  · decide

/-- C3: the 4097th ID of a Snowflake with node id 42 whose clock stays at
`EPOCH + 123` and then reads `EPOCH + 124`: the sequence counter is 4096, above
4095, the node field of the ID reads 43 and its sequence field reads 0. -/
theorem snowflake_overflow_breaks_unpacking :
    (Snowflake.new (some 42)).node_id = 42 ∧
    (∃ pre, Snowflake.run (Snowflake.new (some 42)) 4097
        (List.replicate 4097 (EPOCH + 123) ++ [EPOCH + 124]) =
      some (pre ++ [520269824], ⟨42, 4096, EPOCH + 124⟩, [])) ∧
    (520269824 >>> 12) &&& 0x3FF = 43 ∧ 520269824 &&& 0xFFF = 0 ∧
    520269824 >>> 22 = 124 := by
  refine ⟨by decide, ?_, by decide, by decide, by decide⟩
  obtain ⟨pre, h⟩ := Snowflake.run_first_overflow 42 (EPOCH + 123) (EPOCH + 124)
    (by decide) (by decide)
  refine ⟨pre, ?_⟩
  rw [show Snowflake.new (some 42) = ⟨42, 0, 0⟩ by decide, h]
  have e : shl64 (sub64 (EPOCH + 124) EPOCH) TIMESTAMP_SHIFT ||| shl64 42 NODE_ID_SHIFT |||
      4096 = 520269824 := by decide
  rw [e]

/-- C4: the 4097th call of a fresh Snowflake (node id 7) whose clock is frozen
at `EPOCH + 5` returns an ID of the next millisecond `EPOCH + 6` with sequence
field 0, and leaves the generator's sequence counter at 4096, not at 0. -/
theorem snowflake_rollover_keeps_counter :
    ∃ pre g, Snowflake.run (Snowflake.new (some 7)) 4097
        (List.replicate 4097 (EPOCH + 5) ++ [EPOCH + 6]) =
      some (pre ++ [25194496], g, []) ∧
    25194496 >>> 22 = 6 ∧ 25194496 &&& 0xFFF = 0 ∧
    g.last_timestamp = EPOCH + 6 ∧ g.sequence = 4096 := by
  obtain ⟨pre, h⟩ := Snowflake.run_first_overflow 7 (EPOCH + 5) (EPOCH + 6)
    (by decide) (by decide)
  refine ⟨pre, ⟨7, 4096, EPOCH + 6⟩, ?_, by decide, by decide, rfl, rfl⟩
  rw [show Snowflake.new (some 7) = ⟨7, 0, 0⟩ by decide, h]
  have e : shl64 (sub64 (EPOCH + 6) EPOCH) TIMESTAMP_SHIFT ||| shl64 7 NODE_ID_SHIFT |||
      4096 = 25194496 := by decide
  rw [e]

/-- C5: a fresh Snowflake with node id 42 whose clock reads 1767225600123 on
both calls returns `(123 << 22) | (42 << 12) | 0` and then
`(123 << 22) | (42 << 12) | 1`. -/
theorem snowflake_determinism :
    (Snowflake.new (some 42)).node_id = 42 ∧
    Snowflake.run (Snowflake.new (some 42)) 2 [1767225600123, 1767225600123] =
      some ([(123 <<< 22) ||| (42 <<< 12) ||| 0, (123 <<< 22) ||| (42 <<< 12) ||| 1],
        ⟨42, 1, 1767225600123⟩, []) := by
  decide

/-- C6, as stated: the two IDs of that scenario are not 515899392 and
515899393. -/
theorem snowflake_determinism_literals_wrong :
    (Snowflake.run (Snowflake.new (some 42)) 2 [1767225600123, 1767225600123]).map
        (fun r => r.1) ≠ some [515899392, 515899393] := by
  decide

/-- C6, amended: the two IDs of that scenario are the integers 516071424 and
516071425; the literals of the claim are `123 << 22` and `(123 << 22) + 1`,
without the node id. -/
theorem snowflake_determinism_literals :
    (Snowflake.run (Snowflake.new (some 42)) 2 [1767225600123, 1767225600123]).map
        (fun r => r.1) = some [516071424, 516071425] ∧
    123 <<< 22 = 515899392 := by
  decide

/-- C7: a generator that serves 4096 calls in each of 1024 milliseconds in a
row carries its sequence counter up to 2 ^ 22; the call that takes it there
and the first call of the next millisecond return the same ID, so the IDs are
not strictly increasing although the clock never goes back and stays in the
41-bit range. -/
theorem snowflake_repeats_id_after_1024_busy_milliseconds :
    List.Pairwise (· ≤ ·) overflow_clock ∧
    (∀ t ∈ overflow_clock, EPOCH ≤ t ∧ t < EPOCH + 2 ^ 41) ∧
    ∃ pre, Snowflake.run (Snowflake.new (some 1)) 4194306 overflow_clock =
      some (pre ++ [4299165696, 4299165696], ⟨1, 0, EPOCH + 1025⟩, []) := by
  have hmem : ∀ t ∈ overflow_clock, EPOCH ≤ t ∧ t ≤ EPOCH + 1025 := by
    intro t ht
    simp only [overflow_clock, List.mem_cons] at ht
    rcases ht with h | h
    · omega
    · rcases busy_clock_mem _ _ _ _ h with h | h
      · omega
      · simp only [List.mem_append, List.mem_replicate, List.mem_cons,
          List.mem_singleton, List.not_mem_nil, or_false] at h
        omega
  refine ⟨?_, ?_, ?_⟩
  · simp only [overflow_clock]
    rw [List.pairwise_cons]
    refine ⟨fun x hx => (hmem x (List.mem_cons_of_mem _ hx)).1, ?_⟩
    apply busy_clock_sorted
    · rw [List.pairwise_append]
      refine ⟨?_, by decide, ?_⟩
      · rw [List.pairwise_replicate]; right; exact Nat.le_refl _
      · intro a ha b hb
        rw [List.mem_replicate] at ha
        simp only [List.mem_cons, List.mem_singleton, List.not_mem_nil, or_false] at hb
        omega
    · intro x hx
      simp only [List.mem_append, List.mem_replicate, List.mem_cons,
        List.mem_singleton, List.not_mem_nil, or_false] at hx
      omega
  · intro t ht
    have := hmem t ht
    constructor <;> omega
  · have hnew : Snowflake.new (some 1) = ⟨1, 0, 0⟩ := by decide
    obtain ⟨ids1, h1⟩ := Snowflake.run_busy 1023 0 ⟨1, 0, EPOCH⟩
      (List.replicate 4096 (EPOCH + 1023) ++ [EPOCH + 1024, EPOCH + 1025]) rfl rfl (by decide)
    obtain ⟨ids2, h2⟩ := Snowflake.run_frozen 4095 ⟨1, 4096 * 1023, EPOCH + 1023⟩
      [EPOCH + 1023, EPOCH + 1024, EPOCH + 1025] (by decide) (by decide)
    have h3 : Snowflake.run ⟨1, 4096 * 1023 + 4095, EPOCH + 1023⟩ 2
        [EPOCH + 1023, EPOCH + 1024, EPOCH + 1025] =
        some ([4299165696, 4299165696], ⟨1, 0, EPOCH + 1025⟩, []) := by decide
    have h0 : Snowflake.next_id ⟨1, 0, 0⟩ (EPOCH :: busy_clock 0 1023
        (List.replicate 4096 (EPOCH + 1023) ++ [EPOCH + 1024, EPOCH + 1025])) =
        .returned 4096 ⟨1, 0, EPOCH⟩ (busy_clock 0 1023
          (List.replicate 4096 (EPOCH + 1023) ++ [EPOCH + 1024, EPOCH + 1025])) :=
      Snowflake.next_id_later _ _ _ (by decide)
    simp only [Nat.zero_add] at h1 h2
    have hsplit : List.replicate 4096 (EPOCH + 1023) ++ [EPOCH + 1024, EPOCH + 1025] =
        List.replicate 4095 (EPOCH + 1023) ++ [EPOCH + 1023, EPOCH + 1024, EPOCH + 1025] := by
      rw [show (4096 : Nat) = 4095 + 1 from rfl, List.replicate_succ', List.append_assoc,
        List.singleton_append]
    rw [← hsplit] at h2
    have hB := Snowflake.run_add_of_some h2 h3
    have hA := Snowflake.run_add_of_some h1 hB
    have hall := Snowflake.run_succ_of_returned h0 hA
    refine ⟨4096 :: (ids1 ++ ids2), ?_⟩
    rw [hnew, overflow_clock, List.cons_append, List.append_assoc]
    exact hall

/-- C8: when the clock reading is below `last_timestamp`, `Snowflake::next_id`
returns 0 after that single reading (the rest of the clock is untouched) and
leaves `last_timestamp` and the sequence counter as they were. -/
theorem snowflake_clock_regression (g : Snowflake) (t : Nat) (clock : List Nat)
    (h : t < g.last_timestamp) :
    Snowflake.next_id g (t :: clock) = .returned 0 g clock := by
  simp [Snowflake.next_id, h]

/-- C8, at a generator last used at `EPOCH + 10` whose clock reads `EPOCH + 9`. -/
theorem snowflake_clock_regression_witness :
    EPOCH + 9 < (Snowflake.mk 42 7 (EPOCH + 10)).last_timestamp ∧
    Snowflake.next_id ⟨42, 7, EPOCH + 10⟩ [EPOCH + 9, EPOCH + 11] =
      .returned 0 ⟨42, 7, EPOCH + 10⟩ [EPOCH + 11] :=
  ⟨by decide, snowflake_clock_regression ⟨42, 7, EPOCH + 10⟩ (EPOCH + 9) [EPOCH + 11]
    (by decide)⟩

/-- C9, as stated: with `last_timestamp = EPOCH + 10` and the clock at
`EPOCH + 9`, neither `InstaSnowflake::next_id` nor `Sonyflake::next_id` throws;
both return the sentinel 0. -/
theorem insta_sony_regression_returns_sentinel :
    InstaSnowflake.next_id ⟨5, 3, EPOCH + 10⟩ [EPOCH + 9] ≠ .thrown ∧
    InstaSnowflake.next_id ⟨5, 3, EPOCH + 10⟩ [EPOCH + 9] =
      .returned 0 ⟨5, 3, EPOCH + 10⟩ [] ∧
    Sonyflake.next_id ⟨5, 3, SONY_EPOCH_10MS + 10⟩ [SONY_EPOCH_10MS + 9] ≠ .thrown ∧
    Sonyflake.next_id ⟨5, 3, SONY_EPOCH_10MS + 10⟩ [SONY_EPOCH_10MS + 9] =
      .returned 0 ⟨5, 3, SONY_EPOCH_10MS + 10⟩ [] := by
  decide

/-- C9, amended: when the clock reading is below `last_timestamp`,
`InstaSnowflake::next_id` and `Sonyflake::next_id` return the sentinel 0 and
leave the generator as it was; nothing is thrown. -/
theorem insta_sony_clock_regression (gi : InstaSnowflake) (gs : Sonyflake) (t : Nat)
    (clock : List Nat) :
    (t < gi.last_timestamp → InstaSnowflake.next_id gi (t :: clock) = .returned 0 gi clock) ∧
    (t < gs.last_timestamp → Sonyflake.next_id gs (t :: clock) = .returned 0 gs clock) := by
  constructor
  · intro h; simp [InstaSnowflake.next_id, h]
  · intro h; simp [Sonyflake.next_id, h]

/-- C9, amended, at generators last used at tick 10 past the epoch whose clock
reads tick 9. -/
theorem insta_sony_clock_regression_witness :
    (EPOCH + 9 < (InstaSnowflake.mk 5 3 (EPOCH + 10)).last_timestamp ∧
      InstaSnowflake.next_id ⟨5, 3, EPOCH + 10⟩ [EPOCH + 9, EPOCH + 12] =
        .returned 0 ⟨5, 3, EPOCH + 10⟩ [EPOCH + 12]) ∧
    (EPOCH + 9 < (Sonyflake.mk 5 3 (EPOCH + 10)).last_timestamp ∧
      Sonyflake.next_id ⟨5, 3, EPOCH + 10⟩ [EPOCH + 9, EPOCH + 12] =
        .returned 0 ⟨5, 3, EPOCH + 10⟩ [EPOCH + 12]) :=
  ⟨⟨by decide, (insta_sony_clock_regression ⟨5, 3, EPOCH + 10⟩ ⟨5, 3, EPOCH + 10⟩
      (EPOCH + 9) [EPOCH + 12]).1 (by decide)⟩,
    ⟨by decide, (insta_sony_clock_regression ⟨5, 3, EPOCH + 10⟩ ⟨5, 3, EPOCH + 10⟩
      (EPOCH + 9) [EPOCH + 12]).2 (by decide)⟩⟩

/-- C10: one uncontended `HlcSnowflake::next_id` call, from the stored pair
`(l_ts, l_seq) = (state >> 12, state & 0xFFF)` and the clock reading `pt`,
stores the word `(n_ts << 12) | n_seq` and returns
`((n_ts - EPOCH) << 22) | (node_id << 12) | n_seq`, where `(n_ts, n_seq)` is
`(pt, 0)` if `pt > l_ts`, else `(l_ts, l_seq + 1)` if `l_seq + 1 <= 4095`, else
`(l_ts + 1, 0)`; the stored word reads back as `(n_ts, n_seq)` when `n_ts` fits
the 52 bits left of the sequence. -/
theorem hlc_next_id_step (g : HlcSnowflake) (pt : Nat) (hst : g.state < 2 ^ 64) :
    HlcSnowflake.next_id g pt =
      (shl64 (sub64 (hlc_spec_step (g.state >>> 12) (g.state &&& 0xFFF) pt).1 EPOCH) 22 |||
          shl64 g.node_id 12 ||| (hlc_spec_step (g.state >>> 12) (g.state &&& 0xFFF) pt).2,
        { g with state :=
            shl64 (hlc_spec_step (g.state >>> 12) (g.state &&& 0xFFF) pt).1 12 |||
              (hlc_spec_step (g.state >>> 12) (g.state &&& 0xFFF) pt).2 }) ∧
    ((hlc_spec_step (g.state >>> 12) (g.state &&& 0xFFF) pt).1 < 2 ^ 52 →
      (HlcSnowflake.next_id g pt).2.state >>> 12 =
          (hlc_spec_step (g.state >>> 12) (g.state &&& 0xFFF) pt).1 ∧
        (HlcSnowflake.next_id g pt).2.state &&& 0xFFF =
          (hlc_spec_step (g.state >>> 12) (g.state &&& 0xFFF) pt).2) := by
  have hM : MAX_SEQUENCE = 4095 := by decide
  have hB : SEQUENCE_BITS = 12 := rfl
  have hs : g.state &&& 4095 ≤ 4095 := Nat.and_le_right
  have ht : g.state >>> 12 < 2 ^ 52 := by
    rw [Nat.shiftRight_eq_div_pow]; omega
  have e1 : add64 (g.state &&& 4095) 1 = (g.state &&& 4095) + 1 := by unfold add64; omega
  have e2 : add64 (g.state >>> 12) 1 = g.state >>> 12 + 1 := by unfold add64; omega
  have hpass : HlcSnowflake.pass g.state pt =
      (shl64 (hlc_spec_step (g.state >>> 12) (g.state &&& 0xFFF) pt).1 12 |||
          (hlc_spec_step (g.state >>> 12) (g.state &&& 0xFFF) pt).2,
        (hlc_spec_step (g.state >>> 12) (g.state &&& 0xFFF) pt).1,
        (hlc_spec_step (g.state >>> 12) (g.state &&& 0xFFF) pt).2) := by
    unfold HlcSnowflake.pass hlc_spec_step
    simp only [hM, hB, e1, e2]
    split_ifs <;> first | omega | rfl
  have hseq : (hlc_spec_step (g.state >>> 12) (g.state &&& 0xFFF) pt).2 < 2 ^ 12 := by
    unfold hlc_spec_step
    split_ifs <;> simp only <;> omega
  have hnext : HlcSnowflake.next_id g pt = _ := HlcSnowflake.next_id_eq g pt
  rw [hpass] at hnext
  refine ⟨hnext, fun h52 => ?_⟩
  rw [hnext]
  have := hlc_unpack h52 hseq
  rw [hM, hB] at this
  exact this

/-- C10, at the state holding `(EPOCH + 1000, 4095)` with the clock at
`EPOCH + 995`: the call stores `(EPOCH + 1001, 0)`. -/
theorem hlc_next_id_step_witness :
    (HlcSnowflake.mk 42 (((EPOCH + 1000) <<< 12) ||| 4095)).state < 2 ^ 64 ∧
    HlcSnowflake.next_id ⟨42, ((EPOCH + 1000) <<< 12) ||| 4095⟩ (EPOCH + 995) =
      ((1001 <<< 22) ||| (42 <<< 12) ||| 0, ⟨42, (EPOCH + 1001) <<< 12⟩) :=
  ⟨by decide, by
    have h := (hlc_next_id_step ⟨42, ((EPOCH + 1000) <<< 12) ||| 4095⟩ (EPOCH + 995)
      (by decide)).1
    rw [h]
    decide⟩

/-! ## HlcSnowflake: the fields of an ID -/

/-- Whatever the time word, a node id of at most 10 bits and a sequence of at
most 12 bits are read back from the packed ID. -/
theorem hlc_id_fields (x n s : Nat) (hn : n ≤ 1023) (hs : s ≤ 4095) :
    (shl64 x TIMESTAMP_SHIFT ||| shl64 n NODE_ID_SHIFT ||| s) &&& 0xFFF = s ∧
    (shl64 x TIMESTAMP_SHIFT ||| shl64 n NODE_ID_SHIFT ||| s) >>> 22 = x % 2 ^ 42 := by
  have hT : TIMESTAMP_SHIFT = 22 := rfl
  have hN : NODE_ID_SHIFT = 12 := rfl
  have hn2 : n < 2 ^ 10 := by omega
  have hx : shl64 x 22 = (x % 2 ^ 42) * 2 ^ 22 := by
    unfold shl64
    rw [Nat.shiftLeft_eq, show (2 : Nat) ^ 64 = 2 ^ 42 * 2 ^ 22 by norm_num,
      Nat.mul_mod_mul_right]
  rw [hT, hN, hx, shl64_of_lt hn2 (by decide), or3_eq_add hn2 (by omega),
    show (0xFFF : Nat) = 2 ^ 12 - 1 by decide, Nat.and_pow_two_sub_one_eq_mod,
    Nat.shiftRight_eq_div_pow]
  constructor <;> omega

namespace HlcSnowflake

theorem next_id_low_bits (g : HlcSnowflake) (pt : Nat) (hn : g.node_id ≤ 1023) :
    (next_id g pt).1 &&& 0xFFF = (pass g.state pt).2.2 := by
  rw [next_id_eq]
  exact (hlc_id_fields _ _ _ hn (pass_seq_le _ _)).1

theorem run_cons (g : HlcSnowflake) (pt : Nat) (clock : List Nat) :
    run g (pt :: clock) = (next_id g pt).1 :: run (next_id g pt).2 clock := rfl

theorem timestamps_cons (g : HlcSnowflake) (pt : Nat) (clock : List Nat) :
    timestamps g (pt :: clock) = logical_ts g pt :: timestamps (next_id g pt).2 clock := rfl

/-- The time field of each ID holds the logical timestamp of its call less
`EPOCH`, in 64-bit arithmetic, cut to the 42 bits above the shift. -/
theorem run_time_field : ∀ (clock : List Nat) (g : HlcSnowflake), g.node_id ≤ 1023 →
    (run g clock).map (fun id => id >>> 22) =
      (timestamps g clock).map (fun t => sub64 t EPOCH % 2 ^ 42) := by
  intro clock
  induction clock with
  | nil => intro g _; simp only [run, timestamps, List.map_nil]
  | cons pt clock ih =>
    intro g hn
    have hnode : (next_id g pt).2.node_id ≤ 1023 := by
      rw [next_id_eq]; exact hn
    have hid : (next_id g pt).1 >>> 22 = sub64 (logical_ts g pt) EPOCH % 2 ^ 42 := by
      rw [next_id_eq]
      exact (hlc_id_fields _ _ _ hn (pass_seq_le _ _)).2
    rw [run_cons, timestamps_cons, List.map_cons, List.map_cons, ih _ hnode, hid]

/-- While the clock reads at or below the stored logical timestamp `t`, the
calls keep `t` and count the sequence up from the stored `s`. -/
theorem run_regressed (t : Nat) (ht : t < 2 ^ 52) :
    ∀ (clock : List Nat) (g : HlcSnowflake) (s : Nat), g.node_id ≤ 1023 →
      g.state = shl64 t SEQUENCE_BITS ||| s → s + clock.length ≤ 4095 →
      (∀ pt ∈ clock, pt ≤ t) →
      timestamps g clock = List.replicate clock.length t ∧
      (run g clock).map (fun id => id &&& 0xFFF) = List.range' (s + 1) clock.length := by
  intro clock
  induction clock with
  | nil => intro g s _ _ _ _; exact ⟨rfl, rfl⟩
  | cons pt clock ih =>
    intro g s hn hst hlen hpt
    simp only [List.length_cons] at hlen
    have hle : pt ≤ t := hpt pt (List.mem_cons_self _ _)
    have hpass : pass g.state pt = (shl64 t SEQUENCE_BITS ||| (s + 1), t, s + 1) := by
      rw [hst, pass_of_fields ht (by omega), if_neg (by omega), if_neg (by omega)]
    have hstate : (next_id g pt).2.state = shl64 t SEQUENCE_BITS ||| (s + 1) := by
      rw [next_id_eq, hpass]
    have hnode : (next_id g pt).2.node_id ≤ 1023 := by
      rw [next_id_eq]; exact hn
    obtain ⟨h1, h2⟩ := ih (next_id g pt).2 (s + 1) hnode hstate (by omega)
      (fun p hp => hpt p (List.mem_cons_of_mem _ hp))
    constructor
    · simp only [timestamps, logical_ts, hpass, h1, List.length_cons, List.replicate_succ]
    · simp only [run, List.map_cons, next_id_low_bits g pt hn, hpass, h2, List.length_cons,
        List.range'_succ]

end HlcSnowflake


/-- C11, as stated: a generator constructed while the wall clock reads 1000
holds `(1000, 0)` already, so the ID it emits at 1000 carries sequence 1 and
the ten IDs emitted at 995 carry the sequences 2, ..., 11. -/
theorem hlc_regression_first_sequence_is_one :
    (HlcSnowflake.run (HlcSnowflake.new (some 42) 1000)
        (1000 :: List.replicate 10 995)).map (fun id => id &&& 0xFFF) ≠
      [0, 1, 2, 3, 4, 5, 6, 7, 8, 9, 10] ∧
    (HlcSnowflake.run (HlcSnowflake.new (some 42) 1000)
        (1000 :: List.replicate 10 995)).map (fun id => id &&& 0xFFF) =
      [1, 2, 3, 4, 5, 6, 7, 8, 9, 10, 11] := by
  decide

/-- C11, amended: a generator constructed while the wall clock reads `pt0`
emits one ID at wall clock 1000 and ten more at 995; all eleven calls settle on
the logical timestamp 1000 when `pt0 ≤ 1000`; the sequences are 0 and then
1, ..., 10 when `pt0 < 1000`, and 1 and then 2, ..., 11 when `pt0 = 1000`.
As 1000 lies below `EPOCH`, the time field of the IDs holds `1000 - EPOCH`
modulo `2 ^ 42`. -/
theorem hlc_regression_scenario (addr : Option Nat) (pt0 : Nat) :
    (pt0 < 1000 →
      HlcSnowflake.timestamps (HlcSnowflake.new addr pt0) (1000 :: List.replicate 10 995) =
        List.replicate 11 1000 ∧
      (HlcSnowflake.run (HlcSnowflake.new addr pt0)
          (1000 :: List.replicate 10 995)).map (fun id => id &&& 0xFFF) =
        [0, 1, 2, 3, 4, 5, 6, 7, 8, 9, 10]) ∧
    (pt0 = 1000 →
      HlcSnowflake.timestamps (HlcSnowflake.new addr pt0) (1000 :: List.replicate 10 995) =
        List.replicate 11 1000 ∧
      (HlcSnowflake.run (HlcSnowflake.new addr pt0)
          (1000 :: List.replicate 10 995)).map (fun id => id &&& 0xFFF) =
        [1, 2, 3, 4, 5, 6, 7, 8, 9, 10, 11]) ∧
    (pt0 ≤ 1000 →
      (HlcSnowflake.run (HlcSnowflake.new addr pt0)
          (1000 :: List.replicate 10 995)).map (fun id => id >>> 22) =
        List.replicate 11 2630820912104 ∧
      (2630820912104 + EPOCH) % 2 ^ 42 = 1000) := by
  have hnode : (HlcSnowflake.new addr pt0).node_id ≤ 1023 := Nat.and_le_right
  have hlt : pt0 < 1000 →
      HlcSnowflake.timestamps (HlcSnowflake.new addr pt0) (1000 :: List.replicate 10 995) =
        List.replicate 11 1000 ∧
      (HlcSnowflake.run (HlcSnowflake.new addr pt0)
          (1000 :: List.replicate 10 995)).map (fun id => id &&& 0xFFF) =
        [0, 1, 2, 3, 4, 5, 6, 7, 8, 9, 10] := by
    intro h
    have hst : (HlcSnowflake.new addr pt0).state = shl64 pt0 SEQUENCE_BITS ||| 0 := by
      simp [HlcSnowflake.new]
    have hpass : HlcSnowflake.pass (HlcSnowflake.new addr pt0).state 1000 =
        (shl64 1000 SEQUENCE_BITS ||| 0, 1000, 0) := by
      rw [hst, HlcSnowflake.pass_of_fields (by omega) (by decide), if_pos h]
    have hstate : (HlcSnowflake.next_id (HlcSnowflake.new addr pt0) 1000).2.state =
        shl64 1000 SEQUENCE_BITS ||| 0 := by
      rw [HlcSnowflake.next_id_eq, hpass]
    have hnode1 : (HlcSnowflake.next_id (HlcSnowflake.new addr pt0) 1000).2.node_id ≤ 1023 := by
      rw [HlcSnowflake.next_id_eq]; exact hnode
    obtain ⟨h1, h2⟩ := HlcSnowflake.run_regressed 1000 (by decide) (List.replicate 10 995)
      _ 0 hnode1 hstate (by decide) (by decide)
    constructor
    · rw [HlcSnowflake.timestamps_cons, h1, HlcSnowflake.logical_ts, hpass]
      rfl
    · rw [HlcSnowflake.run_cons, List.map_cons, h2,
        HlcSnowflake.next_id_low_bits _ 1000 hnode, hpass]
      rfl
  have heq : pt0 = 1000 →
      HlcSnowflake.timestamps (HlcSnowflake.new addr pt0) (1000 :: List.replicate 10 995) =
        List.replicate 11 1000 ∧
      (HlcSnowflake.run (HlcSnowflake.new addr pt0)
          (1000 :: List.replicate 10 995)).map (fun id => id &&& 0xFFF) =
        [1, 2, 3, 4, 5, 6, 7, 8, 9, 10, 11] := by
    intro h
    subst h
    have hst : (HlcSnowflake.new addr 1000).state = shl64 1000 SEQUENCE_BITS ||| 0 := by
      simp [HlcSnowflake.new]
    obtain ⟨h1, h2⟩ := HlcSnowflake.run_regressed 1000 (by decide)
      (1000 :: List.replicate 10 995) _ 0 hnode hst (by decide) (by decide)
    exact ⟨h1, h2⟩
  refine ⟨hlt, heq, fun hle => ⟨?_, by decide⟩⟩
  have hts : HlcSnowflake.timestamps (HlcSnowflake.new addr pt0)
      (1000 :: List.replicate 10 995) = List.replicate 11 1000 := by
    rcases Nat.lt_or_ge pt0 1000 with h | h
    · exact (hlt h).1
    · exact (heq (by omega)).1
  rw [HlcSnowflake.run_time_field _ _ hnode, hts]
  decide

/-- C11, amended, at a generator constructed at wall clock 990 and at one
constructed at wall clock 1000. -/
theorem hlc_regression_scenario_witness :
    ((990 < 1000 ∧
      (HlcSnowflake.run (HlcSnowflake.new (some 42) 990)
          (1000 :: List.replicate 10 995)).map (fun id => id &&& 0xFFF) =
        [0, 1, 2, 3, 4, 5, 6, 7, 8, 9, 10])) ∧
    (HlcSnowflake.run (HlcSnowflake.new (some 42) 1000)
          (1000 :: List.replicate 10 995)).map (fun id => id &&& 0xFFF) =
        [1, 2, 3, 4, 5, 6, 7, 8, 9, 10, 11] :=
  ⟨⟨by decide, ((hlc_regression_scenario (some 42) 990).1 (by decide)).2⟩,
    ((hlc_regression_scenario (some 42) 1000).2.1 rfl).2⟩

/-! ## EtcdSnowflake against Snowflake -/

namespace EtcdSnowflake

theorem wait_eq (last_ts : Nat) (clock : List Nat) :
    wait_for_next_millis last_ts clock = Snowflake.wait_for_next_millis last_ts clock := by
  induction clock with
  | nil => rfl
  | cons t clock ih =>
    simp only [wait_for_next_millis, Snowflake.wait_for_next_millis, ih]

theorem next_id_map (g : EtcdSnowflake) (clock : List Nat) :
    (next_id g clock).map toSnowflake = Snowflake.next_id (toSnowflake g) clock := by
  cases clock with
  | nil => rfl
  | cons t clock =>
    simp only [next_id, Snowflake.next_id, toSnowflake, wait_eq, Snowflake.emit]
    split_ifs with h1 h2 h3
    · rfl
    · cases Snowflake.wait_for_next_millis g.last_timestamp clock with
      | none => rfl
      | some r => rfl
    · rfl
    · rfl

end EtcdSnowflake

/-- C18: from the same node id, state and clock readings,
`EtcdSnowflake::next_id` and `Snowflake::next_id` return the same ID and leave
the same `(last_timestamp, sequence)` and the same unread clock, call after
call. -/
theorem etcd_emission_equals_snowflake (g : EtcdSnowflake) (clock : List Nat) (n : Nat) :
    (EtcdSnowflake.next_id g clock).map EtcdSnowflake.toSnowflake =
      Snowflake.next_id (EtcdSnowflake.toSnowflake g) clock ∧
    (EtcdSnowflake.run g n clock).map
        (fun r => (r.1, EtcdSnowflake.toSnowflake r.2.1, r.2.2)) =
      Snowflake.run (EtcdSnowflake.toSnowflake g) n clock := by
  refine ⟨EtcdSnowflake.next_id_map g clock, ?_⟩
  induction n generalizing g clock with
  | zero => rfl
  | succ n ih =>
    have h := EtcdSnowflake.next_id_map g clock
    simp only [EtcdSnowflake.run, Snowflake.run, ← h]
    cases EtcdSnowflake.next_id g clock with
    | thrown => rfl
    | blocked => rfl
    | returned id g1 clock1 =>
      simp only [Outcome.map, ← ih g1 clock1]
      cases EtcdSnowflake.run g1 n clock1 with
      | none => rfl
      | some r => rfl

/-- C19: `GENERATOR_TYPE` selects the class named by each of the ten strings,
and the baseline Snowflake for `SNOWFLAKE`, for an unset variable and for
every other string. -/
theorem generator_selection (s : String) :
    select_generator (some "HLC_SNOWFLAKE") = .HlcSnowflake ∧
    select_generator (some "INSTA_SNOWFLAKE") = .InstaSnowflake ∧
    select_generator (some "SONYFLAKE") = .Sonyflake ∧
    select_generator (some "UUIDV4") = .UuidV4Generator ∧
    select_generator (some "UUIDV7") = .UuidV7Generator ∧
    select_generator (some "DB_AUTO_INC") = .DbAutoIncGenerator ∧
    select_generator (some "DUAL_BUFFER") = .DualBufferGenerator ∧
    select_generator (some "ETCD_SNOWFLAKE") = .EtcdSnowflake ∧
    select_generator (some "SPANNER") = .SpannerGenerator ∧
    select_generator (some "SPANNER_TRUETIME") = .SpannerTrueTimeGenerator ∧
    select_generator (some "SNOWFLAKE") = .Snowflake ∧
    select_generator none = .Snowflake ∧
    (s ∉ ["HLC_SNOWFLAKE", "INSTA_SNOWFLAKE", "SONYFLAKE", "UUIDV4", "UUIDV7", "DB_AUTO_INC",
        "DUAL_BUFFER", "ETCD_SNOWFLAKE", "SPANNER", "SPANNER_TRUETIME"] →
      select_generator (some s) = .Snowflake) := by
  refine ⟨by decide, by decide, by decide, by decide, by decide, by decide, by decide,
    by decide, by decide, by decide, by decide, by decide, ?_⟩
  intro h
  simp only [List.mem_cons, List.mem_singleton, List.not_mem_nil, or_false, not_or] at h
  obtain ⟨h1, h2, h3, h4, h5, h6, h7, h8, h9, h10⟩ := h
  simp only [select_generator, if_neg h1, if_neg h2, if_neg h3, if_neg h4, if_neg h5,
    if_neg h6, if_neg h7, if_neg h8, if_neg h9, if_neg h10]

/-- C19, at a string that names no generator. -/
theorem generator_selection_witness :
    "snowflake" ∉ ["HLC_SNOWFLAKE", "INSTA_SNOWFLAKE", "SONYFLAKE", "UUIDV4", "UUIDV7",
        "DB_AUTO_INC", "DUAL_BUFFER", "ETCD_SNOWFLAKE", "SPANNER", "SPANNER_TRUETIME"] ∧
    select_generator (some "snowflake") = .Snowflake :=
  ⟨by decide, (generator_selection "snowflake").2.2.2.2.2.2.2.2.2.2.2.2 (by decide)⟩

/-- C20: `DbAutoIncGenerator::next_id` issues `REPLACE INTO` once and returns
the insert id when the first statement succeeds; it reconnects, issues it a
second time and returns that insert id when only the second succeeds; it
returns 0 after two statements when both fail; never more than two. -/
theorem db_ticket_retry (id : Nat) (first second : Option Nat) :
    DbAutoIncGenerator.next_id (some id) second = ⟨id, 1, false⟩ ∧
    DbAutoIncGenerator.next_id none (some id) = ⟨id, 2, true⟩ ∧
    DbAutoIncGenerator.next_id none none = ⟨0, 2, true⟩ ∧
    (DbAutoIncGenerator.next_id first second).statements ≤ 2 := by
  refine ⟨rfl, rfl, rfl, ?_⟩
  cases first with
  | some a => exact Nat.le_succ 1
  | none =>
    cases second with
    | some b => exact Nat.le_refl 2
    | none => exact Nat.le_refl 2


/-! ## EtcdSnowflake: the claim loop -/

namespace EtcdSnowflake

theorem claim_from_first (txn_resp : Nat → String) :
    ∀ (fuel i0 i : Nat), i0 ≤ i → i < i0 + fuel →
      str_contains (txn_resp i) "\"succeeded\":true" = true →
      (∀ j, i0 ≤ j → j < i → str_contains (txn_resp j) "\"succeeded\":true" = false) →
      claim_from txn_resp fuel i0 =
        (.claimed i, (List.range' i0 (i - i0 + 1)).map node_key) := by
  intro fuel
  induction fuel with
  | zero => intro i0 i h1 h2; omega
  | succ fuel ih =>
    intro i0 i h1 h2 hs hn
    by_cases h : i = i0
    · subst h
      simp only [claim_from, hs, if_true, Nat.sub_self, Nat.zero_add, List.range'_one,
        List.map_cons, List.map_nil]
    · have h0 := hn i0 (Nat.le_refl _) (by omega)
      have hrec := ih (i0 + 1) i (by omega) (by omega) hs
        (fun j hj1 hj2 => hn j (by omega) hj2)
      have e : i - i0 + 1 = (i - (i0 + 1) + 1) + 1 := by omega
      simp only [claim_from, h0, hrec, e, List.range'_succ i0, List.map_cons]
      simp

theorem claim_from_none (txn_resp : Nat → String) :
    ∀ (fuel i0 : Nat),
      (∀ j, i0 ≤ j → j < i0 + fuel → str_contains (txn_resp j) "\"succeeded\":true" = false) →
      claim_from txn_resp fuel i0 = (.failed, (List.range' i0 fuel).map node_key) := by
  intro fuel
  induction fuel with
  | zero => intro i0 _; rfl
  | succ fuel ih =>
    intro i0 hn
    have h0 := hn i0 (Nat.le_refl _) (by omega)
    have hrec := ih (i0 + 1) (fun j hj1 hj2 => hn j (by omega) (by omega))
    simp only [claim_from, h0, hrec, List.range'_succ i0, List.map_cons]
    simp

end EtcdSnowflake


/-! ## Hexadecimal output -/

theorem hex_core_acc : ∀ (fuel n : Nat) (acc : List Char),
    hex_core fuel n acc = hex_core fuel n [] ++ acc := by
  intro fuel
  induction fuel with
  | zero => intro n acc; rfl
  | succ fuel ih =>
    intro n acc
    simp only [hex_core]
    split_ifs
    · rfl
    · rw [ih (n / 16) (Nat.digitChar (n % 16) :: acc), ih (n / 16) [Nat.digitChar (n % 16)]]
      simp

theorem fixed_hex_zero : ∀ w : Nat, fixed_hex w 0 = List.replicate w '0' := by
  intro w
  induction w with
  | zero => rfl
  | succ w ih =>
    simp only [fixed_hex, Nat.zero_div, Nat.zero_mod, ih, List.replicate_succ']
    rfl

theorem fixed_hex_length : ∀ w n : Nat, (fixed_hex w n).length = w := by
  intro w
  induction w with
  | zero => intro n; rfl
  | succ w ih => intro n; simp [fixed_hex, ih]

/-- A number that fits `w` digits is printed with width `w` as its `w` lowest
digits. -/
theorem hex_core_fixed : ∀ (w fuel n : Nat), 1 ≤ w → w ≤ fuel → n < 16 ^ w →
    List.replicate (w - (hex_core fuel n []).length) '0' ++ hex_core fuel n [] =
      fixed_hex w n := by
  intro w
  induction w with
  | zero => intro fuel n h; omega
  | succ w ih =>
    intro fuel n _ hf hn
    obtain ⟨f, rfl⟩ : ∃ f, fuel = f + 1 := ⟨fuel - 1, by omega⟩
    simp only [hex_core, fixed_hex]
    split_ifs with h0
    · simp [h0, fixed_hex_zero]
    · have hw : 1 ≤ w := by
        rcases Nat.eq_zero_or_pos w with h | h
        · subst h
          exfalso
          apply h0
          simp at hn
          omega
        · exact h
      have hdiv : n / 16 < 16 ^ w := by
        rw [Nat.pow_succ] at hn
        exact Nat.div_lt_of_lt_mul (by rw [Nat.mul_comm]; exact hn)
      have := ih f (n / 16) hw (by omega) hdiv
      rw [hex_core_acc, List.length_append, List.length_singleton, Nat.add_sub_add_right,
        ← List.append_assoc, this]

theorem hex_setw_eq_fixed {w n : Nat} (h1 : 1 ≤ w) (h2 : w ≤ 16) (hn : n < 16 ^ w) :
    hex_setw w n = fixed_hex w n :=
  hex_core_fixed w 16 n h1 h2 hn

theorem digit_is_lower_hex (d : Nat) (h : d < 16) : is_lower_hex (Nat.digitChar d) = true := by
  interval_cases d <;> decide

theorem mod16_digit_is_lower_hex (n : Nat) :
    is_lower_hex (Nat.digitChar (n % 16)) = true :=
  digit_is_lower_hex _ (Nat.mod_lt _ (by decide))

theorem digit_value (d : Nat) (h : d < 16) : hex_digit_value (Nat.digitChar d) = d := by
  interval_cases d <;> decide

theorem matches_classes_append : ∀ (p1 p2 : List (Char → Bool)) (l1 l2 : List Char),
    p1.length = l1.length →
    matches_classes (p1 ++ p2) (l1 ++ l2) = (matches_classes p1 l1 && matches_classes p2 l2) := by
  intro p1
  induction p1 with
  | nil =>
    intro p2 l1 l2 h
    cases l1 with
    | nil => simp [matches_classes]
    | cons c cs => simp at h
  | cons p ps ih =>
    intro p2 l1 l2 h
    cases l1 with
    | nil => simp at h
    | cons c cs =>
      simp only [List.length_cons, Nat.add_right_cancel_iff] at h
      show (p c && matches_classes (ps ++ p2) (cs ++ l2)) =
        ((p c && matches_classes ps cs) && matches_classes p2 l2)
      rw [ih p2 cs l2 h, Bool.and_assoc]

theorem fixed_hex_matches : ∀ w n : Nat,
    matches_classes (List.replicate w is_lower_hex) (fixed_hex w n) = true := by
  intro w
  induction w with
  | zero => intro n; rfl
  | succ w ih =>
    intro n
    rw [fixed_hex, List.replicate_succ', matches_classes_append _ _ _ _
      (by simp [fixed_hex_length]), ih]
    simp [matches_classes, digit_is_lower_hex (n % 16) (Nat.mod_lt _ (by decide))]

theorem hex_value_fixed : ∀ w n : Nat, hex_value (fixed_hex w n) = n % 16 ^ w := by
  intro w
  induction w with
  | zero => intro n; simp [fixed_hex, hex_value, Nat.mod_one]
  | succ w ih =>
    intro n
    have h := ih (n / 16)
    unfold hex_value at h ⊢
    rw [fixed_hex, List.foldl_append, h]
    simp only [List.foldl_cons, List.foldl_nil, digit_value (n % 16) (Nat.mod_lt _ (by decide))]
    rw [Nat.pow_succ, Nat.mul_comm (16 ^ w) 16, Nat.mod_mul]
    omega

theorem hex_value_append (l1 l2 : List Char) :
    hex_value (l1 ++ l2) = hex_value l1 * 16 ^ l2.length + hex_value l2 := by
  unfold hex_value
  rw [List.foldl_append]
  generalize List.foldl (fun acc c => 16 * acc + hex_digit_value c) 0 l1 = x
  induction l2 using List.reverseRecOn with
  | nil => simp
  | append_singleton l c ih =>
    simp only [List.foldl_append, List.foldl_cons, List.foldl_nil, ih, List.length_append,
      List.length_singleton, Nat.pow_succ]
    ring

/-! ## The UUID strings -/

theorem and_mask_eq_mod (x k : Nat) (m : Nat) (hm : m = 2 ^ k - 1) : x &&& m = x % 2 ^ k := by
  rw [hm, Nat.and_pow_two_sub_one_eq_mod]

/-- The characters of a formatted UUID whose halves fit 64 bits. -/
theorem format_uuid_data (part1 part2 : Nat) (h1 : part1 < 2 ^ 64) (h2 : part2 < 2 ^ 64) :
    (format_uuid part1 part2).data =
      fixed_hex 8 (part1 / 2 ^ 32) ++ '-' :: fixed_hex 4 (part1 / 2 ^ 16 % 2 ^ 16) ++
      '-' :: fixed_hex 4 (part1 % 2 ^ 16) ++ '-' :: fixed_hex 4 (part2 / 2 ^ 48) ++
      '-' :: fixed_hex 12 (part2 % 2 ^ 48) := by
  have e1 : part1 >>> 32 = part1 / 2 ^ 32 := Nat.shiftRight_eq_div_pow _ _
  have e2 : (part1 >>> 16) &&& 0xFFFF = part1 / 2 ^ 16 % 2 ^ 16 := by
    rw [and_mask_eq_mod _ 16 _ (by decide), Nat.shiftRight_eq_div_pow]
  have e3 : part1 &&& 0xFFFF = part1 % 2 ^ 16 := and_mask_eq_mod _ 16 _ (by decide)
  have e4 : part2 >>> 48 = part2 / 2 ^ 48 := Nat.shiftRight_eq_div_pow _ _
  have e5 : part2 &&& 0xFFFFFFFFFFFF = part2 % 2 ^ 48 := and_mask_eq_mod _ 48 _ (by decide)
  unfold format_uuid
  rw [e1, e2, e3, e4, e5,
    hex_setw_eq_fixed (by decide) (by decide) (show part1 / 2 ^ 32 < 16 ^ 8 by omega),
    hex_setw_eq_fixed (by decide) (by decide) (show part1 / 2 ^ 16 % 2 ^ 16 < 16 ^ 4 by omega),
    hex_setw_eq_fixed (by decide) (by decide) (show part1 % 2 ^ 16 < 16 ^ 4 by omega),
    hex_setw_eq_fixed (by decide) (by decide) (show part2 / 2 ^ 48 < 16 ^ 4 by omega),
    hex_setw_eq_fixed (by decide) (by decide) (show part2 % 2 ^ 48 < 16 ^ 12 by omega)]

/-- A group of four digits starts with the digit of its fourth nibble. -/
theorem fixed_hex_four (n : Nat) :
    fixed_hex 4 n = Nat.digitChar (n / 16 / 16 / 16 % 16) :: fixed_hex 3 n := by
  simp [fixed_hex]

/-- The formatted UUID has the canonical shape when the third group starts
with the version digit and the fourth with 8, 9, a or b. -/
theorem format_uuid_shape (part1 part2 v : Nat) (h1 : part1 < 2 ^ 64) (h2 : part2 < 2 ^ 64)
    (hv : part1 % 2 ^ 16 / 4096 = v) (hvar : 8 ≤ part2 / 2 ^ 60 ∧ part2 / 2 ^ 60 ≤ 11) :
    matches_classes (uuid_shape (Nat.digitChar v)) (format_uuid part1 part2).data = true := by
  have hdash : (fun c : Char => c == '-') '-' = true := by decide
  have hver : Nat.digitChar (part1 % 2 ^ 16 / 16 / 16 / 16 % 16) = Nat.digitChar v := by
    congr 1; omega
  have hvc : is_variant_char (Nat.digitChar (part2 / 2 ^ 48 / 16 / 16 / 16 % 16)) = true := by
    have : part2 / 2 ^ 48 / 16 / 16 / 16 % 16 = part2 / 2 ^ 60 := by omega
    rw [this]
    obtain ⟨ha, hb⟩ := hvar
    interval_cases (part2 / 2 ^ 60) <;> decide
  rw [format_uuid_data part1 part2 h1 h2, uuid_shape, fixed_hex_four (part1 % 2 ^ 16),
    fixed_hex_four (part2 / 2 ^ 48), hver]
  simp only [List.append_assoc, List.cons_append]
  rw [matches_classes_append _ _ _ _ (by simp [fixed_hex_length]), fixed_hex_matches]
  simp only [matches_classes, hdash, Bool.true_and, beq_self_eq_true, hvc,
    mod16_digit_is_lower_hex, Bool.and_self]

theorem matches_classes_length : ∀ (p : List (Char → Bool)) (l : List Char),
    matches_classes p l = true → l.length = p.length := by
  intro p
  induction p with
  | nil =>
    intro l h
    cases l with
    | nil => rfl
    | cons c cs => simp [matches_classes] at h
  | cons f fs ih =>
    intro l h
    cases l with
    | nil => simp [matches_classes] at h
    | cons c cs =>
      simp only [matches_classes, Bool.and_eq_true] at h
      simp [ih cs h.2]

/-- The variant half: `(r & 0x3FFF...) | 0x8000...` is below `2 ^ 64` and its
top nibble is 8, 9, 10 or 11. -/
theorem variant_half (r : Nat) :
    (r &&& 0x3FFFFFFFFFFFFFFF) ||| 0x8000000000000000 = 2 ^ 63 + r % 2 ^ 62 := by
  have hq : r % 2 ^ 62 < 2 ^ 63 := by omega
  rw [and_mask_eq_mod r 62 _ (by decide), Nat.or_comm,
    show (0x8000000000000000 : Nat) = 2 ^ 63 * 1 by norm_num, ← Nat.mul_add_lt_is_or hq]
  omega

/-- The version half of a UUIDv4: its low 16 bits are `0x4000` plus the low
12 bits of the random word. -/
theorem v4_version_half (r : Nat) :
    ((r &&& 0xFFFFFFFFFFFF0FFF) ||| 0x0000000000004000) < 2 ^ 64 ∧
    ((r &&& 0xFFFFFFFFFFFF0FFF) ||| 0x0000000000004000) % 2 ^ 16 = 16384 + r % 4096 := by
  constructor
  · apply Nat.or_lt_two_pow
    · exact Nat.lt_of_le_of_lt Nat.and_le_right (by decide)
    · decide
  · have hr : r % 2 ^ 12 < 2 ^ 12 := Nat.mod_lt _ (by decide)
    rw [← and_mask_eq_mod _ 16 0xFFFF (by decide), Nat.and_comm, Nat.and_or_distrib_left,
      Nat.and_comm 0xFFFF (r &&& 0xFFFFFFFFFFFF0FFF), Nat.and_assoc,
      show (0xFFFFFFFFFFFF0FFF : Nat) &&& 0xFFFF = 0xFFF by decide,
      show (0xFFFF : Nat) &&& 0x0000000000004000 = 2 ^ 12 * 4 by decide,
      and_mask_eq_mod r 12 _ (by decide), Nat.or_comm, ← Nat.mul_add_lt_is_or hr]
    omega

/-- The version half of a UUIDv7 for a 48-bit timestamp. -/
theorem v7_version_half (t r : Nat) (ht : t < 2 ^ 48) :
    shl64 t 16 ||| 0x7000 ||| (r &&& 0x0FFF) = t * 2 ^ 16 + 28672 + r % 4096 := by
  have hr : r % 2 ^ 12 < 2 ^ 12 := Nat.mod_lt _ (by decide)
  have hlow : 2 ^ 12 * 7 + r % 2 ^ 12 < 2 ^ 16 := by omega
  rw [shl64_of_lt ht (by decide), Nat.lor_assoc, and_mask_eq_mod r 12 _ (by decide),
    show (0x7000 : Nat) = 2 ^ 12 * 7 by norm_num, ← Nat.mul_add_lt_is_or hr,
    Nat.mul_comm t, ← Nat.mul_add_lt_is_or hlow]
  omega

/-- C12: whatever two words the random engine yields,
`UuidV4Generator::next_id_string` returns 36 characters that match
`^[0-9a-f]{8}-[0-9a-f]{4}-4[0-9a-f]{3}-[89ab][0-9a-f]{3}-[0-9a-f]{12}$`. -/
theorem uuid_v4_string_shape (part1 part2 : Nat) :
    matches_classes (uuid_shape '4') (UuidV4Generator.next_id_string part1 part2).data = true ∧
    (UuidV4Generator.next_id_string part1 part2).length = 36 := by
  have h := format_uuid_shape ((part1 &&& 0xFFFFFFFFFFFF0FFF) ||| 0x0000000000004000)
    ((part2 &&& 0x3FFFFFFFFFFFFFFF) ||| 0x8000000000000000) 4 (v4_version_half part1).1
    (by rw [variant_half]; omega)
    (by rw [(v4_version_half part1).2]; omega)
    (by rw [variant_half]; omega)
  have h2 : matches_classes (uuid_shape '4')
      (UuidV4Generator.next_id_string part1 part2).data = true := h
  exact ⟨h2, matches_classes_length _ _ h2⟩

/-- C13: for a clock reading `t < 2 ^ 48` and whatever two words the random
engine yields, `UuidV7Generator::next_id_string` returns 36 characters in the
canonical lowercase 8-4-4-4-12 shape, with `7` as 13th hexadecimal digit and
one of 8, 9, a, b as 17th; the first 12 hexadecimal digits (the first group
and the second) denote exactly `t`. -/
theorem uuid_v7_string_shape (t rand_a rand_b : Nat) (ht : t < 2 ^ 48) :
    matches_classes (uuid_shape '7') (UuidV7Generator.next_id_string t rand_a rand_b).data = true ∧
    (UuidV7Generator.next_id_string t rand_a rand_b).length = 36 ∧
    hex_value ((UuidV7Generator.next_id_string t rand_a rand_b).data.take 8 ++
      ((UuidV7Generator.next_id_string t rand_a rand_b).data.drop 9).take 4) = t := by
  have hp1 := v7_version_half t rand_a ht
  have hp2 : 0x8000000000000000 ||| (rand_b &&& 0x3FFFFFFFFFFFFFFF) =
      2 ^ 63 + rand_b % 2 ^ 62 := by
    rw [Nat.or_comm, variant_half]
  have h1 : t * 2 ^ 16 + 28672 + rand_a % 4096 < 2 ^ 64 := by omega
  have h2 : 2 ^ 63 + rand_b % 2 ^ 62 < 2 ^ 64 := by omega
  have hs : UuidV7Generator.next_id_string t rand_a rand_b =
      format_uuid (t * 2 ^ 16 + 28672 + rand_a % 4096) (2 ^ 63 + rand_b % 2 ^ 62) := by
    unfold UuidV7Generator.next_id_string
    simp only [hp1, hp2]
  have hshape := format_uuid_shape _ _ 7 h1 h2 (by omega) (by omega)
  rw [← hs] at hshape
  refine ⟨hshape, matches_classes_length _ _ hshape, ?_⟩
  rw [hs, format_uuid_data _ _ h1 h2]
  simp only [List.append_assoc, List.cons_append]
  rw [List.take_left' (fixed_hex_length 8 _), List.drop_append_eq_append_drop,
    List.drop_of_length_le (by rw [fixed_hex_length]; decide), fixed_hex_length,
    List.nil_append]
  simp only [Nat.reduceSub, List.drop_succ_cons, List.drop_zero]
  rw [List.take_left' (fixed_hex_length 4 _), hex_value_append, hex_value_fixed,
    hex_value_fixed, fixed_hex_length]
  omega

/-- C13, at the clock reading 1767225600123 with the random words
`0x0123456789abcdef` and `0xfedcba9876543210`. -/
theorem uuid_v7_string_shape_witness :
    1767225600123 < 2 ^ 48 ∧
    UuidV7Generator.next_id_string 1767225600123 0x0123456789abcdef 0xfedcba9876543210 =
      "019b76da-a87b-7def-bedc-ba9876543210" ∧
    (matches_classes (uuid_shape '7')
        (UuidV7Generator.next_id_string 1767225600123 0x0123456789abcdef
          0xfedcba9876543210).data = true ∧
      (UuidV7Generator.next_id_string 1767225600123 0x0123456789abcdef
          0xfedcba9876543210).length = 36 ∧
      hex_value ((UuidV7Generator.next_id_string 1767225600123 0x0123456789abcdef
            0xfedcba9876543210).data.take 8 ++
          ((UuidV7Generator.next_id_string 1767225600123 0x0123456789abcdef
            0xfedcba9876543210).data.drop 9).take 4) = 1767225600123) :=
  ⟨by decide, by decide,
    uuid_v7_string_shape 1767225600123 0x0123456789abcdef 0xfedcba9876543210 (by decide)⟩


/-! ## DualBufferGenerator: segments -/

namespace DualBufferGenerator

theorem segments_set_same (g : DualBufferGenerator) (p : Nat) (s : Segment) :
    (g.set_segment p s).segments p = s := by
  unfold set_segment segments
  split_ifs <;> rfl

theorem segments_set_other (g : DualBufferGenerator) (p : Nat) (s : Segment) (hp : p ≤ 1) :
    (g.set_segment p s).segments (1 - p) = g.segments (1 - p) := by
  unfold set_segment segments
  rcases Nat.le_one_iff_eq_zero_or_eq_one.mp hp with h | h <;> subst h <;> rfl

theorem segments_set_sibling (g : DualBufferGenerator) (p : Nat) (s : Segment) (hp : p ≤ 1) :
    (g.set_segment (1 - p) s).segments p = g.segments p := by
  unfold set_segment segments
  rcases Nat.le_one_iff_eq_zero_or_eq_one.mp hp with h | h <;> subst h <;> rfl

theorem set_segment_pos (g : DualBufferGenerator) (p : Nat) (s : Segment) :
    (g.set_segment p s).current_pos = g.current_pos := by
  unfold set_segment
  split_ifs <;> rfl

theorem set_segment_flag (g : DualBufferGenerator) (p : Nat) (s : Segment) :
    (g.set_segment p s).fetch_needed = g.fetch_needed := by
  unfold set_segment
  split_ifs <;> rfl

theorem one_sub_one_sub {p : Nat} (hp : p ≤ 1) : 1 - (1 - p) = p := by omega

/-- The count `remaining` after an allocation that leaves `cur ≤ max + 1`. -/
theorem remaining_eq {cur max : Nat} (h1 : cur ≤ max + 1) (h2 : max + 1 < 2 ^ 64) :
    add64 (sub64 max cur) 1 = max + 1 - cur := by
  unfold add64 sub64
  omega

/-- The first ID of a fetched segment. -/
theorem fetched_first {max step : Nat} (h1 : step ≤ max) (h2 : max + 1 < 2 ^ 64) :
    add64 (sub64 max step) 1 = max - step + 1 := by
  unfold add64 sub64
  omega

end DualBufferGenerator

namespace DualBufferGenerator

theorem segments_set_flag (g : DualBufferGenerator) (b : Bool) (i : Nat) :
    (g.set_fetch_needed b).segments i = g.segments i := rfl

theorem pos_set_flag (g : DualBufferGenerator) (b : Bool) :
    (g.set_fetch_needed b).current_pos = g.current_pos := rfl

theorem flag_set_flag (g : DualBufferGenerator) (b : Bool) :
    (g.set_fetch_needed b).fetch_needed = b := rfl

theorem segments_set_pos (g : DualBufferGenerator) (q i : Nat) :
    (g.set_current_pos q).segments i = g.segments i := rfl

theorem pos_set_pos (g : DualBufferGenerator) (q : Nat) :
    (g.set_current_pos q).current_pos = q := rfl

theorem flag_set_pos (g : DualBufferGenerator) (q : Nat) :
    (g.set_current_pos q).fetch_needed = g.fetch_needed := rfl

theorem background_fetcher_idle (g : DualBufferGenerator) (db : List (Option (Nat × Nat)))
    (h : g.fetch_needed = false) : background_fetcher g db = (g, db) := by
  cases db with
  | nil => rfl
  | cons row db => simp [background_fetcher, h]

theorem background_fetcher_row (g : DualBufferGenerator) (m s : Nat)
    (db : List (Option (Nat × Nat))) (h : g.fetch_needed = true) :
    background_fetcher g (some (m, s) :: db) =
      ((g.set_segment (1 - g.current_pos)
          { current_id := add64 (sub64 m s) 1, max_id := m, step := s,
            is_ready := true }).set_fetch_needed false, db) := by
  simp [background_fetcher, h, fetch_segment]

/-- The branch of the loop that hands out an ID. -/
theorem loop_allocate (threshold : Nat → Nat) (fuel : Nat) (g : DualBufferGenerator)
    (db : List (Option (Nat × Nat)))
    (h : (g.segments g.current_pos).current_id ≤ (g.segments g.current_pos).max_id) :
    next_id_loop threshold (fuel + 1) g db =
      .returned (g.segments g.current_pos).current_id
        (if add64 (sub64 (g.segments g.current_pos).max_id
              (add64 (g.segments g.current_pos).current_id 1)) 1 ≤
              threshold (g.segments g.current_pos).step &&
            !((g.set_segment g.current_pos
              { g.segments g.current_pos with
                current_id := add64 (g.segments g.current_pos).current_id 1 }).segments
              (1 - g.current_pos)).is_ready &&
            !g.fetch_needed then
          (g.set_segment g.current_pos
              { g.segments g.current_pos with
                current_id := add64 (g.segments g.current_pos).current_id 1 }).set_fetch_needed
            true
        else
          g.set_segment g.current_pos
            { g.segments g.current_pos with
              current_id := add64 (g.segments g.current_pos).current_id 1 }) db := by
  simp only [next_id_loop, h, if_true, set_segment_pos, set_segment_flag]
  split_ifs <;> rfl

/-- The branch of the loop that moves on to the sibling segment. -/
theorem loop_swap (threshold : Nat → Nat) (fuel : Nat) (g : DualBufferGenerator)
    (db : List (Option (Nat × Nat)))
    (h : ¬ (g.segments g.current_pos).current_id ≤ (g.segments g.current_pos).max_id)
    (hr : (g.segments (1 - g.current_pos)).is_ready = true) :
    next_id_loop threshold (fuel + 1) g db =
      next_id_loop threshold fuel
        ((g.set_segment g.current_pos
          { g.segments g.current_pos with is_ready := false }).set_current_pos
          (1 - g.current_pos)) db := by
  simp only [next_id_loop, h, if_false, hr, if_true]

end DualBufferGenerator

namespace DualBufferGenerator

/-- An allocation from a segment that still has IDs, and the fetch that
follows it when it reaches the threshold. -/
theorem loop_within (threshold : Nat → Nat) (step base a k : Nat) (g : DualBufferGenerator)
    (db : List (Option (Nat × Nat))) (hinv : serving threshold step base a k g db)
    (ha : a < step) (hfit : base + 2 * step + 1 < 2 ^ 64) :
    ∃ g0, (∀ fuel, next_id_loop threshold (fuel + 1) g db = .returned (base + a + 1) g0 db) ∧
      serving threshold step base (a + 1) k (background_fetcher g0 db).1
        (background_fetcher g0 db).2 := by
  obtain ⟨hp, hf, _, hcur, hsib⟩ := hinv
  have hle : (g.segments g.current_pos).current_id ≤ (g.segments g.current_pos).max_id := by
    rw [hcur]; simp only; omega
  have hnext : add64 (base + a + 1) 1 = base + a + 2 := by unfold add64; omega
  have hrem : add64 (sub64 (base + step) (base + a + 2)) 1 = step - (a + 1) := by
    rw [remaining_eq (by omega) (by omega)]; omega
  have hloop := fun fuel => loop_allocate threshold fuel g db hle
  simp only [hcur, hnext, hrem, hf, segments_set_other g _ _ hp] at hloop
  by_cases htrig : 1 ≤ a ∧ step ≤ a + threshold step
  · -- the sibling holds the next segment already
    rw [if_pos htrig] at hsib
    obtain ⟨hs, hdb⟩ := hsib
    simp only [hs, Bool.not_true, Bool.and_false, Bool.false_and, Bool.false_eq_true,
      if_false] at hloop
    refine ⟨_, hloop, ?_⟩
    rw [background_fetcher_idle _ _ (by rw [set_segment_flag]; exact hf)]
    refine ⟨by rw [set_segment_pos]; exact hp, by rw [set_segment_flag]; exact hf,
      by omega, ?_, ?_⟩
    · rw [set_segment_pos, segments_set_same]
      rfl
    · rw [if_pos (by omega), set_segment_pos, segments_set_other g _ _ hp]
      exact ⟨hs, hdb⟩
  · rw [if_neg htrig] at hsib
    obtain ⟨hs, hdb⟩ := hsib
    simp only [hs, Bool.not_false, Bool.and_true] at hloop
    by_cases hnow : step ≤ a + 1 + threshold step
    · -- this allocation reaches the threshold: the fetch is asked for and completes
      have hcond : step - (a + 1) ≤ threshold step := by omega
      simp only [hcond, decide_True, if_true] at hloop
      refine ⟨_, hloop, ?_⟩
      rw [hdb, db_rows, background_fetcher_row _ _ _ _ rfl]
      refine ⟨by simp only [pos_set_flag, set_segment_pos]; exact hp, rfl, by omega, ?_, ?_⟩
      · simp only [pos_set_flag, set_segment_pos, segments_set_flag]
        rw [segments_set_sibling _ _ _ hp, segments_set_flag, segments_set_same]
        rfl
      · simp only [pos_set_flag, set_segment_pos, segments_set_flag]
        rw [if_pos (by omega), segments_set_same, fetched_first (by omega) (by omega)]
        refine ⟨?_, ?_⟩
        · congr 1 <;> omega
        · congr 1; omega
    · have hcond : ¬ step - (a + 1) ≤ threshold step := by omega
      simp only [hcond, decide_False, if_false, Bool.false_eq_true] at hloop
      refine ⟨_, hloop, ?_⟩
      rw [background_fetcher_idle _ _ (by rw [set_segment_flag]; exact hf)]
      refine ⟨by rw [set_segment_pos]; exact hp, by rw [set_segment_flag]; exact hf,
        by omega, ?_, ?_⟩
      · rw [set_segment_pos, segments_set_same]
        rfl
      · rw [if_neg (by omega), set_segment_pos, segments_set_other g _ _ hp]
        exact ⟨hs, hdb⟩

/-- A call served from a segment that still has IDs. -/
theorem serve_within (threshold : Nat → Nat) (step base a k : Nat) (g : DualBufferGenerator)
    (db : List (Option (Nat × Nat))) (hinv : serving threshold step base a k g db)
    (ha : a < step) (hfit : base + 2 * step + 1 < 2 ^ 64) :
    ∃ g1 db1, serve threshold g db = .returned (base + a + 1) g1 db1 ∧
      serving threshold step base (a + 1) k g1 db1 := by
  obtain ⟨g0, hloop, hinv1⟩ := loop_within threshold step base a k g db hinv ha hfit
  refine ⟨_, _, ?_, hinv1⟩
  simp only [serve, next_id, hloop]

/-- A call served when the current segment is used up: the generator moves on
to the sibling segment and allocates its first ID. -/
theorem serve_swap (threshold : Nat → Nat) (step base k : Nat) (g : DualBufferGenerator)
    (db : List (Option (Nat × Nat))) (hinv : serving threshold step base step (k + 1) g db)
    (hstep : 1 ≤ step) (hfit : base + 3 * step + 1 < 2 ^ 64) :
    ∃ g1 db1, serve threshold g db = .returned (base + step + 1) g1 db1 ∧
      serving threshold step (base + step) 1 k g1 db1 := by
  obtain ⟨hp, hf, _, hcur, hsib⟩ := hinv
  rw [if_pos ⟨hstep, Nat.le_add_right _ _⟩] at hsib
  obtain ⟨hs, hdb⟩ := hsib
  have hnot : ¬ (g.segments g.current_pos).current_id ≤ (g.segments g.current_pos).max_id := by
    rw [hcur]; simp only; omega
  have hready : (g.segments (1 - g.current_pos)).is_ready = true := by rw [hs]
  have hswap := fun fuel => loop_swap threshold fuel g db hnot hready
  have hinv0 : serving threshold step (base + step) 0 k
      ((g.set_segment g.current_pos
        { g.segments g.current_pos with is_ready := false }).set_current_pos
        (1 - g.current_pos)) db := by
    refine ⟨by rw [pos_set_pos]; omega, by rw [flag_set_pos, set_segment_flag]; exact hf,
      Nat.zero_le _, ?_, ?_⟩
    · rw [pos_set_pos, segments_set_pos, segments_set_other g _ _ hp, hs]
      congr 1; omega
    · rw [if_neg (by omega), pos_set_pos, segments_set_pos, one_sub_one_sub hp,
        segments_set_same, hdb]
      refine ⟨rfl, ?_⟩
      congr 1; omega
  obtain ⟨g0, hloop, hinv1⟩ := loop_within threshold step (base + step) 0 k _ db hinv0
    (by omega) (by omega)
  refine ⟨_, _, ?_, hinv1⟩
  simp only [serve, next_id, hswap, hloop]

end DualBufferGenerator

namespace DualBufferGenerator

theorem run_succ_of_served {threshold : Nat → Nat} {g g1 g2 : DualBufferGenerator}
    {n id : Nat} {db db1 db2 : List (Option (Nat × Nat))} {ids : List Nat}
    (h1 : serve threshold g db = .returned id g1 db1)
    (h2 : run threshold n g1 db1 = some (ids, g2, db2)) :
    run threshold (n + 1) g db = some (id :: ids, g2, db2) := by
  simp only [run, h1, h2]

/-- The constructor against a database row `(max_id, step)`. -/
theorem new_rows (threshold : Nat → Nat) (max_id step k : Nat)
    (hfit : max_id + step + 1 < 2 ^ 64) :
    ∃ g, new (db_rows max_id step (k + 2)) = some (g, db_rows (max_id + step) step (k + 1)) ∧
      serving threshold step max_id 0 k g (db_rows (max_id + step) step (k + 1)) := by
  refine ⟨_, rfl, ?_⟩
  refine ⟨Nat.zero_le _, rfl, Nat.zero_le _, ?_, ?_⟩
  · simp only [fetch_segment, segments_set_same, set_segment_pos]
    rw [fetched_first (by omega) (by omega)]
    congr 1; omega
  · rw [if_neg (by omega)]
    exact ⟨rfl, rfl⟩

/-- Calls served one after another keep handing out consecutive IDs, segment
after segment, as long as the database has answers left. -/
theorem run_serving (threshold : Nat → Nat) (max_id step : Nat) (hstep : 1 ≤ step) :
    ∀ (n c a k : Nat) (g : DualBufferGenerator) (db : List (Option (Nat × Nat))),
      serving threshold step (max_id + c * step) a k g db → a + n ≤ (k + 1) * step →
      max_id + c * step + a + n + 3 * step + 1 < 2 ^ 64 →
      ∃ c1 a1 k1 g1 db1,
        run threshold n g db = some (List.range' (max_id + c * step + a + 1) n, g1, db1) ∧
        serving threshold step (max_id + c1 * step) a1 k1 g1 db1 ∧
        c1 * step + a1 = c * step + a + n ∧ c1 + k1 = c + k ∧ (1 ≤ a + n → 1 ≤ a1) := by
  intro n
  induction n with
  | zero =>
    intro c a k g db hinv _ _
    exact ⟨c, a, k, g, db, rfl, hinv, rfl, rfl, fun h => h⟩
  | succ n ih =>
    intro c a k g db hinv hk hfit
    have hale : a ≤ step := hinv.2.2.1
    by_cases ha : a < step
    · obtain ⟨g1, db1, hserve, hinv1⟩ :=
        serve_within threshold step (max_id + c * step) a k g db hinv ha (by omega)
      obtain ⟨c2, a2, k2, g2, db2, hrun, hinv2, h1, h2, h3⟩ :=
        ih c (a + 1) k g1 db1 hinv1 (by omega) (by omega)
      refine ⟨c2, a2, k2, g2, db2, ?_, hinv2, by omega, h2, ?_⟩
      · rw [List.range'_succ]
        exact run_succ_of_served hserve hrun
      · intro _
        exact h3 (by omega)
    · have hS : a = step := by omega
      subst hS
      obtain ⟨k0, rfl⟩ : ∃ k0, k = k0 + 1 := by
        rcases Nat.eq_zero_or_pos k with h0 | h0
        · subst h0
          omega
        · exact ⟨k - 1, by omega⟩
      have ek : (k0 + 1 + 1) * a = (k0 + 1) * a + a := Nat.succ_mul (k0 + 1) a
      obtain ⟨g1, db1, hserve, hinv1⟩ :=
        serve_swap threshold a (max_id + c * a) k0 g db hinv hstep (by omega)
      have e : (c + 1) * a = c * a + a := Nat.succ_mul c a
      rw [show max_id + c * a + a = max_id + (c + 1) * a by omega] at hinv1
      obtain ⟨c2, a2, k2, g2, db2, hrun, hinv2, h1, h2, h3⟩ :=
        ih (c + 1) 1 k0 g1 db1 hinv1 (by omega) (by omega)
      rw [show max_id + (c + 1) * a + 1 + 1 = max_id + c * a + a + 1 + 1 by omega] at hrun
      refine ⟨c2, a2, k2, g2, db2, ?_, hinv2, by omega, by omega, ?_⟩
      · rw [List.range'_succ]
        exact run_succ_of_served hserve hrun
      · intro _
        exact h3 (by omega)

end DualBufferGenerator

theorem db_rows_length (max_id step : Nat) : ∀ k, (db_rows max_id step k).length = k := by
  intro k
  induction k generalizing max_id with
  | zero => rfl
  | succ k ih => simp [db_rows, ih]

/-- A new generator against the row `(max_id, step)`, then `n` calls: the IDs
are `max_id + 1, ..., max_id + n`; `c` segments were used up, the call count in
the current one is `a`, and the fetches are `c + 1`, plus one when the
threshold of the current segment is reached. -/
theorem dual_buffer_run (threshold : Nat → Nat) (max_id step n k : Nat) (hstep : 1 ≤ step)
    (hn : 1 ≤ n) (hsupply : n ≤ (k + 1) * step)
    (hfit : max_id + n + 3 * step + 1 < 2 ^ 64) :
    ∃ c a g left,
      DualBufferGenerator.start_and_run threshold (db_rows max_id step (k + 2)) n =
        some (List.range' (max_id + 1) n, g, left) ∧
      c * step + a = n ∧ 1 ≤ a ∧ a ≤ step ∧
      fetches_performed (db_rows max_id step (k + 2)) left =
        c + 1 + (if step ≤ a + threshold step then 1 else 0) := by
  obtain ⟨g0, hnew, hinv0⟩ := DualBufferGenerator.new_rows threshold max_id step k (by omega)
  have hinv0z : DualBufferGenerator.serving threshold step (max_id + 0 * step) 0 k g0
      (db_rows (max_id + step) step (k + 1)) := by
    rw [Nat.zero_mul, Nat.add_zero]; exact hinv0
  obtain ⟨c, a, k1, g, left, hrun, hinv, h1, h2, h3⟩ :=
    DualBufferGenerator.run_serving threshold max_id step hstep n 0 0 k g0 _ hinv0z
      (by omega) (by omega)
  simp only [Nat.zero_mul, Nat.add_zero, Nat.zero_add] at hrun h1 h2 h3
  have ha1 : 1 ≤ a := h3 (by omega)
  have ha2 : a ≤ step := hinv.2.2.1
  refine ⟨c, a, g, left, ?_, by omega, ha1, ha2, ?_⟩
  · simp only [DualBufferGenerator.start_and_run, hnew]
    exact hrun
  · have hside := hinv.2.2.2.2
    unfold fetches_performed
    rw [db_rows_length]
    by_cases ht : step ≤ a + threshold step
    · rw [if_pos ⟨ha1, ht⟩] at hside
      rw [hside.2, db_rows_length, if_pos ht]
      omega
    · rw [if_neg (fun h => ht h.2)] at hside
      rw [hside.2, db_rows_length, if_neg ht]
      omega

/-- C14: with the row at step 100 (and `step * 0.2` evaluating to 20), a new
generator followed by 250 calls, every requested fetch completing before the
next call, performs exactly 3 fetches, and the IDs returned are
`start, ..., start + 249` in order, `start = max_id + 1` being the first ID of
the initial segment. -/
theorem dual_buffer_scenario (threshold : Nat → Nat) (max_id k : Nat)
    (hthr : threshold 100 = 20) (hfit : max_id + 1000 < 2 ^ 64) :
    ∃ g left,
      DualBufferGenerator.start_and_run threshold (db_rows max_id 100 (k + 4)) 250 =
        some (List.range' (max_id + 1) 250, g, left) ∧
      fetches_performed (db_rows max_id 100 (k + 4)) left = 3 := by
  obtain ⟨c, a, g, left, hrun, h1, h2, h3, h4⟩ :=
    dual_buffer_run threshold max_id 100 250 (k + 2) (by decide) (by decide) (by omega)
      (by omega)
  refine ⟨g, left, hrun, ?_⟩
  rw [h4, hthr]
  have hc : c = 2 := by omega
  subst hc
  rw [if_neg (by omega)]

/-- C14, for a row that starts at `max_id = 1000` and a threshold computed as
`step / 5`, with six database answers at hand. -/
theorem dual_buffer_scenario_witness :
    (fun s : Nat => s / 5) 100 = 20 ∧ 1000 + 1000 < 2 ^ 64 ∧
    ∃ g left,
      DualBufferGenerator.start_and_run (fun s => s / 5) (db_rows 1000 100 (2 + 4)) 250 =
        some (List.range' (1000 + 1) 250, g, left) ∧
      fetches_performed (db_rows 1000 100 (2 + 4)) left = 3 :=
  ⟨rfl, by decide, dual_buffer_scenario (fun s => s / 5) 1000 2 rfl (by decide)⟩

/-- C15: for every step `S ≥ 1` and every number `N ≥ 1` of calls, every
requested fetch succeeding and completing before the next call, the number of
fetches performed, the initial one included, is `⌈N / S⌉` or `⌈N / S⌉ + 1`,
whatever value the threshold `step * 0.2` takes. -/
theorem dual_buffer_fetch_count (threshold : Nat → Nat) (max_id step n k : Nat)
    (hstep : 1 ≤ step) (hn : 1 ≤ n) (hfit : max_id + n + 3 * step + 1 < 2 ^ 64) :
    ∃ ids g left,
      DualBufferGenerator.start_and_run threshold (db_rows max_id step (n + k + 2)) n =
        some (ids, g, left) ∧
      (n + step - 1) / step ≤ fetches_performed (db_rows max_id step (n + k + 2)) left ∧
      fetches_performed (db_rows max_id step (n + k + 2)) left ≤ (n + step - 1) / step + 1 := by
  have hsupply : n ≤ (n + k + 1) * step :=
    Nat.le_trans (by omega) (Nat.le_mul_of_pos_right (n + k + 1) hstep)
  obtain ⟨c, a, g, left, hrun, h1, h2, h3, h4⟩ :=
    dual_buffer_run threshold max_id step n (n + k) hstep hn hsupply hfit
  have e1 : (c + 1) * step = c * step + step := Nat.succ_mul c step
  have hceil : (n + step - 1) / step = c + 1 :=
    Nat.div_eq_of_lt_le (by omega) (by rw [Nat.succ_mul]; omega)
  refine ⟨_, g, left, hrun, ?_, ?_⟩
  · rw [h4, hceil]; omega
  · rw [h4, hceil]; split_ifs <;> omega

/-- C15, at step 3 and 7 calls, the threshold computed as `step / 5`. -/
theorem dual_buffer_fetch_count_witness :
    1 ≤ 3 ∧ 1 ≤ 7 ∧ 0 + 7 + 3 * 3 + 1 < 2 ^ 64 ∧
    ∃ ids g left,
      DualBufferGenerator.start_and_run (fun s => s / 5) (db_rows 0 3 (7 + 0 + 2)) 7 =
        some (ids, g, left) ∧
      (7 + 3 - 1) / 3 ≤ fetches_performed (db_rows 0 3 (7 + 0 + 2)) left ∧
      fetches_performed (db_rows 0 3 (7 + 0 + 2)) left ≤ (7 + 3 - 1) / 3 + 1 :=
  ⟨by decide, by decide, by decide,
    dual_buffer_fetch_count (fun s => s / 5) 0 3 7 0 (by decide) (by decide) (by decide)⟩

/-! ## DualBufferGenerator: the segment invariant -/

namespace DualBufferGenerator

theorem set_segment_within (g : DualBufferGenerator) (i : Nat) (s : Segment)
    (hg : g.segments_within) (hs : s.within) : (g.set_segment i s).segments_within := by
  unfold set_segment
  split_ifs
  · exact ⟨hs, hg.2⟩
  · exact ⟨hg.1, hs⟩

theorem segments_apply_within (g : DualBufferGenerator) (i : Nat) (hg : g.segments_within) :
    (g.segments i).within := by
  unfold segments
  split_ifs
  · exact hg.1
  · exact hg.2

/-- The segment that a fetch installs satisfies the invariant when the row has
`step ≤ max_id + 1`. -/
theorem fetched_within (max_id step : Nat) (h1 : step ≤ max_id + 1) (h2 : max_id < 2 ^ 64) :
    Segment.within
      { max_id := max_id, current_id := add64 (sub64 max_id step) 1, step := step,
        is_ready := true } := by
  unfold Segment.within add64 sub64
  simp only
  omega

theorem fetch_segment_within (g : DualBufferGenerator) (i : Nat) (row : Option (Nat × Nat))
    (hg : g.segments_within) (hrow : row_fits row) :
    (g.fetch_segment i row).2.segments_within := by
  cases row with
  | none => exact hg
  | some r =>
    obtain ⟨m, s⟩ := r
    exact set_segment_within g i _ hg (fetched_within m s hrow.1 hrow.2)

theorem background_fetcher_within : ∀ (db : List (Option (Nat × Nat)))
    (g : DualBufferGenerator), g.segments_within → (∀ row ∈ db, row_fits row) →
    (background_fetcher g db).1.segments_within := by
  intro db
  induction db with
  | nil => intro g hg _; exact hg
  | cons row db ih =>
    intro g hg hrows
    have hrow := hrows row (List.mem_cons_self _ _)
    have hrest : ∀ r ∈ db, row_fits r := fun r hr => hrows r (List.mem_cons_of_mem _ hr)
    simp only [background_fetcher]
    split_ifs
    · exact fetch_segment_within g _ row hg hrow
    · exact ih _ (fetch_segment_within g _ row hg hrow) hrest
    · exact hg

theorem background_fetcher_rows : ∀ (db : List (Option (Nat × Nat)))
    (g : DualBufferGenerator) (P : Option (Nat × Nat) → Prop), (∀ row ∈ db, P row) →
    ∀ row ∈ (background_fetcher g db).2, P row := by
  intro db
  induction db with
  | nil => intro g P h; exact h
  | cons row db ih =>
    intro g P hrows
    have hrest : ∀ r ∈ db, P r := fun r hr => hrows r (List.mem_cons_of_mem _ hr)
    simp only [background_fetcher]
    split_ifs
    · exact hrest
    · exact ih _ P hrest
    · exact hrows

theorem next_id_loop_within (threshold : Nat → Nat) :
    ∀ (fuel : Nat) (g : DualBufferGenerator) (db : List (Option (Nat × Nat))) (id : Nat)
      (g1 : DualBufferGenerator) (left : List (Option (Nat × Nat))),
      g.segments_within → (∀ row ∈ db, row_fits row) →
      next_id_loop threshold fuel g db = .returned id g1 left → g1.segments_within := by
  intro fuel
  induction fuel with
  | zero => intro g db id g1 left _ _ h; simp [next_id_loop] at h
  | succ fuel ih =>
    intro g db id g1 left hg hrows h
    have hcur := segments_apply_within g g.current_pos hg
    by_cases hle : (g.segments g.current_pos).current_id ≤ (g.segments g.current_pos).max_id
    · rw [loop_allocate threshold fuel g db hle] at h
      have hnew : Segment.within { g.segments g.current_pos with
          current_id := add64 (g.segments g.current_pos).current_id 1 } := by
        unfold Segment.within add64
        simp only
        have := Nat.mod_le ((g.segments g.current_pos).current_id + 1) (2 ^ 64)
        omega
      have hset := set_segment_within g g.current_pos _ hg hnew
      simp only [Allocation.returned.injEq] at h
      obtain ⟨_, hg1, _⟩ := h
      rw [← hg1]
      split_ifs
      · exact hset
      · exact hset
    · simp only [next_id_loop, hle, if_false] at h
      split_ifs at h with hr hr2
      · refine ih _ _ _ _ _ ?_ hrows h
        exact set_segment_within g g.current_pos _ hg hcur
      · refine ih _ _ _ _ _ ?_ ?_ h
        · exact background_fetcher_within db _ hg hrows
        · exact background_fetcher_rows db _ row_fits hrows

end DualBufferGenerator

/-- C16, as stated: against the row `(max_id, step) = (5, 10)` the constructor
installs a segment with `current_id = 2 ^ 64 - 4`, above `max_id + 1 = 6`. -/
theorem dual_buffer_segment_wraps :
    ∃ g, DualBufferGenerator.Reachable (fun s => s / 5) (fun _ => True) g ∧
      g.segments0.current_id = 18446744073709551612 ∧ g.segments0.max_id = 5 ∧
      ¬ g.segments0.within := by
  refine ⟨_, DualBufferGenerator.Reachable.constructed [some (5, 10)] [] _
    (fun _ _ => trivial) rfl, by decide, by decide, ?_⟩
  unfold Segment.within
  decide

/-- C16, amended: in every state reachable from construction by `next_id`
calls and segment fetches, against rows with `step ≤ max_id + 1`, both segments
satisfy `current_id ≤ max_id + 1`. -/
theorem dual_buffer_segment_invariant (threshold : Nat → Nat) (g : DualBufferGenerator)
    (h : DualBufferGenerator.Reachable threshold row_fits g) :
    g.segments0.current_id ≤ g.segments0.max_id + 1 ∧
    g.segments1.current_id ≤ g.segments1.max_id + 1 := by
  have key : g.segments_within := by
    induction h with
    | constructed db left g hrows hnew =>
      cases db with
      | nil => simp [DualBufferGenerator.new] at hnew
      | cons row db =>
        simp only [DualBufferGenerator.new] at hnew
        split_ifs at hnew
        simp only [Option.some.injEq, Prod.mk.injEq] at hnew
        rw [← hnew.1]
        refine DualBufferGenerator.fetch_segment_within _ 0 row ?_
          (hrows row (List.mem_cons_self _ _))
        exact ⟨Nat.le_refl 1, Nat.le_refl 1⟩
    | called db left g g1 id _ hrows hcall ih =>
      exact DualBufferGenerator.next_id_loop_within threshold _ g db id g1 left ih hrows hcall
    | fetched db left g g1 _ hrows hfetch ih =>
      have := DualBufferGenerator.background_fetcher_within db g ih hrows
      rw [hfetch] at this
      exact this
  exact key

/-- C16, amended, at the state after construction against the row
`(1100, 100)` and one call. -/
theorem dual_buffer_segment_invariant_witness :
    DualBufferGenerator.Reachable (fun s => s / 5) row_fits
      { segments0 := { current_id := 1002, max_id := 1100, step := 100, is_ready := true },
        segments1 := Segment.init, current_pos := 0, fetch_needed := false } ∧
    (1002 ≤ 1100 + 1 ∧ 1 ≤ 0 + 1) := by
  have hnew : DualBufferGenerator.Reachable (fun s => s / 5) row_fits
      { segments0 := { current_id := 1001, max_id := 1100, step := 100, is_ready := true },
        segments1 := Segment.init, current_pos := 0, fetch_needed := false } :=
    DualBufferGenerator.Reachable.constructed [some (1100, 100), some (1200, 100)]
      [some (1200, 100)] _ (by decide) (by decide)
  have hcall : DualBufferGenerator.Reachable (fun s => s / 5) row_fits
      { segments0 := { current_id := 1002, max_id := 1100, step := 100, is_ready := true },
        segments1 := Segment.init, current_pos := 0, fetch_needed := false } :=
    DualBufferGenerator.Reachable.called [some (1200, 100)] [some (1200, 100)] _ _ 1001
      hnew (by decide) (by decide)
  exact ⟨hcall, dual_buffer_segment_invariant (fun s => s / 5) _ hcall⟩



/-! ## Text search -/

theorem starts_with_append : ∀ (pat w : List Char), starts_with pat (pat ++ w) = true := by
  intro pat
  induction pat with
  | nil => intro w; cases w <;> rfl
  | cons p ps ih => intro w; simp [starts_with, ih]

theorem find_at_none (pat : List Char) : ∀ (t : List Char) (i : Nat),
    occurs_in pat t = false → find_at pat t i = npos := by
  intro t
  induction t with
  | nil =>
    intro i h
    simp only [occurs_in] at h
    simp [find_at, h]
  | cons c cs ih =>
    intro i h
    simp only [occurs_in, Bool.or_eq_false_iff] at h
    simp [find_at, h.1, ih _ h.2]

theorem find_at_first (pat : List Char) : ∀ (u v : List Char) (i : Nat),
    starts_with pat v = true →
    (∀ j, j < u.length → starts_with pat ((u ++ v).drop j) = false) →
    find_at pat (u ++ v) i = i + u.length := by
  intro u
  induction u with
  | nil =>
    intro v i hv _
    cases v with
    | nil => simp [find_at, hv]
    | cons c cs => simp [find_at, hv]
  | cons c u ih =>
    intro v i hv hno
    have h0 := hno 0 (by simp)
    simp only [List.drop_zero, List.cons_append] at h0
    have hrest : ∀ j, j < u.length → starts_with pat ((u ++ v).drop j) = false := by
      intro j hj
      have := hno (j + 1) (by simp; omega)
      simpa using this
    rw [List.cons_append, find_at, if_neg (by rw [h0]; decide), ih v (i + 1) hv hrest,
      List.length_cons]
    omega

/-- In a string `x ++ u ++ v` where `v` starts with the pattern and no
occurrence starts within `u`, the search from the end of `x` finds the start
of `v`. -/
theorem string_find_first {s x u v p : List Char} {k : Nat}
    (hs : s = x ++ (u ++ v)) (hk : k = x.length) (hv : starts_with p v = true)
    (hno : ∀ j, j < u.length → starts_with p ((u ++ v).drop j) = false) :
    string_find s p k = k + u.length := by
  subst hs hk
  unfold string_find
  rw [if_neg (by simp), List.drop_left]
  exact find_at_first p u v _ hv hno

/-- The search from the start finds the first occurrence of a key. -/
theorem string_find_key (body pre key tail : List Char) (hbody : body = pre ++ (key ++ tail))
    (hno : ∀ j, j < pre.length → starts_with key (body.drop j) = false) :
    string_find body key 0 = pre.length := by
  have h := string_find_first (s := body) (x := []) (u := pre)
    (v := key ++ tail) (p := key) (k := 0) (by rw [hbody]; rfl) rfl
    (starts_with_append _ _) (by
      intro j hj
      rw [← hbody]
      exact hno j hj)
  rw [h, Nat.zero_add]

theorem string_find_none {s p : List Char} {k : Nat}
    (h : occurs_in p (s.drop k) = false) : string_find s p k = npos := by
  unfold string_find
  split_ifs
  · rfl
  · exact find_at_none p _ _ h

/-- A pattern does not start at a character other than its first. -/
theorem no_start_of_not_mem (p : Char) (ps : List Char) : ∀ (u w : List Char),
    (∀ c ∈ u, c ≠ p) → ∀ j, j < u.length → starts_with (p :: ps) ((u ++ w).drop j) = false := by
  intro u
  induction u with
  | nil => intro w _ j hj; simp at hj
  | cons c u ih =>
    intro w h j hj
    cases j with
    | zero =>
      have hc : (p == c) = false := by
        simpa using fun e => h c (List.mem_cons_self _ _) e.symm
      simp [starts_with, hc]
    | succ j =>
      simp only [List.cons_append, List.drop_succ_cons]
      exact ih w (fun c hc => h c (List.mem_cons_of_mem _ hc)) j (by simpa using hj)

theorem string_substr_mid {s x w v : List Char} {k n : Nat}
    (hs : s = x ++ (w ++ v)) (hk : k = x.length) (hn : n = w.length) :
    string_substr s k n = some w := by
  subst hs hk hn
  unfold string_substr
  rw [if_neg (by simp), List.drop_left, List.take_left]

theorem add64_of_lt {a b : Nat} (h : a + b < 2 ^ 64) : add64 a b = a + b := by
  unfold add64
  exact Nat.mod_eq_of_lt h

theorem digit_toNat {c : Char} (h : c.isDigit = true) : 48 ≤ c.toNat ∧ c.toNat ≤ 57 := by
  simp only [Char.isDigit, Bool.and_eq_true, decide_eq_true_eq] at h
  exact ⟨h.1, h.2⟩

/-- On a non-empty string of decimal digits that denotes a number below
`2 ^ 64`, `stoull` returns that number. -/
theorem stoull_digits (ds : List Char) (hne : ds ≠ []) (hd : ∀ c ∈ ds, c.isDigit = true)
    (hv : dec_value ds < 2 ^ 64) : stoull ds = some (dec_value ds) := by
  cases ds with
  | nil => exact absurd rfl hne
  | cons c cs =>
    have hc := digit_toNat (hd c (List.mem_cons_self _ _))
    have hsp : is_space c = false := by
      have h1 : (c == ' ') = false := by
        rw [beq_eq_false_iff_ne]
        intro e; subst e
        exact absurd hc.1 (by decide)
      simp only [is_space, h1, Bool.false_or, Bool.and_eq_false_imp, decide_eq_true_eq,
        decide_eq_false_iff_not]
      omega
    have hm : (some c == some '-') = false := by
      have : c ≠ '-' := by intro e; subst e; exact absurd hc.1 (by decide)
      simpa using this
    have hp : (some c == some '+') = false := by
      have : c ≠ '+' := by intro e; subst e; exact absurd hc.1 (by decide)
      simpa using this
    have htw : List.takeWhile Char.isDigit (c :: cs) = c :: cs :=
      List.takeWhile_eq_self_iff.mpr hd
    simp only [stoull, List.dropWhile_cons, hsp, Bool.false_eq_true, if_false, List.head?_cons, hm, hp,
      Bool.or_self, htw, Nat.not_le.mpr hv]
    simp

/-! ## SpannerGenerator: the sequence value -/

theorem string_find_past {s p : List Char} {k : Nat} (h : k > s.length) :
    string_find s p k = npos := by
  unfold string_find
  rw [if_pos h]

theorem txn_id_of_some (resp : List Char) : ∃ t, SpannerGenerator.txn_id_of resp = some t := by
  unfold SpannerGenerator.txn_id_of
  simp only
  split_ifs with h1 h2
  · have hpos : ¬ add64 (string_find resp "\"id\":\"".data 0) 6 > resp.length := by
      intro hgt
      exact h2 (string_find_past hgt)
    unfold string_substr
    rw [if_neg hpos]
    exact ⟨_, rfl⟩
  · exact ⟨_, rfl⟩
  · exact ⟨_, rfl⟩

/-- Where `next_id` finds the opening of the value. -/
theorem spanner_open_pos (body pre mid tail : List Char)
    (hbody : body = pre ++ ("\"rows\"".data ++ (mid ++ ("[\"".data ++ tail))))
    (hopen : ∀ j, pre.length ≤ j → j < pre.length + 6 + mid.length →
      starts_with "[\"".data (body.drop j) = false) :
    string_find body "[\"".data pre.length = pre.length + 6 + mid.length := by
  have h6 : ("\"rows\"".data).length = 6 := rfl
  have h := string_find_first (s := body) (x := pre) (u := "\"rows\"".data ++ mid)
    (v := "[\"".data ++ tail) (p := "[\"".data) (k := pre.length)
    (by rw [hbody]; simp only [List.append_assoc]) rfl
    (starts_with_append _ _) (by
      intro j hj
      have hj2 : j < 6 + mid.length := by
        rw [List.length_append] at hj
        exact hj
      have := hopen (pre.length + j) (by omega) (by omega)
      rw [hbody, ← List.drop_drop, List.drop_left] at this
      simpa only [List.append_assoc] using this)
  rw [h, List.length_append, h6]
  omega

/-- Where `next_id` finds the closing of a value made of digits, and the
value it cuts out. -/
theorem spanner_close_pos (body pre mid ds post : List Char)
    (hbody : body = pre ++ ("\"rows\"".data ++ (mid ++ ("[\"".data ++ (ds ++
      ("\"]".data ++ post))))))
    (hds : ∀ c ∈ ds, c.isDigit = true) :
    string_find body "\"]".data (pre.length + 6 + mid.length + 2) =
      pre.length + 6 + mid.length + 2 + ds.length ∧
    string_substr body (pre.length + 6 + mid.length + 2) ds.length = some ds := by
  have h6 : ("\"rows\"".data).length = 6 := rfl
  have h2 : ("[\"".data).length = 2 := rfl
  constructor
  · exact string_find_first (s := body)
      (x := pre ++ ("\"rows\"".data ++ (mid ++ "[\"".data))) (u := ds)
      (v := "\"]".data ++ post) (p := "\"]".data) (k := pre.length + 6 + mid.length + 2)
      (by rw [hbody]; simp only [List.append_assoc])
      (by simp only [List.length_append, h6, h2]; omega)
      (starts_with_append _ _)
      (no_start_of_not_mem '"' [']'] ds _ (by
        intro c hc e
        subst e
        exact absurd (hds _ hc) (by decide)))
  · exact string_substr_mid (x := pre ++ ("\"rows\"".data ++ (mid ++ "[\"".data)))
      (v := "\"]".data ++ post)
      (by rw [hbody]; simp only [List.append_assoc])
      (by simp only [List.length_append, h6, h2]; omega) rfl

/-- C21: when the body of the `executeSql` answer holds, after its first
`"rows"`, a first `["` that is followed by decimal digits `ds` and `"]`, the
digits denoting a number below `2 ^ 64`, `SpannerGenerator::next_id` returns
that number; it returns 0 when the body has no `"rows"`, when no `["` follows
the first `"rows"`, and when no `"]` follows that `["`. -/
theorem spanner_sequence_parsing (body pre mid ds rest post : List Char) :
    (body = pre ++ ("\"rows\"".data ++ (mid ++ ("[\"".data ++ (ds ++ ("\"]".data ++ post))))) →
      body.length < 2 ^ 64 →
      (∀ j, j < pre.length → starts_with "\"rows\"".data (body.drop j) = false) →
      (∀ j, pre.length ≤ j → j < pre.length + 6 + mid.length →
        starts_with "[\"".data (body.drop j) = false) →
      ds ≠ [] → (∀ c ∈ ds, c.isDigit = true) → dec_value ds < 2 ^ 64 →
      (SpannerGenerator.next_id (String.mk body)).map SequenceCall.id = some (dec_value ds)) ∧
    (occurs_in "\"rows\"".data body = false →
      (SpannerGenerator.next_id (String.mk body)).map SequenceCall.id = some 0) ∧
    (body = pre ++ ("\"rows\"".data ++ rest) → body.length < 2 ^ 64 →
      (∀ j, j < pre.length → starts_with "\"rows\"".data (body.drop j) = false) →
      occurs_in "[\"".data ("\"rows\"".data ++ rest) = false →
      (SpannerGenerator.next_id (String.mk body)).map SequenceCall.id = some 0) ∧
    (body = pre ++ ("\"rows\"".data ++ (mid ++ ("[\"".data ++ rest))) → body.length < 2 ^ 64 →
      (∀ j, j < pre.length → starts_with "\"rows\"".data (body.drop j) = false) →
      (∀ j, pre.length ≤ j → j < pre.length + 6 + mid.length →
        starts_with "[\"".data (body.drop j) = false) →
      occurs_in "\"]".data rest = false →
      (SpannerGenerator.next_id (String.mk body)).map SequenceCall.id = some 0) := by
  obtain ⟨t, ht⟩ := txn_id_of_some body
  have h6 : ("\"rows\"".data).length = 6 := rfl
  have h2 : ("[\"".data).length = 2 := rfl
  have hq : ("\"]".data).length = 2 := rfl
  have hnpos : npos = 2 ^ 64 - 1 := rfl
  refine ⟨?_, ?_, ?_, ?_⟩
  · intro hbody hlen hrows hopen hne hds hval
    have hr := string_find_key body pre _ _ hbody hrows
    have ho := spanner_open_pos body pre mid _ hbody hopen
    obtain ⟨hc, hsub⟩ := spanner_close_pos body pre mid ds post hbody hds
    have hl : body.length = pre.length + 6 + mid.length + 2 + ds.length + 2 + post.length := by
      rw [hbody]
      simp only [List.length_append, h6, h2, hq]
      omega
    have e1 : add64 (pre.length + 6 + mid.length) 2 = pre.length + 6 + mid.length + 2 :=
      add64_of_lt (by omega)
    have e2 : sub64 (pre.length + 6 + mid.length + 2 + ds.length)
        (pre.length + 6 + mid.length + 2) = ds.length := by
      rw [sub64_of_le (by omega) (by omega)]
      omega
    simp only [SpannerGenerator.next_id, ht, hr, ho, e1, hc, e2, hsub,
      stoull_digits ds hne hds hval]
    rw [if_neg (by omega), if_neg (by omega), if_neg (by omega)]
    rfl
  · intro hno
    have hr : string_find body "\"rows\"".data 0 = npos := string_find_none hno
    simp only [SpannerGenerator.next_id, ht, hr, if_true]
    rfl
  · intro hbody hlen hrows hno
    have hr := string_find_key body pre _ _ hbody hrows
    have hl : body.length = pre.length + 6 + rest.length := by
      rw [hbody]
      simp only [List.length_append, h6]
      omega
    have ho : string_find body "[\"".data pre.length = npos :=
      string_find_none (by rw [hbody, List.drop_left]; exact hno)
    simp only [SpannerGenerator.next_id, ht, hr, ho, if_true]
    rw [if_neg (by omega)]
    rfl
  · intro hbody hlen hrows hopen hno
    have hr := string_find_key body pre _ _ hbody hrows
    have ho := spanner_open_pos body pre mid _ hbody hopen
    have hl : body.length = pre.length + 6 + mid.length + 2 + rest.length := by
      rw [hbody]
      simp only [List.length_append, h6, h2]
      omega
    have e1 : add64 (pre.length + 6 + mid.length) 2 = pre.length + 6 + mid.length + 2 :=
      add64_of_lt (by omega)
    have hc : string_find body "\"]".data (pre.length + 6 + mid.length + 2) = npos :=
      string_find_none (by
        have hd : body.drop (pre.length + 6 + mid.length + 2) = rest := by
          have hb : body = (pre ++ ("\"rows\"".data ++ (mid ++ "[\"".data))) ++ rest := by
            rw [hbody]; simp only [List.append_assoc]
          have hk : pre.length + 6 + mid.length + 2 =
              (pre ++ ("\"rows\"".data ++ (mid ++ "[\"".data))).length := by
            simp only [List.length_append, h6, h2]; omega
          rw [hk, hb, List.drop_left]
        rw [hd]; exact hno)
    simp only [SpannerGenerator.next_id, ht, hr, ho, e1, hc, if_true]
    rw [if_neg (by omega), if_neg (by omega)]
    rfl

/-- C21, at the body `{"metadata": {}, "rows": [["1234567890"]]}`, where the
value is 1234567890, and at the body `{"error": {"code": 404}}`, which has no
`"rows"`. -/
theorem spanner_sequence_parsing_witness :
    (SpannerGenerator.next_id
        "\x7b\"metadata\": \x7b\x7d, \"rows\": [[\"1234567890\"]]\x7d").map SequenceCall.id =
      some 1234567890 ∧
    (SpannerGenerator.next_id "\x7b\"error\": \x7b\"code\": 404\x7d\x7d").map SequenceCall.id =
      some 0 :=
  ⟨(spanner_sequence_parsing "\x7b\"metadata\": \x7b\x7d, \"rows\": [[\"1234567890\"]]\x7d".data
      "\x7b\"metadata\": \x7b\x7d, ".data ": [".data "1234567890".data [] "]\x7d".data).1
      (by decide) (by decide) (by decide) (by decide) (by decide) (by decide) (by decide),
    (spanner_sequence_parsing "\x7b\"error\": \x7b\"code\": 404\x7d\x7d".data [] [] [] [] []).2.1
      (by decide)⟩

/-! ## SpannerTrueTimeGenerator: the identifier -/

/-- The value that `quoted_value` cuts out after a key: past the first colon
after the key, the text between the next two quotes. -/
theorem quoted_value_spec (resp pre key a b x post : List Char)
    (hresp : resp = pre ++ (key ++ (a ++ (':' :: (b ++ ('"' :: (x ++ ('"' :: post))))))))
    (hlen : resp.length < 2 ^ 64)
    (hkey : ∀ c ∈ key, c ≠ ':') (ha : ∀ c ∈ a, c ≠ ':') (hb : ∀ c ∈ b, c ≠ '"')
    (hx : ∀ c ∈ x, c ≠ '"') :
    SpannerTrueTimeGenerator.quoted_value resp pre.length = some x := by
  have hl : resp.length =
      pre.length + key.length + a.length + 1 + b.length + 1 + x.length + 1 + post.length := by
    rw [hresp]
    simp only [List.length_append, List.length_cons]
    omega
  have hcolon : string_find resp ":".data pre.length = pre.length + key.length + a.length := by
    have h := string_find_first (s := resp) (x := pre) (u := key ++ a)
      (v := ':' :: (b ++ ('"' :: (x ++ ('"' :: post))))) (p := ":".data) (k := pre.length)
      (by rw [hresp]; simp only [List.append_assoc]) rfl
      (starts_with_append [':'] _)
      (no_start_of_not_mem ':' [] (key ++ a) _ (by
        intro c hc
        rcases List.mem_append.mp hc with h | h
        · exact hkey c h
        · exact ha c h))
    rw [h, List.length_append]
    omega
  have hstart : string_find resp "\"".data (pre.length + key.length + a.length) =
      pre.length + key.length + a.length + 1 + b.length := by
    have h := string_find_first (s := resp) (x := pre ++ (key ++ a)) (u := ':' :: b)
      (v := '"' :: (x ++ ('"' :: post))) (p := "\"".data)
      (k := pre.length + key.length + a.length)
      (by rw [hresp]; simp only [List.append_assoc, List.cons_append])
      (by simp only [List.length_append]; omega)
      (starts_with_append ['"'] _)
      (no_start_of_not_mem '"' [] (':' :: b) _ (by
        intro c hc
        rcases List.mem_cons.mp hc with h | h
        · rw [h]; decide
        · exact hb c h))
    rw [h, List.length_cons]
    omega
  have hend : string_find resp "\"".data (pre.length + key.length + a.length + 1 + b.length + 1) =
      pre.length + key.length + a.length + 1 + b.length + 1 + x.length := by
    exact string_find_first (s := resp) (x := pre ++ (key ++ (a ++ (':' :: (b ++ ['"'])))))
      (u := x) (v := '"' :: post) (p := "\"".data)
      (k := pre.length + key.length + a.length + 1 + b.length + 1)
      (by rw [hresp]; simp only [List.append_assoc, List.cons_append, List.nil_append])
      (by simp only [List.length_append, List.length_cons, List.length_nil]; omega)
      (starts_with_append ['"'] _)
      (no_start_of_not_mem '"' [] x _ hx)
  have e1 : add64 (pre.length + key.length + a.length + 1 + b.length) 1 =
      pre.length + key.length + a.length + 1 + b.length + 1 := add64_of_lt (by omega)
  have e2 : sub64 (sub64 (pre.length + key.length + a.length + 1 + b.length + 1 + x.length)
      (pre.length + key.length + a.length + 1 + b.length)) 1 = x.length := by
    have s1 : sub64 (pre.length + key.length + a.length + 1 + b.length + 1 + x.length)
        (pre.length + key.length + a.length + 1 + b.length) = x.length + 1 := by
      rw [sub64_of_le (by omega) (by omega)]
      omega
    rw [s1, sub64_of_le (by omega) (by omega)]
    omega
  simp only [SpannerTrueTimeGenerator.quoted_value, hcolon, hstart, e1, hend, e2]
  exact string_substr_mid (x := pre ++ (key ++ (a ++ (':' :: (b ++ ['"']))))) (v := '"' :: post)
    (by rw [hresp]; simp only [List.append_assoc, List.cons_append, List.nil_append])
    (by simp only [List.length_append, List.length_cons, List.length_nil]; omega) rfl

/-- The shard id of the constructor has four characters of `[0-9a-f]`. -/
theorem new_shard_id_shape (draw : Nat) (h : draw ≤ 65535) :
    matches_classes (List.replicate 4 is_lower_hex)
      (SpannerTrueTimeGenerator.new_shard_id draw).data = true := by
  unfold SpannerTrueTimeGenerator.new_shard_id
  rw [show (String.mk (hex_setw 4 draw)).data = hex_setw 4 draw from rfl,
    hex_setw_eq_fixed (by decide) (by decide) (by omega)]
  exact fixed_hex_matches 4 draw

/-- C22: when the body of the `beginTransaction` answer holds, after its first
`"id"`, a colon and then a quoted value `x`, and the body of the commit answer
holds, after its first `"commitTimestamp"`, a colon and then a quoted value
`ts`, `SpannerTrueTimeGenerator::next_id_string` returns the shard id, `-`,
`ts`, `-` and the first eight characters of `x` (all of `x` when it has at most
eight); the shard id of the constructor is four characters of `[0-9a-f]`.  The
method returns the empty string when the first body has no `"id"` and when the
second has no `"commitTimestamp"`. -/
theorem spanner_truetime_format (draw : Nat) (commit_resp : String → String)
    (body pre a b x post pre2 a2 b2 ts post2 : List Char) :
    (draw ≤ 65535 →
      body = pre ++ ("\"id\"".data ++ (a ++ (':' :: (b ++ ('"' :: (x ++ ('"' :: post))))))) →
      body.length < 2 ^ 64 →
      (∀ j, j < pre.length → starts_with "\"id\"".data (body.drop j) = false) →
      (∀ c ∈ a, c ≠ ':') → (∀ c ∈ b, c ≠ '"') → (∀ c ∈ x, c ≠ '"') →
      (commit_resp (String.mk x)).data = pre2 ++ ("\"commitTimestamp\"".data ++
        (a2 ++ (':' :: (b2 ++ ('"' :: (ts ++ ('"' :: post2))))))) →
      (commit_resp (String.mk x)).data.length < 2 ^ 64 →
      (∀ j, j < pre2.length →
        starts_with "\"commitTimestamp\"".data ((commit_resp (String.mk x)).data.drop j) = false) →
      (∀ c ∈ a2, c ≠ ':') → (∀ c ∈ b2, c ≠ '"') → (∀ c ∈ ts, c ≠ '"') →
      SpannerTrueTimeGenerator.next_id_string (SpannerTrueTimeGenerator.new_shard_id draw)
          (String.mk body) commit_resp =
        some (SpannerTrueTimeGenerator.new_shard_id draw ++ "-" ++ String.mk ts ++ "-" ++
          String.mk (x.take 8)) ∧
      matches_classes (List.replicate 4 is_lower_hex)
        (SpannerTrueTimeGenerator.new_shard_id draw).data = true) ∧
    (occurs_in "\"id\"".data body = false →
      SpannerTrueTimeGenerator.next_id_string (SpannerTrueTimeGenerator.new_shard_id draw)
          (String.mk body) commit_resp = some "") ∧
    (body = pre ++ ("\"id\"".data ++ (a ++ (':' :: (b ++ ('"' :: (x ++ ('"' :: post))))))) →
      body.length < 2 ^ 64 →
      (∀ j, j < pre.length → starts_with "\"id\"".data (body.drop j) = false) →
      (∀ c ∈ a, c ≠ ':') → (∀ c ∈ b, c ≠ '"') → (∀ c ∈ x, c ≠ '"') →
      occurs_in "\"commitTimestamp\"".data (commit_resp (String.mk x)).data = false →
      SpannerTrueTimeGenerator.next_id_string (SpannerTrueTimeGenerator.new_shard_id draw)
          (String.mk body) commit_resp = some "") := by
  have hnpos : npos = 2 ^ 64 - 1 := rfl
  have hbegin : body = pre ++ ("\"id\"".data ++ (a ++ (':' :: (b ++ ('"' :: (x ++
        ('"' :: post))))))) → body.length < 2 ^ 64 →
      (∀ j, j < pre.length → starts_with "\"id\"".data (body.drop j) = false) →
      (∀ c ∈ a, c ≠ ':') → (∀ c ∈ b, c ≠ '"') → (∀ c ∈ x, c ≠ '"') →
      string_find body "\"id\"".data 0 = pre.length ∧ pre.length ≠ npos ∧
      SpannerTrueTimeGenerator.quoted_value body pre.length = some x := by
    intro hbody hlen hid ha hb hx
    refine ⟨string_find_key body pre _ _ hbody hid, ?_,
      quoted_value_spec body pre _ a b x post hbody hlen (by decide) ha hb hx⟩
    have hk : ("\"id\"".data).length = 4 := rfl
    have hl : pre.length + 4 ≤ body.length := by
      rw [hbody, List.length_append, List.length_append, hk]
      omega
    omega
  refine ⟨?_, ?_, ?_⟩
  · intro hdraw hbody hlen hid ha hb hx hcommit hclen hts ha2 hb2 hts2
    obtain ⟨h1, h2, h3⟩ := hbegin hbody hlen hid ha hb hx
    have h4 := string_find_key _ pre2 _ _ hcommit hts
    have h5 := quoted_value_spec _ pre2 _ a2 b2 ts post2 hcommit hclen (by decide) ha2 hb2 hts2
    have h6 : pre2.length ≠ npos := by
      have hk : ("\"commitTimestamp\"".data).length = 17 := rfl
      have hl : pre2.length + 17 ≤ (commit_resp (String.mk x)).data.length := by
        rw [hcommit, List.length_append, List.length_append, hk]
        omega
      omega
    have hshort : (if x.length > 8 then x.take 8 else x) = x.take 8 := by
      split_ifs with h
      · rfl
      · exact (List.take_of_length_le (by omega)).symm
    refine ⟨?_, new_shard_id_shape draw hdraw⟩
    simp only [SpannerTrueTimeGenerator.next_id_string, h1, if_neg h2, h3, h4, if_neg h6, h5,
      hshort]
    congr 1
    apply String.ext
    simp [String.data_append]
  · intro hno
    have h1 : string_find body "\"id\"".data 0 = npos := string_find_none hno
    simp only [SpannerTrueTimeGenerator.next_id_string, h1, if_true]
  · intro hbody hlen hid ha hb hx hno
    obtain ⟨h1, h2, h3⟩ := hbegin hbody hlen hid ha hb hx
    have h4 : string_find (commit_resp (String.mk x)).data "\"commitTimestamp\"".data 0 = npos :=
      string_find_none hno
    simp only [SpannerTrueTimeGenerator.next_id_string, h1, if_neg h2, h3, h4, if_true]

/-- C22, at the shard id `00ab`, the begin answer
`{"id": "AbCdEfGhIjKl"}` and the commit answer
`{"commitTimestamp": "2026-01-01T00:00:00.123456Z"}`. -/
theorem spanner_truetime_format_witness :
    SpannerTrueTimeGenerator.new_shard_id 171 = "00ab" ∧
    SpannerTrueTimeGenerator.next_id_string (SpannerTrueTimeGenerator.new_shard_id 171)
        "\x7b\"id\": \"AbCdEfGhIjKl\"\x7d"
        (fun _ => "\x7b\"commitTimestamp\": \"2026-01-01T00:00:00.123456Z\"\x7d") =
      some (SpannerTrueTimeGenerator.new_shard_id 171 ++ "-" ++
        "2026-01-01T00:00:00.123456Z" ++ "-" ++ "AbCdEfGh") :=
  ⟨by decide,
    ((spanner_truetime_format 171
      (fun _ => "\x7b\"commitTimestamp\": \"2026-01-01T00:00:00.123456Z\"\x7d")
      "\x7b\"id\": \"AbCdEfGhIjKl\"\x7d".data "\x7b".data [] " ".data "AbCdEfGhIjKl".data
      "\x7d".data "\x7b".data [] " ".data "2026-01-01T00:00:00.123456Z".data "\x7d".data).1
      (by decide) (by decide) (by decide) (by decide) (by decide) (by decide) (by decide)
      (by decide) (by decide) (by decide) (by decide) (by decide) (by decide)).1⟩


/-! ## Node identity from the network interfaces -/

/-- When every entry that the loop visits has an address, the helper returns
the masked address of the first IPv4 entry not named `lo`, and 1 when there
is none or the query fails; a masked address is at most `mask`. -/
theorem node_id_of_addressed_interfaces (mask : Nat) (front rest : List ifaddrs)
    (entry : ifaddrs) (addr : sockaddr)
    (hfront : ∀ e ∈ front, ∃ a, e.ifa_addr = some a ∧ (a.sa_family ≠ AF_INET ∨ e.ifa_name = "lo"))
    (haddr : entry.ifa_addr = some addr) (hfam : addr.sa_family = AF_INET)
    (hname : entry.ifa_name ≠ "lo") :
    NetworkUtil.get_node_id_from_ip (some (front ++ entry :: rest)) mask =
      some (addr.host_order_addr % 2 ^ 32 &&& mask) ∧
    NetworkUtil.get_node_id_from_ip (some front) mask = some 1 ∧
    NetworkUtil.get_node_id_from_ip none mask = some 1 ∧
    addr.host_order_addr % 2 ^ 32 &&& mask ≤ mask := by
  have hwalk : ∀ tail : List ifaddrs, NetworkUtil.walk (front ++ tail) = NetworkUtil.walk tail := by
    intro tail
    induction front with
    | nil => rfl
    | cons e front ih =>
      obtain ⟨a, ha, hskip⟩ := hfront e (List.mem_cons_self _ _)
      have ih2 := ih (fun e he => hfront e (List.mem_cons_of_mem _ he))
      rw [List.cons_append, NetworkUtil.walk, ha]
      simp only
      rcases hskip with h | h
      · rw [if_neg h]; exact ih2
      · split_ifs
        · exact absurd h ‹_›
        · exact ih2
        · exact ih2
  have h1 : NetworkUtil.get_node_id_from_ip (some (front ++ entry :: rest)) mask =
      some (addr.host_order_addr % 2 ^ 32 &&& mask) := by
    simp only [NetworkUtil.get_node_id_from_ip, hwalk, NetworkUtil.walk, haddr, hfam, if_true,
      hname, ne_eq, not_false_eq_true, Option.map_some', IdGen.get_node_id_from_ip]
  refine ⟨h1, ?_, rfl, ?_⟩
  · have := hwalk []
    rw [List.append_nil] at this
    simp only [NetworkUtil.get_node_id_from_ip, this, NetworkUtil.walk, Option.map_some',
      IdGen.get_node_id_from_ip]
  · exact Nat.and_le_right

/-- C23: `getifaddrs` lists an interface without an address (`tun0`, null
`ifa_addr`) before `eth0` with the IPv4 address 172.17.0.2: the helper reads
`sa_family` through the null pointer and returns nothing, where the list
without that entry gives `0xAC110002 & 1023 = 2`. -/
theorem node_id_null_address_is_dereferenced :
    NetworkUtil.get_node_id_from_ip
        (some [⟨"tun0", none⟩, ⟨"eth0", some ⟨AF_INET, 0xAC110002⟩⟩]) MAX_NODE_ID = none ∧
    NetworkUtil.get_node_id_from_ip
        (some [⟨"eth0", some ⟨AF_INET, 0xAC110002⟩⟩]) MAX_NODE_ID = some 2 := by
  decide

/-! ## Sonyflake: the layout -/

/-- The fields of a word packed in the order time, sequence, machine, for a
sequence and a machine id that fit their widths. -/
theorem sony_id_fields (x s m : Nat) (hs : s ≤ 255) (hm : m ≤ 65535) :
    (shl64 x SONY_TIMESTAMP_SHIFT ||| shl64 s SONY_SEQUENCE_SHIFT |||
        shl64 m SONY_MACHINE_ID_SHIFT) &&& 0xFFFF = m ∧
    ((shl64 x SONY_TIMESTAMP_SHIFT ||| shl64 s SONY_SEQUENCE_SHIFT |||
        shl64 m SONY_MACHINE_ID_SHIFT) >>> 16) &&& 0xFF = s ∧
    (shl64 x SONY_TIMESTAMP_SHIFT ||| shl64 s SONY_SEQUENCE_SHIFT |||
        shl64 m SONY_MACHINE_ID_SHIFT) >>> 24 = x % 2 ^ 40 := by
  have hT : SONY_TIMESTAMP_SHIFT = 24 := rfl
  have hS : SONY_SEQUENCE_SHIFT = 16 := rfl
  have hM : SONY_MACHINE_ID_SHIFT = 0 := rfl
  have hs2 : s < 2 ^ 8 := by omega
  have hm2 : m < 2 ^ 16 := by omega
  have hx : shl64 x 24 = 2 ^ 24 * (x % 2 ^ 40) := by
    unfold shl64
    rw [Nat.shiftLeft_eq, show (2 : Nat) ^ 64 = 2 ^ 40 * 2 ^ 24 by norm_num,
      Nat.mul_mod_mul_right, Nat.mul_comm]
  have hsm : 2 ^ 16 * s + m < 2 ^ 24 := by omega
  have e : shl64 x SONY_TIMESTAMP_SHIFT ||| shl64 s SONY_SEQUENCE_SHIFT |||
      shl64 m SONY_MACHINE_ID_SHIFT = 2 ^ 24 * (x % 2 ^ 40) + (2 ^ 16 * s + m) := by
    rw [hT, hS, hM, hx, shl64_of_lt hs2 (by decide), shl64_of_lt hm2 (by decide), Nat.pow_zero,
      Nat.mul_one, Nat.lor_assoc, Nat.mul_comm s, ← Nat.mul_add_lt_is_or hm2,
      ← Nat.mul_add_lt_is_or hsm]
  rw [e, show (0xFFFF : Nat) = 2 ^ 16 - 1 by decide, show (0xFF : Nat) = 2 ^ 8 - 1 by decide,
    Nat.and_pow_two_sub_one_eq_mod, Nat.and_pow_two_sub_one_eq_mod, Nat.shiftRight_eq_div_pow,
    Nat.shiftRight_eq_div_pow]
  refine ⟨?_, ?_, ?_⟩ <;> omega

/-- C24: the tick is the millisecond count divided by 10 and the epoch is
`1767225600000 / 10`; a call that reads a tick past `last_timestamp`, not
before the epoch, resets the sequence to 0, stores the tick and returns
`((tick - epoch) << 24) | (0 << 16) | machine_id`; the low 16 bits of the ID
are the machine id, the next 8 bits the sequence 0 and the 40 bits above them
the time `tick - epoch` (its 40 lowest bits). -/
theorem sonyflake_layout (g : Sonyflake) (millis : Nat) (clock : List Nat)
    (hmillis : millis < 2 ^ 64) (hm : g.machine_id ≤ MAX_SONY_MACHINE_ID)
    (hlast : g.last_timestamp < Sonyflake.current_time_10ms millis)
    (hepoch : SONY_EPOCH_10MS ≤ Sonyflake.current_time_10ms millis) :
    Sonyflake.current_time_10ms millis = millis / 10 ∧
    SONY_EPOCH_10MS = 1767225600000 / 10 ∧
    Sonyflake.next_id g (Sonyflake.current_time_10ms millis :: clock) =
      .returned
        (shl64 (Sonyflake.current_time_10ms millis - SONY_EPOCH_10MS) 24 ||| shl64 0 16 |||
          g.machine_id)
        { machine_id := g.machine_id, sequence := 0,
          last_timestamp := Sonyflake.current_time_10ms millis } clock ∧
    (shl64 (Sonyflake.current_time_10ms millis - SONY_EPOCH_10MS) 24 ||| shl64 0 16 |||
      g.machine_id) &&& 0xFFFF = g.machine_id ∧
    ((shl64 (Sonyflake.current_time_10ms millis - SONY_EPOCH_10MS) 24 ||| shl64 0 16 |||
      g.machine_id) >>> 16) &&& 0xFF = 0 ∧
    (shl64 (Sonyflake.current_time_10ms millis - SONY_EPOCH_10MS) 24 ||| shl64 0 16 |||
      g.machine_id) >>> 24 = (Sonyflake.current_time_10ms millis - SONY_EPOCH_10MS) % 2 ^ 40 := by
  have hM : MAX_SONY_MACHINE_ID = 65535 := by decide
  have hE : SONY_EPOCH_10MS = 176722560000 := by decide
  have htick : Sonyflake.current_time_10ms millis < 2 ^ 64 := by
    unfold Sonyflake.current_time_10ms
    omega
  have hm0 : shl64 g.machine_id SONY_MACHINE_ID_SHIFT = g.machine_id := by
    rw [show SONY_MACHINE_ID_SHIFT = 0 from rfl,
      shl64_of_lt (show g.machine_id < 2 ^ 16 by omega) (by decide)]
    omega
  have hf := sony_id_fields (Sonyflake.current_time_10ms millis - SONY_EPOCH_10MS) 0
    g.machine_id (by decide) (by omega)
  rw [hm0, show SONY_TIMESTAMP_SHIFT = 24 from rfl, show SONY_SEQUENCE_SHIFT = 16 from rfl] at hf
  refine ⟨rfl, by decide, ?_, hf.1, hf.2.1, hf.2.2⟩
  · have hnlt : ¬ Sonyflake.current_time_10ms millis < g.last_timestamp := by omega
    have hne : Sonyflake.current_time_10ms millis ≠ g.last_timestamp := by omega
    simp only [Sonyflake.next_id, hnlt, hne, if_false, Sonyflake.emit, hm0,
      sub64_of_le hepoch htick]
    rfl

/-- C24, at a fresh generator with machine id 7 and the wall clock at
`1767225600123` ms: the tick is `176722560012`, 12 past the epoch. -/
theorem sonyflake_layout_witness :
    (1767225600123 < 2 ^ 64 ∧ (7 : Nat) ≤ MAX_SONY_MACHINE_ID ∧
      0 < Sonyflake.current_time_10ms 1767225600123 ∧
      SONY_EPOCH_10MS ≤ Sonyflake.current_time_10ms 1767225600123) ∧
    Sonyflake.next_id ⟨7, 0, 0⟩ (Sonyflake.current_time_10ms 1767225600123 :: []) =
      .returned 201326599 ⟨7, 0, 176722560012⟩ [] :=
  ⟨⟨by decide, by decide, by decide, by decide⟩,
    (sonyflake_layout ⟨7, 0, 0⟩ 1767225600123 [] (by decide) (by decide) (by decide)
      (by decide)).2.2.1⟩

/-! ## InstaSnowflake: runs of calls -/

namespace InstaSnowflake

theorem insta_next_id_same (g : InstaSnowflake) (clock : List Nat)
    (h : add64 g.sequence 1 &&& MAX_INSTA_SEQUENCE ≠ 0) :
    next_id g (g.last_timestamp :: clock) =
      emit { g with sequence := add64 g.sequence 1 } g.last_timestamp clock := by
  simp [next_id, h]

theorem insta_next_id_rollover (g : InstaSnowflake) (t1 : Nat) (clock : List Nat)
    (h : add64 g.sequence 1 &&& MAX_INSTA_SEQUENCE = 0) (ht : g.last_timestamp < t1) :
    next_id g (g.last_timestamp :: t1 :: clock) =
      emit { g with sequence := add64 g.sequence 1 } t1 clock := by
  simp [next_id, h, wait_for_next_tick, Nat.not_le.mpr ht]

theorem insta_next_id_later (g : InstaSnowflake) (t : Nat) (clock : List Nat)
    (h : g.last_timestamp < t) :
    next_id g (t :: clock) = emit { g with sequence := 0 } t clock := by
  simp [next_id, Nat.lt_asymm h, Nat.ne_of_gt h]

theorem insta_run_succ_of_returned {g g1 g2 : InstaSnowflake} {n id : Nat}
    {clock clock1 clock2 ids : List Nat}
    (h1 : next_id g clock = .returned id g1 clock1)
    (h2 : run g1 n clock1 = some (ids, g2, clock2)) :
    run g (n + 1) clock = some (id :: ids, g2, clock2) := by
  simp only [run, h1, h2]

theorem insta_run_add_of_some (a b : Nat) : ∀ {g g1 g2 : InstaSnowflake}
    {clock clock1 clock2 ids1 ids2 : List Nat},
    run g a clock = some (ids1, g1, clock1) → run g1 b clock1 = some (ids2, g2, clock2) →
    run g (a + b) clock = some (ids1 ++ ids2, g2, clock2) := by
  induction a with
  | zero =>
    intro g g1 g2 clock clock1 clock2 ids1 ids2 h1 h2
    simp only [run, Option.some.injEq, Prod.mk.injEq] at h1
    obtain ⟨e1, e2, e3⟩ := h1
    subst e1 e2 e3
    rw [Nat.zero_add, h2, List.nil_append]
  | succ a ih =>
    intro g g1 g2 clock clock1 clock2 ids1 ids2 h1 h2
    rw [Nat.add_right_comm]
    simp only [run] at h1 ⊢
    cases hn : next_id g clock with
    | thrown => rw [hn] at h1; cases h1
    | blocked => rw [hn] at h1; cases h1
    | returned id g0 clock0 =>
      rw [hn] at h1
      simp only at h1 ⊢
      cases hr : run g0 a clock0 with
      | none => rw [hr] at h1; cases h1
      | some r =>
        obtain ⟨ids0, g3, clock3⟩ := r
        rw [hr] at h1
        simp only [Option.some.injEq, Prod.mk.injEq] at h1
        obtain ⟨e1, e2, e3⟩ := h1
        subst e1 e2 e3
        rw [ih hr h2]
        rfl

/-- While the clock stays at `last_timestamp` and the counter does not reach a
multiple of 1024, each call increments the counter. -/
theorem insta_run_frozen : ∀ (j : Nat) (g : InstaSnowflake) (rest : List Nat),
    g.sequence % 1024 + j ≤ 1023 → g.sequence + j < 2 ^ 64 →
    ∃ ids, run g j (List.replicate j g.last_timestamp ++ rest) =
      some (ids, ⟨g.shard_id, g.sequence + j, g.last_timestamp⟩, rest) := by
  intro j
  induction j with
  | zero => intro g rest _ _; exact ⟨[], rfl⟩
  | succ j ih =>
    intro g rest h1 h2
    have hM : MAX_INSTA_SEQUENCE = 2 ^ 10 - 1 := by decide
    have e1 : add64 g.sequence 1 = g.sequence + 1 := by unfold add64; omega
    have hne : add64 g.sequence 1 &&& MAX_INSTA_SEQUENCE ≠ 0 := by
      rw [e1, hM, Nat.and_pow_two_sub_one_eq_mod]; omega
    obtain ⟨ids, hids⟩ := ih ⟨g.shard_id, g.sequence + 1, g.last_timestamp⟩ rest
      (by simp only; omega) (by simp only; omega)
    simp only at hids
    refine ⟨(shl64 (sub64 g.last_timestamp EPOCH) INSTA_TIMESTAMP_SHIFT |||
      shl64 g.shard_id INSTA_SHARD_ID_SHIFT ||| (g.sequence + 1)) :: ids, ?_⟩
    rw [List.replicate_succ, List.cons_append]
    simp only [run, insta_next_id_same g _ hne, emit, e1, hids]
    simp only [Nat.add_assoc, Nat.add_comm 1 j]

/-- From a fresh state with the clock frozen at `t0`, the 1025th call waits for
a reading `t1` past `t0` and leaves the counter at 1024. -/
theorem insta_run_first_overflow (shard t0 t1 : Nat) (h0 : 0 < t0) (h1 : t0 < t1) :
    ∃ pre, run ⟨shard, 0, 0⟩ 1025 (List.replicate 1025 t0 ++ [t1]) =
      some (pre ++ [shl64 (sub64 t1 EPOCH) INSTA_TIMESTAMP_SHIFT |||
              shl64 shard INSTA_SHARD_ID_SHIFT ||| 1024],
            ⟨shard, 1024, t1⟩, []) := by
  have hM : MAX_INSTA_SEQUENCE = 2 ^ 10 - 1 := by decide
  have hfirst := insta_next_id_later ⟨shard, 0, 0⟩ t0 (List.replicate 1024 t0 ++ [t1]) h0
  obtain ⟨ids, hids⟩ := insta_run_frozen 1023 ⟨shard, 0, t0⟩ [t0, t1] (by norm_num) (by norm_num)
  have hz : add64 (0 + 1023) 1 &&& MAX_INSTA_SEQUENCE = 0 := by decide
  have hroll := insta_next_id_rollover ⟨shard, 0 + 1023, t0⟩ t1 [] hz h1
  have hlast : run ⟨shard, 0 + 1023, t0⟩ 1 [t0, t1] =
      some ([shl64 (sub64 t1 EPOCH) INSTA_TIMESTAMP_SHIFT |||
        shl64 shard INSTA_SHARD_ID_SHIFT ||| 1024], ⟨shard, 1024, t1⟩, []) := by
    simp only [run, hroll, emit]
    rfl
  have hclock2 : List.replicate 1024 t0 ++ [t1] = List.replicate 1023 t0 ++ [t0, t1] := by
    rw [show (1024 : Nat) = 1023 + 1 from rfl, List.replicate_succ', List.append_assoc,
      List.singleton_append]
  rw [hclock2] at hfirst
  have hmid := insta_run_add_of_some 1023 1 hids hlast
  have hall := insta_run_succ_of_returned hfirst hmid
  refine ⟨(shl64 (sub64 t0 EPOCH) INSTA_TIMESTAMP_SHIFT ||| shl64 shard INSTA_SHARD_ID_SHIFT |||
    0) :: ids, ?_⟩
  have hclock : List.replicate 1025 t0 ++ [t1] =
      t0 :: (List.replicate 1023 t0 ++ [t0, t1]) := by
    rw [show (1025 : Nat) = 1023 + 1 + 1 from rfl, List.replicate_succ, List.replicate_succ',
      List.cons_append, List.append_assoc, List.singleton_append]
  rw [hclock]
  exact hall

end InstaSnowflake

/-- C25: the 1025th ID of an InstaSnowflake with shard id 42 whose clock stays
at `EPOCH + 5` and then reads `EPOCH + 6`: the sequence counter is 1024, above
1023, it is packed unmasked, and the shard field `(id >> 10) & 0x1FFF` of the
ID reads 43, not 42. -/
theorem insta_overflow_breaks_shard_field :
    (InstaSnowflake.new (some 42)).shard_id = 42 ∧
    (∃ pre, InstaSnowflake.run (InstaSnowflake.new (some 42)) 1025
        (List.replicate 1025 (EPOCH + 5) ++ [EPOCH + 6]) =
      some (pre ++ [50375680], ⟨42, 1024, EPOCH + 6⟩, [])) ∧
    (50375680 >>> 10) &&& 0x1FFF = 43 ∧ 50375680 &&& 0x3FF = 0 ∧
    50375680 >>> 23 = 6 := by
  refine ⟨by decide, ?_, by decide, by decide, by decide⟩
  obtain ⟨pre, h⟩ := InstaSnowflake.insta_run_first_overflow 42 (EPOCH + 5) (EPOCH + 6)
    (by decide) (by decide)
  refine ⟨pre, ?_⟩
  rw [show InstaSnowflake.new (some 42) = ⟨42, 0, 0⟩ by decide, h]
  have e : shl64 (sub64 (EPOCH + 6) EPOCH) INSTA_TIMESTAMP_SHIFT |||
      shl64 42 INSTA_SHARD_ID_SHIFT ||| 1024 = 50375680 := by decide
  rw [e]


/-! ## Decimal output -/

theorem dec_core_acc : ∀ (fuel n : Nat) (acc : List Char),
    dec_core fuel n acc = dec_core fuel n [] ++ acc := by
  intro fuel
  induction fuel with
  | zero => intro n acc; rfl
  | succ fuel ih =>
    intro n acc
    simp only [dec_core]
    split_ifs
    · rfl
    · rw [ih _ (_ :: acc), ih _ [_], List.append_assoc]
      rfl

theorem dec_digit_value (d : Nat) (h : d < 10) : (Nat.digitChar d).toNat - 48 = d := by
  interval_cases d <;> decide

theorem dec_digit_is_digit (d : Nat) (h : d < 10) : (Nat.digitChar d).isDigit = true := by
  interval_cases d <;> decide

theorem dec_value_snoc (l : List Char) (c : Char) :
    dec_value (l ++ [c]) = 10 * dec_value l + (c.toNat - 48) := by
  unfold dec_value
  rw [List.foldl_append]
  rfl

/-- The digits printed for a number that fits `fuel` digits denote it. -/
theorem dec_core_value : ∀ (fuel n : Nat), n < 10 ^ fuel →
    dec_value (dec_core fuel n []) = n := by
  intro fuel
  induction fuel with
  | zero =>
    intro n h
    have : n = 0 := by simpa using h
    subst this
    rfl
  | succ fuel ih =>
    intro n h
    simp only [dec_core]
    split_ifs with h0
    · have hn : n < 10 := by omega
      rw [Nat.mod_eq_of_lt hn]
      have := dec_value_snoc [] (Nat.digitChar n)
      rw [List.nil_append] at this
      rw [this, dec_digit_value n hn, show dec_value [] = 0 from rfl]
      omega
    · have hq : n / 10 < 10 ^ fuel := by
        rw [Nat.div_lt_iff_lt_mul (by decide)]
        rw [Nat.pow_succ] at h
        exact h
      rw [dec_core_acc, dec_value_snoc, ih _ hq, dec_digit_value _ (Nat.mod_lt _ (by decide))]
      omega

theorem dec_core_digits : ∀ (fuel n : Nat), ∀ c ∈ dec_core fuel n [], c.isDigit = true := by
  intro fuel
  induction fuel with
  | zero => intro n c hc; simp [dec_core] at hc
  | succ fuel ih =>
    intro n c hc
    simp only [dec_core] at hc
    split_ifs at hc
    · rw [List.mem_singleton] at hc
      rw [hc]
      exact dec_digit_is_digit _ (Nat.mod_lt _ (by decide))
    · rw [dec_core_acc, List.mem_append, List.mem_singleton] at hc
      rcases hc with h | h
      · exact ih _ c h
      · rw [h]
        exact dec_digit_is_digit _ (Nat.mod_lt _ (by decide))

/-- The digits printed for a number other than 0 start with a digit other
than `0`. -/
theorem dec_core_head : ∀ (fuel n : Nat), n ≠ 0 → n < 10 ^ fuel →
    ∃ d rest, 1 ≤ d ∧ d ≤ 9 ∧ dec_core fuel n [] = Nat.digitChar d :: rest := by
  intro fuel
  induction fuel with
  | zero => intro n h0 h; simp at h; exact absurd h h0
  | succ fuel ih =>
    intro n h0 h
    simp only [dec_core]
    split_ifs with hz
    · exact ⟨n % 10, [], by omega, by omega, rfl⟩
    · have hq : n / 10 < 10 ^ fuel := by
        rw [Nat.div_lt_iff_lt_mul (by decide)]
        rw [Nat.pow_succ] at h
        exact h
      obtain ⟨d, rest, h1, h2, h3⟩ := ih (n / 10) hz hq
      refine ⟨d, rest ++ [Nat.digitChar (n % 10)], h1, h2, ?_⟩
      rw [dec_core_acc, h3]
      rfl

/-- C26: none of Snowflake, HLC, Instagram, Sonyflake, Etcd, DB auto-increment,
Dual-buffer and Spanner sequence declares its own `next_id_string`; for an
object of one of these classes, when `next_id` returns the 64-bit value `id`,
`next_id_string` returns the decimal representation of `id` (decimal digits
that denote `id`, without a leading `0` unless `id = 0`) after exactly one
call of `next_id`. -/
theorem base_next_id_string {σ : Type} (kind : GeneratorKind)
    (own : σ → Option (String × σ)) (next_id : σ → Option (Nat × σ)) (s s1 : σ)
    (id calls : Nat)
    (hkind : kind ∈ [GeneratorKind.Snowflake, GeneratorKind.HlcSnowflake,
      GeneratorKind.InstaSnowflake, GeneratorKind.Sonyflake, GeneratorKind.EtcdSnowflake,
      GeneratorKind.DbAutoIncGenerator, GeneratorKind.DualBufferGenerator,
      GeneratorKind.SpannerGenerator])
    (hcall : next_id s = some (id, s1)) (hid : id < 2 ^ 64) :
    overrides_next_id_string kind = false ∧
    IdGenerator.virtual_next_id_string kind own next_id s = some (to_string id, s1) ∧
    IdGenerator.next_id_string (IdGenerator.counted next_id) (s, calls) =
      some (to_string id, (s1, calls + 1)) ∧
    dec_value (to_string id).data = id ∧
    (∀ c ∈ (to_string id).data, c.isDigit = true) ∧
    (to_string id).data ≠ [] ∧
    (id ≠ 0 → (to_string id).data.head? ≠ some '0') ∧
    to_string 0 = "0" := by
  have hlt : id < 10 ^ 20 := by omega
  have hk : overrides_next_id_string kind = false := by
    simp only [List.mem_cons, List.mem_singleton, List.not_mem_nil, or_false] at hkind
    rcases hkind with h | h | h | h | h | h | h | h <;> rw [h] <;> rfl
  refine ⟨hk, ?_, ?_, dec_core_value 20 id hlt, dec_core_digits 20 id, ?_, ?_, by decide⟩
  · simp only [IdGenerator.virtual_next_id_string, hk, Bool.false_eq_true, if_false,
      IdGenerator.next_id_string, hcall]
  · simp only [IdGenerator.next_id_string, IdGenerator.counted, hcall]
  · intro he
    have := dec_core_value 20 id hlt
    rw [show (to_string id).data = dec_core 20 id [] from rfl] at he
    rw [he] at this
    have h0 : id = 0 := this.symm
    subst h0
    exact absurd he (by decide)
  · intro h0 hhead
    obtain ⟨d, rest, h1, h2, h3⟩ := dec_core_head 20 id h0 hlt
    rw [show (to_string id).data = dec_core 20 id [] from rfl, h3] at hhead
    simp only [List.head?_cons, Option.some.injEq] at hhead
    interval_cases d <;> exact absurd hhead (by decide)

/-- C26, at a fresh Snowflake with node id 42 whose clock reads
`1767225600123`: the ID is 516071424 and the text is `516071424`. -/
theorem base_next_id_string_witness :
    IdGenerator.virtual_next_id_string GeneratorKind.Snowflake (fun _ => none)
        Snowflake.next_id_method (Snowflake.new (some 42), [1767225600123]) =
      some ("516071424", (⟨42, 0, 1767225600123⟩, [])) :=
  (base_next_id_string GeneratorKind.Snowflake (fun _ => none) Snowflake.next_id_method
    (Snowflake.new (some 42), [1767225600123]) (⟨42, 0, 1767225600123⟩, []) 516071424 0
    (by decide) (by decide) (by decide)).2.1


/-! ## DualBufferGenerator: one allocation, one fetch -/

theorem segments_set_current (g : DualBufferGenerator) (s : Segment) :
    (g.set_segment g.current_pos s).segments (1 - g.current_pos) =
      g.segments (1 - g.current_pos) := by
  unfold DualBufferGenerator.set_segment DualBufferGenerator.segments
  by_cases h : g.current_pos = 0
  · rw [h]; rfl
  · have h1 : 1 - g.current_pos = 0 := by omega
    rw [if_neg h, h1]
    rfl

/-- An allocation for an arbitrary value of the threshold: when the current
segment still has an ID, `next_id` returns the old `current_id` and increments
it by one (in 64 bits); `current_pos` and the sibling segment stay as they
were; `fetch_needed` is set exactly when the count `remaining` after the
increment is at most the threshold, the sibling is not ready and the flag was
not set, and a flag that was set stays set. -/
theorem prefetch_trigger_of_threshold (threshold : Nat → Nat) (g : DualBufferGenerator)
    (db : List (Option (Nat × Nat)))
    (hcur : (g.segments g.current_pos).current_id ≤ (g.segments g.current_pos).max_id)
    (hfit : (g.segments g.current_pos).max_id < 2 ^ 64) :
    ∃ g1, DualBufferGenerator.next_id threshold g db =
        .returned (g.segments g.current_pos).current_id g1 db ∧
      g1.segments g.current_pos =
        { g.segments g.current_pos with
          current_id := ((g.segments g.current_pos).current_id + 1) % 2 ^ 64 } ∧
      g1.current_pos = g.current_pos ∧
      g1.segments (1 - g.current_pos) = g.segments (1 - g.current_pos) ∧
      g1.fetch_needed = (g.fetch_needed ||
        (decide ((g.segments g.current_pos).max_id + 1 -
            ((g.segments g.current_pos).current_id + 1) ≤
          threshold (g.segments g.current_pos).step) &&
          !(g.segments (1 - g.current_pos)).is_ready && !g.fetch_needed)) ∧
      (threshold (g.segments g.current_pos).step = (g.segments g.current_pos).step / 5 →
        g1.fetch_needed = (g.fetch_needed ||
          (decide (5 * ((g.segments g.current_pos).max_id + 1 -
              ((g.segments g.current_pos).current_id + 1)) ≤
            (g.segments g.current_pos).step) &&
            !(g.segments (1 - g.current_pos)).is_ready && !g.fetch_needed))) := by
  have hrem : add64 (sub64 (g.segments g.current_pos).max_id
      (add64 (g.segments g.current_pos).current_id 1)) 1 =
      (g.segments g.current_pos).max_id + 1 - ((g.segments g.current_pos).current_id + 1) := by
    unfold add64 sub64
    omega
  have hloop := DualBufferGenerator.loop_allocate threshold (2 * db.length + 1) g db hcur
  rw [hrem, segments_set_current] at hloop
  have hflag : ∀ g1 : DualBufferGenerator,
      g1.fetch_needed = (g.fetch_needed ||
        (decide ((g.segments g.current_pos).max_id + 1 -
            ((g.segments g.current_pos).current_id + 1) ≤
          threshold (g.segments g.current_pos).step) &&
          !(g.segments (1 - g.current_pos)).is_ready && !g.fetch_needed)) →
      (threshold (g.segments g.current_pos).step = (g.segments g.current_pos).step / 5 →
        g1.fetch_needed = (g.fetch_needed ||
          (decide (5 * ((g.segments g.current_pos).max_id + 1 -
              ((g.segments g.current_pos).current_id + 1)) ≤
            (g.segments g.current_pos).step) &&
            !(g.segments (1 - g.current_pos)).is_ready && !g.fetch_needed))) := by
    intro g1 h hthr
    rw [h, hthr]
    congr 3
    rw [decide_eq_decide]
    omega
  by_cases hc : (decide ((g.segments g.current_pos).max_id + 1 -
            ((g.segments g.current_pos).current_id + 1) ≤
          threshold (g.segments g.current_pos).step) &&
          !(g.segments (1 - g.current_pos)).is_ready && !g.fetch_needed) = true
  · rw [if_pos hc] at hloop
    have hf : g.fetch_needed = false := by
      simp only [Bool.and_eq_true, Bool.not_eq_true'] at hc
      exact hc.2
    refine ⟨_, hloop, ?_, ?_, ?_, ?_, ?_⟩
    · rw [DualBufferGenerator.segments_set_flag, DualBufferGenerator.segments_set_same]
      rfl
    · rw [DualBufferGenerator.pos_set_flag, DualBufferGenerator.set_segment_pos]
    · rw [DualBufferGenerator.segments_set_flag, segments_set_current]
    · rw [DualBufferGenerator.flag_set_flag, hc, Bool.or_true]
    · apply hflag
      rw [DualBufferGenerator.flag_set_flag, hc, Bool.or_true]
  · rw [if_neg hc] at hloop
    have hcf : (decide ((g.segments g.current_pos).max_id + 1 -
            ((g.segments g.current_pos).current_id + 1) ≤
          threshold (g.segments g.current_pos).step) &&
          !(g.segments (1 - g.current_pos)).is_ready && !g.fetch_needed) = false := by
      simpa using hc
    refine ⟨_, hloop, ?_, ?_, ?_, ?_, ?_⟩
    · rw [DualBufferGenerator.segments_set_same]
      rfl
    · rw [DualBufferGenerator.set_segment_pos]
    · rw [segments_set_current]
    · rw [DualBufferGenerator.set_segment_flag, hcf, Bool.or_false]
    · apply hflag
      rw [DualBufferGenerator.set_segment_flag, hcf, Bool.or_false]

theorem fetch_segment_statements_refines (g : DualBufferGenerator) (index : Nat)
    (db : FetchAnswers) :
    ((g.fetch_segment_statements index db).1, (g.fetch_segment_statements index db).2.2) =
      g.fetch_segment index (if db.update_ok && db.select_ok then db.row else none) := by
  obtain ⟨u, s, row⟩ := db
  cases u <;> cases s <;> rcases row with _ | ⟨m, st⟩ <;> rfl

/-- C28: `fetch_segment` reports success after `COMMIT`, with the segment set
from the row read, and reports failure after `ROLLBACK`, with the state
untouched, when the `UPDATE` or the `SELECT` fails; but when both succeed and
no row comes back it sends `COMMIT`, no `ROLLBACK`, and reports failure. -/
theorem dual_buffer_fetch_commits_on_failure (g : DualBufferGenerator) (index max_id step : Nat)
    (select_ok : Bool) (row : Option (Nat × Nat)) :
    g.fetch_segment_statements index ⟨true, true, none⟩ =
      (false, [.START_TRANSACTION, .UPDATE, .SELECT, .COMMIT], g) ∧
    g.fetch_segment_statements index ⟨true, true, some (max_id, step)⟩ =
      (true, [.START_TRANSACTION, .UPDATE, .SELECT, .COMMIT],
        g.set_segment index
          { max_id := max_id, current_id := add64 (sub64 max_id step) 1, step := step,
            is_ready := true }) ∧
    g.fetch_segment_statements index ⟨false, select_ok, row⟩ =
      (false, [.START_TRANSACTION, .UPDATE, .ROLLBACK], g) ∧
    g.fetch_segment_statements index ⟨true, false, row⟩ =
      (false, [.START_TRANSACTION, .UPDATE, .SELECT, .ROLLBACK], g) := by
  refine ⟨rfl, rfl, rfl, rfl⟩


/-! ## HlcSnowflake: the stored state -/

theorem hlc_state_fields (st : Nat) (h : st < 2 ^ 64) :
    st >>> SEQUENCE_BITS < 2 ^ 52 ∧ st &&& MAX_SEQUENCE < 2 ^ 12 ∧
    shl64 (st >>> SEQUENCE_BITS) SEQUENCE_BITS ||| (st &&& MAX_SEQUENCE) = st := by
  have hM : MAX_SEQUENCE = 2 ^ 12 - 1 := by decide
  have hB : SEQUENCE_BITS = 12 := rfl
  have h1 : st >>> 12 < 2 ^ 52 := by
    rw [Nat.shiftRight_eq_div_pow]
    omega
  have h2 : st % 2 ^ 12 < 2 ^ 12 := Nat.mod_lt _ (by decide)
  rw [hM, hB, Nat.and_pow_two_sub_one_eq_mod]
  refine ⟨h1, h2, ?_⟩
  rw [shl64_of_lt h1 (by decide), Nat.mul_comm, ← Nat.mul_add_lt_is_or h2,
    Nat.shiftRight_eq_div_pow]
  omega

theorem hlc_word_eq {t s : Nat} (ht : t < 2 ^ 52) (hs : s < 2 ^ 12) :
    shl64 t SEQUENCE_BITS ||| s = 2 ^ 12 * t + s := by
  rw [show SEQUENCE_BITS = 12 from rfl, shl64_of_lt ht (by decide), Nat.mul_comm,
    ← Nat.mul_add_lt_is_or hs]

/-- The pair that a pass settles on, against the pair stored and the clock
reading. -/
theorem hlc_pass_invariant {t s : Nat} (ht : t < 2 ^ 52) (hs : s < 2 ^ 12) (pt : Nat) :
    pt ≤ (HlcSnowflake.pass (shl64 t SEQUENCE_BITS ||| s) pt).2.1 ∧
    t ≤ (HlcSnowflake.pass (shl64 t SEQUENCE_BITS ||| s) pt).2.1 ∧
    2 ^ 12 * t + s < 2 ^ 12 * (HlcSnowflake.pass (shl64 t SEQUENCE_BITS ||| s) pt).2.1 +
      (HlcSnowflake.pass (shl64 t SEQUENCE_BITS ||| s) pt).2.2 := by
  rw [HlcSnowflake.pass_of_fields ht hs]
  split_ifs with c1 c2
  · simp only; omega
  · simp only; omega
  · simp only; omega

/-- C29: for a stored state and a clock reading `pt` from which the call
settles on a logical timestamp below `2 ^ 52`, the state stored by `next_id`
holds a timestamp that is at least `pt` and at least the timestamp stored
before, a sequence of at most 4095, and is, as a 64-bit word, greater than the
state stored before. -/
theorem hlc_state_invariant (g : HlcSnowflake) (pt : Nat) (hst : g.state < 2 ^ 64)
    (hts : HlcSnowflake.logical_ts g pt < 2 ^ 52) :
    pt ≤ (HlcSnowflake.next_id g pt).2.state >>> SEQUENCE_BITS ∧
    g.state >>> SEQUENCE_BITS ≤ (HlcSnowflake.next_id g pt).2.state >>> SEQUENCE_BITS ∧
    (HlcSnowflake.next_id g pt).2.state &&& MAX_SEQUENCE ≤ 4095 ∧
    g.state < (HlcSnowflake.next_id g pt).2.state := by
  obtain ⟨h1, h2, h3⟩ := hlc_state_fields g.state hst
  have hseq : (HlcSnowflake.pass g.state pt).2.2 < 2 ^ 12 :=
    Nat.lt_succ_of_le (HlcSnowflake.pass_seq_le g.state pt)
  have hnew : (HlcSnowflake.next_id g pt).2.state =
      shl64 (HlcSnowflake.pass g.state pt).2.1 SEQUENCE_BITS |||
        (HlcSnowflake.pass g.state pt).2.2 := by
    rw [HlcSnowflake.next_id_eq]
  have hts2 : (HlcSnowflake.pass g.state pt).2.1 < 2 ^ 52 := hts
  obtain ⟨u1, u2⟩ := hlc_unpack hts2 hseq
  have hinv := hlc_pass_invariant h1 h2 pt
  have hold := hlc_word_eq h1 h2
  rw [h3] at hinv hold
  have hnw := hlc_word_eq hts2 hseq
  rw [hnew, u1, u2]
  refine ⟨hinv.1, hinv.2.1, HlcSnowflake.pass_seq_le g.state pt, ?_⟩
  rw [hnw]
  have h4 := hinv.2.2
  omega

/-- C29, at a state holding timestamp 1000 and sequence 4095 with the clock
at 995: the call stores timestamp 1001 and sequence 0. -/
theorem hlc_state_invariant_witness :
    ((4100095 : Nat) < 2 ^ 64 ∧ HlcSnowflake.logical_ts ⟨42, 4100095⟩ 995 < 2 ^ 52) ∧
    (HlcSnowflake.next_id ⟨42, 4100095⟩ 995).2.state = 4100096 ∧
    (995 ≤ (HlcSnowflake.next_id ⟨42, 4100095⟩ 995).2.state >>> SEQUENCE_BITS ∧
      (4100095 : Nat) >>> SEQUENCE_BITS ≤
        (HlcSnowflake.next_id ⟨42, 4100095⟩ 995).2.state >>> SEQUENCE_BITS ∧
      (HlcSnowflake.next_id ⟨42, 4100095⟩ 995).2.state &&& MAX_SEQUENCE ≤ 4095 ∧
      4100095 < (HlcSnowflake.next_id ⟨42, 4100095⟩ 995).2.state) :=
  ⟨⟨by decide, by decide⟩, by decide,
    hlc_state_invariant ⟨42, 4100095⟩ 995 (by decide) (by decide)⟩


/-! ## UUIDv4: the free bits -/

theorem fixed_hex_inj {w x y : Nat} (h : fixed_hex w x = fixed_hex w y) :
    x % 16 ^ w = y % 16 ^ w := by
  rw [← hex_value_fixed, ← hex_value_fixed, h]

/-- Two halves that fit 64 bits are read back from the formatted text. -/
theorem format_uuid_inj {p1 p2 q1 q2 : Nat} (hp1 : p1 < 2 ^ 64) (hp2 : p2 < 2 ^ 64)
    (hq1 : q1 < 2 ^ 64) (hq2 : q2 < 2 ^ 64) (h : format_uuid p1 p2 = format_uuid q1 q2) :
    p1 = q1 ∧ p2 = q2 := by
  have hd : (format_uuid p1 p2).data = (format_uuid q1 q2).data := by rw [h]
  rw [format_uuid_data p1 p2 hp1 hp2, format_uuid_data q1 q2 hq1 hq2] at hd
  simp only [List.append_assoc, List.cons_append] at hd
  obtain ⟨e1, hd⟩ := List.append_inj hd (by rw [fixed_hex_length, fixed_hex_length])
  rw [List.cons.injEq] at hd
  obtain ⟨e2, hd⟩ := List.append_inj hd.2 (by rw [fixed_hex_length, fixed_hex_length])
  rw [List.cons.injEq] at hd
  obtain ⟨e3, hd⟩ := List.append_inj hd.2 (by rw [fixed_hex_length, fixed_hex_length])
  rw [List.cons.injEq] at hd
  obtain ⟨e4, hd⟩ := List.append_inj hd.2 (by rw [fixed_hex_length, fixed_hex_length])
  rw [List.cons.injEq] at hd
  have e5 := hd.2
  have f1 := fixed_hex_inj e1
  have f2 := fixed_hex_inj e2
  have f3 := fixed_hex_inj e3
  have f4 := fixed_hex_inj e4
  have f5 := fixed_hex_inj e5
  norm_num at f1 f2 f3 f4 f5
  constructor <;> omega

theorem masked_or_inj (a b m v : Nat) (hv : v &&& m = 0)
    (h : (a &&& m) ||| v = (b &&& m) ||| v) : a &&& m = b &&& m := by
  have key : ∀ x : Nat, ((x &&& m) ||| v) &&& m = x &&& m := by
    intro x
    apply Nat.eq_of_testBit_eq
    intro i
    have hi := congrArg (fun n => n.testBit i) hv
    simp only [Nat.testBit_and, Nat.testBit_or, Nat.zero_testBit] at hi ⊢
    cases h1 : x.testBit i <;> cases h2 : m.testBit i <;> cases h3 : v.testBit i <;> simp_all
  rw [← key a, ← key b, h]

/-- C30: two draws `(a1, a2)` and `(b1, b2)` give the same UUIDv4 string
exactly when `a1` and `b1` agree on the bits of `0xFFFFFFFFFFFF0FFF` and `a2`
and `b2` on the bits of `0x3FFFFFFFFFFFFFFF`: the 64-bit words less the four
version bits and the two variant bits. -/
theorem uuid_v4_free_bits (a1 a2 b1 b2 : Nat) :
    UuidV4Generator.next_id_string a1 a2 = UuidV4Generator.next_id_string b1 b2 ↔
      (a1 &&& 0xFFFFFFFFFFFF0FFF = b1 &&& 0xFFFFFFFFFFFF0FFF ∧
        a2 &&& 0x3FFFFFFFFFFFFFFF = b2 &&& 0x3FFFFFFFFFFFFFFF) := by
  constructor
  · intro h
    have hv2 : ∀ r : Nat, (r &&& 0x3FFFFFFFFFFFFFFF) ||| 0x8000000000000000 < 2 ^ 64 := by
      intro r
      rw [variant_half]
      omega
    obtain ⟨e1, e2⟩ := format_uuid_inj (v4_version_half a1).1 (hv2 a2) (v4_version_half b1).1
      (hv2 b2) h
    exact ⟨masked_or_inj a1 b1 _ _ (by decide) e1, masked_or_inj a2 b2 _ _ (by decide) e2⟩
  · intro h
    unfold UuidV4Generator.next_id_string
    simp only [h.1, h.2]


/-! ## The threshold in double precision -/

theorem bit_length_le : ∀ (fuel n k : Nat), n < 2 ^ k → bit_length fuel n ≤ k := by
  intro fuel
  induction fuel with
  | zero => intro n k _; exact Nat.zero_le _
  | succ fuel ih =>
    intro n k h
    simp only [bit_length]
    split_ifs with h0
    · exact Nat.zero_le _
    · cases k with
      | zero => simp at h; exact absurd h h0
      | succ k =>
        have : n / 2 < 2 ^ k := by
          rw [Nat.pow_succ] at h
          omega
        have := ih (n / 2) k this
        omega

theorem bit_length_zero (fuel : Nat) : bit_length fuel 0 = 0 := by
  cases fuel <;> simp [bit_length]

/-- A number other than 0 is at least the power of two that its leading
binary digit stands for. -/
theorem bit_length_lower : ∀ (fuel n : Nat), n < 2 ^ fuel → n ≠ 0 →
    ∃ b, bit_length fuel n = b + 1 ∧ 2 ^ b ≤ n := by
  intro fuel
  induction fuel with
  | zero =>
    intro n h h0
    simp at h
    exact absurd h h0
  | succ fuel ih =>
    intro n h h0
    simp only [bit_length, if_neg h0]
    by_cases h2 : n / 2 = 0
    · refine ⟨0, ?_, ?_⟩
      · rw [h2, bit_length_zero]
      · simp only [Nat.pow_zero]
        omega
    · have hlt : n / 2 < 2 ^ fuel := by
        rw [Nat.pow_succ] at h
        omega
      obtain ⟨b, hb, hlow⟩ := ih (n / 2) hlt h2
      refine ⟨b + 1, by rw [hb], ?_⟩
      rw [Nat.pow_succ]
      omega

/-- For a step below `2 ^ 52` the threshold computed in double precision is
the fifth of the step, rounded down. -/
theorem double_threshold_eq_fifth (step : Nat) (h : step < 2 ^ 52) :
    double_threshold step = step / 5 := by
  have h1 : round_to_double step = step := by
    have hb : bit_length 192 step - 53 = 0 := by
      have := bit_length_le 192 step 52 h
      omega
    simp only [round_to_double, hb, Nat.pow_zero, Nat.mod_one, Nat.div_one, Nat.mul_one]
    rw [if_neg (by omega)]
  unfold double_threshold
  rw [h1]
  by_cases hz : step = 0
  · subst hz
    decide
  · have hp : step * 3602879701896397 < 2 ^ 104 := by omega
    have hne : step * 3602879701896397 ≠ 0 := by omega
    obtain ⟨b, hb, hlow⟩ := bit_length_lower 192 _ (by omega) hne
    have hb2 : b ≤ 103 := by
      have := bit_length_le 192 _ 104 hp
      omega
    unfold round_to_double
    simp only
    rw [hb]
    interval_cases b <;>
      simp only [Nat.reducePow, Nat.reduceAdd, Nat.reduceSub, Nat.mod_one, Nat.div_one,
        Nat.mul_one] at hlow ⊢ <;>
      split_ifs <;> omega

theorem double_threshold_100 : double_threshold 100 = 20 := by decide

/-! ## EtcdSnowflake: the keys of the claim -/

/-- C17: for every answer of the coordinator, `claim_node_id` submits the
transactions on the keys `uuid-generator/node/0`, `uuid-generator/node/1`, ...
in increasing order, the number written in decimal, and returns the smallest
`i ≤ 1023` whose answer holds `"succeeded":true`, having tried the keys of 0
to `i` only; when no `i ≤ 1023` has such an answer it throws after trying all
1024 keys; when the lease grant has no `"ID":"` it throws before any
transaction. -/
theorem etcd_claim_node_id (lease_resp : String) (txn_resp : Nat → String) :
    (str_contains lease_resp "\"ID\":\"" = true →
      ∀ i, i ≤ 1023 → str_contains (txn_resp i) "\"succeeded\":true" = true →
        (∀ j, j < i → str_contains (txn_resp j) "\"succeeded\":true" = false) →
        EtcdSnowflake.claim_node_id lease_resp txn_resp =
          (.claimed i,
            (List.range (i + 1)).map (fun j => "uuid-generator/node/" ++ to_string j))) ∧
    (str_contains lease_resp "\"ID\":\"" = true →
      (∀ i, i ≤ 1023 → str_contains (txn_resp i) "\"succeeded\":true" = false) →
      EtcdSnowflake.claim_node_id lease_resp txn_resp =
        (.failed, (List.range 1024).map (fun j => "uuid-generator/node/" ++ to_string j))) ∧
    (str_contains lease_resp "\"ID\":\"" = false →
      EtcdSnowflake.claim_node_id lease_resp txn_resp = (.failed, [])) ∧
    (∀ j, j ≤ 1023 → dec_value (to_string j).data = j ∧
      (∀ c ∈ (to_string j).data, c.isDigit = true) ∧
      (j ≠ 0 → (to_string j).data.head? ≠ some '0')) ∧
    (List.range 3).map (fun j => "uuid-generator/node/" ++ to_string j) =
      ["uuid-generator/node/0", "uuid-generator/node/1", "uuid-generator/node/2"] ∧
    "uuid-generator/node/" ++ to_string 1023 = "uuid-generator/node/1023" := by
  have hM : MAX_NODE_ID + 1 = 1024 := by decide
  have hkey : EtcdSnowflake.node_key = fun j => "uuid-generator/node/" ++ to_string j := rfl
  refine ⟨?_, ?_, ?_, ?_, by decide, by decide⟩
  · intro hl i hi hs hn
    have h := EtcdSnowflake.claim_from_first txn_resp 1024 0 i (Nat.zero_le _) (by omega) hs
      (fun j _ hj => hn j hj)
    rw [hkey] at h
    simp only [EtcdSnowflake.claim_node_id, hl, if_true, hM, h, Nat.sub_zero,
      List.range_eq_range']
  · intro hl hn
    have h := EtcdSnowflake.claim_from_none txn_resp 1024 0
      (fun j _ hj => hn j (by omega))
    rw [hkey] at h
    simp only [EtcdSnowflake.claim_node_id, hl, if_true, hM, h, List.range_eq_range']
  · intro hl
    simp [EtcdSnowflake.claim_node_id, hl]
  · intro j hj
    have hlt : j < 10 ^ 20 := by omega
    refine ⟨dec_core_value 20 j hlt, dec_core_digits 20 j, ?_⟩
    intro h0 hhead
    obtain ⟨d, rest, h1, h2, h3⟩ := dec_core_head 20 j h0 hlt
    rw [show (to_string j).data = dec_core 20 j [] from rfl, h3] at hhead
    simp only [List.head?_cons, Option.some.injEq] at hhead
    interval_cases d <;> exact absurd hhead (by decide)

/-- C17, at a coordinator that grants the lease, reports the key of node 0 as
taken and lets the transaction on the key of node 1 succeed: the claim
returns 1 after trying `uuid-generator/node/0` and `uuid-generator/node/1`. -/
theorem etcd_claim_node_id_witness :
    str_contains "\x7b\"header\":\x7b\x7d,\"ID\":\"7587862094\",\"TTL\":\"10\"\x7d" "\"ID\":\"" = true ∧
    EtcdSnowflake.claim_node_id "\x7b\"header\":\x7b\x7d,\"ID\":\"7587862094\",\"TTL\":\"10\"\x7d"
        (fun i => if i = 0 then "\x7b\"header\":\x7b\"revision\":\"5\"\x7d\x7d"
          else "\x7b\"header\":\x7b\"revision\":\"6\"\x7d,\"succeeded\":true\x7d") =
      (.claimed 1, ["uuid-generator/node/0", "uuid-generator/node/1"]) :=
  ⟨by decide,
    (etcd_claim_node_id "\x7b\"header\":\x7b\x7d,\"ID\":\"7587862094\",\"TTL\":\"10\"\x7d"
      (fun i => if i = 0 then "\x7b\"header\":\x7b\"revision\":\"5\"\x7d\x7d"
        else "\x7b\"header\":\x7b\"revision\":\"6\"\x7d,\"succeeded\":true\x7d")).1
      (by decide) 1 (by decide) (by decide)
      (fun j hj => by
        have h0 : j = 0 := by omega
        subst h0
        decide)⟩

/-! ## DualBufferGenerator: the prefetch trigger against a fifth of the step -/

set_option maxRecDepth 100000 in
/-- C27, as stated: at `step = 6755477973253684` the product `step * 0.2`
in double precision converts to `1351095594650737`, one more than the fifth of
the step rounded down; a call that leaves `remaining = 1351095594650737`, which
is more than `0.2 * step`, sets `fetch_needed`. -/
theorem dual_buffer_prefetch_trigger_large_step :
    double_threshold 6755477973253684 = 1351095594650737 ∧
    6755477973253684 / 5 = 1351095594650736 ∧
    6755477973253684 + 1 - (5404382378602947 + 1) = 1351095594650737 ∧
    ¬ 5 * 1351095594650737 ≤ 6755477973253684 ∧
    DualBufferGenerator.next_id double_threshold
        { segments0 := { current_id := 5404382378602947, max_id := 6755477973253684,
                         step := 6755477973253684, is_ready := true },
          segments1 := Segment.init, current_pos := 0, fetch_needed := false } [] =
      .returned 5404382378602947
        { segments0 := { current_id := 5404382378602948, max_id := 6755477973253684,
                         step := 6755477973253684, is_ready := true },
          segments1 := Segment.init, current_pos := 0, fetch_needed := true } [] := by
  decide

/-- C27, amended: when the current segment still has an ID and its step is
below `2 ^ 52`, `next_id` returns the old `current_id` and increments it by
one; `current_pos` and the sibling segment stay as they were; the threshold
that the code computes from `step * 0.2` in double precision is the fifth of
the step rounded down, and `fetch_needed` is set exactly when the count
`remaining = max_id - current_id + 1` after the increment is at most
`0.2 * step` (that is `5 * remaining ≤ step`), the sibling is not ready and
the flag was not set; a flag that was set stays set. -/
theorem dual_buffer_prefetch_trigger (g : DualBufferGenerator)
    (db : List (Option (Nat × Nat)))
    (hcur : (g.segments g.current_pos).current_id ≤ (g.segments g.current_pos).max_id)
    (hfit : (g.segments g.current_pos).max_id < 2 ^ 64)
    (hstep : (g.segments g.current_pos).step < 2 ^ 52) :
    ∃ g1, DualBufferGenerator.next_id double_threshold g db =
        .returned (g.segments g.current_pos).current_id g1 db ∧
      g1.segments g.current_pos =
        { g.segments g.current_pos with
          current_id := ((g.segments g.current_pos).current_id + 1) % 2 ^ 64 } ∧
      g1.current_pos = g.current_pos ∧
      g1.segments (1 - g.current_pos) = g.segments (1 - g.current_pos) ∧
      double_threshold (g.segments g.current_pos).step = (g.segments g.current_pos).step / 5 ∧
      g1.fetch_needed = (g.fetch_needed ||
        (decide (5 * ((g.segments g.current_pos).max_id + 1 -
            ((g.segments g.current_pos).current_id + 1)) ≤
          (g.segments g.current_pos).step) &&
          !(g.segments (1 - g.current_pos)).is_ready && !g.fetch_needed)) := by
  have hthr := double_threshold_eq_fifth _ hstep
  obtain ⟨g1, h1, h2, h3, h4, _, h6⟩ := prefetch_trigger_of_threshold double_threshold g db hcur hfit
  exact ⟨g1, h1, h2, h3, h4, hthr, h6 hthr⟩

/-- C27, amended, at a segment with `max_id = 1100` and `step = 100` whose
`current_id` is 1080, the sibling not ready: the call returns 1080, 20 IDs
remain, `5 * 20 ≤ 100` and the flag is set; and at `current_id = 1079`, where
21 IDs remain, the flag is not set. -/
theorem dual_buffer_prefetch_trigger_witness :
    (1080 ≤ 1100 ∧ 1100 < 2 ^ 64 ∧ 100 < 2 ^ 52) ∧
    (∃ g1, DualBufferGenerator.next_id double_threshold
        { segments0 := { current_id := 1080, max_id := 1100, step := 100, is_ready := true },
          segments1 := Segment.init, current_pos := 0, fetch_needed := false } [] =
        .returned 1080 g1 [] ∧
      g1.segments 0 = { current_id := 1081, max_id := 1100, step := 100, is_ready := true } ∧
      g1.current_pos = 0 ∧
      g1.segments 1 = Segment.init ∧
      double_threshold 100 = 20 ∧
      g1.fetch_needed = true) ∧
    (∃ g1, DualBufferGenerator.next_id double_threshold
        { segments0 := { current_id := 1079, max_id := 1100, step := 100, is_ready := true },
          segments1 := Segment.init, current_pos := 0, fetch_needed := false } [] =
        .returned 1079 g1 [] ∧
      g1.segments 0 = { current_id := 1080, max_id := 1100, step := 100, is_ready := true } ∧
      g1.current_pos = 0 ∧
      g1.segments 1 = Segment.init ∧
      double_threshold 100 = 20 ∧
      g1.fetch_needed = false) :=
  ⟨⟨by decide, by decide, by decide⟩,
    dual_buffer_prefetch_trigger
      { segments0 := { current_id := 1080, max_id := 1100, step := 100, is_ready := true },
        segments1 := Segment.init, current_pos := 0, fetch_needed := false } []
      (by decide) (by decide) (by decide),
    dual_buffer_prefetch_trigger
      { segments0 := { current_id := 1079, max_id := 1100, step := 100, is_ready := true },
        segments1 := Segment.init, current_pos := 0, fetch_needed := false } []
      (by decide) (by decide) (by decide)⟩


end IdGen
